import Mathlib

/-!
Verification of the NAND boolean-circuit engine in `src/examples/nand.c`.

The C code is shallowly embedded as follows.  Gate records live in a central
arena (`Network`), addressed by stable natural-number handles; a C pointer
value is modelled by `ptr_t` (null, a gate handle, or the identity of an
external boolean signal).  The generic containers from the missing headers
`darray.h` and `stack.h` are modelled as Lean lists (a `darray_t` is a list
with push-back/pop-back/swap/get, a `stack_t` is a list whose head is the
top).  Machine integers: `unsigned` indices become `Nat`, `ssize_t` values
become `Int` (their magnitudes stay far below any overflow boundary).
Memory-allocation failure is modelled by an explicit allocation budget: each
`stack_new` / `stack_push` / `darray_push_back` consumes one unit and fails
when the budget is exhausted.  The DFS while-loop is run on explicit fuel;
running out of fuel yields the distinguished result `none`, which never
occurs for adequate fuel (proved below).
-/

/-- Enum `input_type` from nand.c. -/
inductive input_type where
  | EMPTY_INPUT
  | BOOLEAN_SIGNAL_INPUT
  | NAND_GATE_INPUT
deriving DecidableEq, Repr

/-- Enum `topo_sort_status` from nand.c. -/
inductive topo_sort_status where
  | VISITED
  | NOT_VISITED
  | CURRENTLY_PROCESSING
deriving DecidableEq, Repr

/-- A C pointer value as stored in the `void *ptr` field of an input slot:
either NULL, a pointer to a gate (modelled by its arena handle), or a
pointer to an external boolean signal (modelled by a signal identifier). -/
inductive ptr_t where
  | null
  | gate (h : Nat)
  | sig (sid : Nat)
deriving DecidableEq, Repr

/-- Struct `in_info_t`: one input slot of a gate. -/
structure in_info where
  ptr : ptr_t
  type : input_type
  ind : Nat
deriving DecidableEq, Repr

/-- Struct `out_info_t`: one consumer record in a gate's `outputs` darray. -/
structure out_info where
  gate : Nat
  ind : Nat
deriving DecidableEq, Repr

/-- Struct `nand`: one gate record.  The C field `input_count` is set once
at creation to the length of the allocated `inputs` array and never written
again, so it is represented by that length (see `nand_t.input_count`). -/
structure nand_t where
  crit_path_len : Int
  inputs : List in_info
  outputs : List out_info
  status : topo_sort_status
  signal : Bool
deriving DecidableEq, Repr

/-- The `input_count` field of a gate record (always equal to the length of
the `inputs` array it was created with). -/
def nand_t.input_count (g : nand_t) : Nat := g.inputs.length

/-- The empty slot value written by the C code when clearing an input. -/
def emptyInput : in_info := ⟨ptr_t.null, input_type.EMPTY_INPUT, 0⟩

/-- Reading `g->inputs[k]`; out-of-range reads (undefined behaviour in C)
return the empty slot. -/
def nand_t.getInput (g : nand_t) (k : Nat) : in_info := g.inputs.getD k emptyInput

/-- Writing `g->inputs[k] = inf`; out-of-range writes are dropped. -/
def nand_t.setInput (g : nand_t) (k : Nat) (inf : in_info) : nand_t :=
  { g with inputs := g.inputs.set k inf }

/-- The arena of gate records.  Entry `h` is `none` when no live gate has
handle `h` (never allocated, or freed by `nand_delete`). -/
structure Network where
  gates : List (Option nand_t)
deriving DecidableEq, Repr

/-- Dereferencing handle `h`: `none` models a dangling or unallocated
pointer. -/
def Network.getGate (net : Network) (h : Nat) : Option nand_t :=
  net.gates.getD h none

/-- A default gate record used for reads through invalid handles (such
reads are undefined behaviour in the C program). -/
def defaultGate : nand_t := ⟨0, [], [], topo_sort_status.NOT_VISITED, false⟩

/-- Total read of the gate behind handle `h`. -/
def Network.gateD (net : Network) (h : Nat) : nand_t :=
  (net.getGate h).getD defaultGate

/-- In-place mutation of the gate record behind handle `h` (a no-op when the
handle is invalid, which in C would be undefined behaviour). -/
def Network.modifyGate (net : Network) (h : Nat) (f : nand_t → nand_t) : Network :=
  match net.getGate h with
  | some g => ⟨net.gates.set h (some (f g))⟩
  | none => net

/-- Validity of a pointer argument: NULL is a valid value to pass; a non-null
handle must reference a live gate (anything else is a dangling pointer, whose
use is undefined behaviour). -/
def validPtr (net : Network) : Option Nat → Bool
  | none => true
  | some h => (net.getGate h).isSome

/-- Modelled from the spec (the header `darray.h` is not in the repository):
`darray_swap_elements` swaps the elements at two indices of a dynamic
array. -/
def darray_swap_elements (d : List out_info) (i j : Nat) : List out_info :=
  match d[i]?, d[j]? with
  | some a, some b => (d.set i b).set j a
  | _, _ => d

/-- Error values reported through `errno` by nand.c. -/
inductive Err where
  | EINVAL
  | ENOMEM
  | ECANCELED
deriving DecidableEq, Repr

/-- Function `nand_disconnect_nand` (nand.c lines 103-133): remove the edge
from the output of gate `g_out` into input `in_ind` of gate `g_in`, using
swap-with-last followed by pop-back on the consumer darray, fixing up the
back-reference of the moved record, and finally clearing the input slot.
Every read and write goes through the arena in the same order as in C, so
aliasing between `g_out`, `g_in` and the moved record's gate behaves as it
does for the in-place C updates. -/
def nand_disconnect_nand (net : Network) (g_out g_in : Nat) (in_ind : Nat) : Network :=
  let out_ind := ((net.gateD g_in).getInput in_ind).ind
  let g_out_sz := (net.gateD g_out).outputs.length
  let net1 :=
    if out_ind + 1 ≠ g_out_sz then
      let netA := net.modifyGate g_out
        (fun g => { g with outputs := darray_swap_elements g.outputs out_ind (g_out_sz - 1) })
      let oi := (netA.gateD g_out).outputs.getD out_ind ⟨0, 0⟩
      netA.modifyGate oi.gate
        (fun g => { g with inputs := g.inputs.set oi.ind { g.getInput oi.ind with ind := out_ind } })
    else net
  let net2 := net1.modifyGate g_out (fun g => { g with outputs := g.outputs.dropLast })
  net2.modifyGate g_in (fun g => g.setInput in_ind emptyInput)

/-- Function `nand_disconnect_signal` (nand.c lines 147-154). -/
def nand_disconnect_signal (net : Network) (g : Nat) (k : Nat) : Network :=
  net.modifyGate g (fun gg => gg.setInput k emptyInput)

/-- Function `nand_disconnect_input` (nand.c lines 168-174).  The two `if`
statements are sequential in C and both re-read the slot type, which the
threading of `net1` reproduces. -/
def nand_disconnect_input (net : Network) (g : Nat) (k : Nat) : Network :=
  let net1 :=
    if ((net.gateD g).getInput k).type = input_type.BOOLEAN_SIGNAL_INPUT then
      nand_disconnect_signal net g k
    else net
  if ((net1.gateD g).getInput k).type = input_type.NAND_GATE_INPUT then
    match ((net1.gateD g).getInput k).ptr with
    | ptr_t.gate h => nand_disconnect_nand net1 h g k
    | _ => net1
  else net1

/-- Function `nand_connect_nand` (nand.c lines 582-611).  The `alloc` flag
models whether the `darray_push_back` allocation succeeds; on failure the
darray, and hence the whole arena, is left unchanged (modelled from the
spec for the missing `darray.h`: a failed push leaves the array as it
was). -/
def nand_connect_nand (net : Network) (g_out g_in : Option Nat) (k : Nat)
    (alloc : Bool) : Except Err Unit × Network :=
  match g_out, g_in with
  | some ho, some hi =>
    if k ≥ (net.gateD hi).input_count then (Except.error Err.EINVAL, net)
    else if ((net.gateD hi).getInput k).ptr = ptr_t.gate ho then (Except.ok (), net)
    else if !alloc then (Except.error Err.ENOMEM, net)
    else
      let net1 := net.modifyGate ho (fun g => { g with outputs := g.outputs ++ [⟨hi, k⟩] })
      let net2 := nand_disconnect_input net1 hi k
      let net3 := net2.modifyGate hi
        (fun g => g.setInput k ⟨ptr_t.gate ho, input_type.NAND_GATE_INPUT,
                               (net2.gateD ho).outputs.length - 1⟩)
      (Except.ok (), net3)
  | _, _ => (Except.error Err.EINVAL, net)

/-- Function `nand_connect_signal` (nand.c lines 613-626). -/
def nand_connect_signal (net : Network) (s : Option Nat) (g : Option Nat)
    (k : Nat) : Except Err Unit × Network :=
  match s, g with
  | some sid, some h =>
    if k ≥ (net.gateD h).input_count then (Except.error Err.EINVAL, net)
    else
      let net1 := nand_disconnect_input net h k
      (Except.ok (),
       net1.modifyGate h
         (fun gg => gg.setInput k ⟨ptr_t.sig sid, input_type.BOOLEAN_SIGNAL_INPUT, 0⟩))
  | _, _ => (Except.error Err.EINVAL, net)

/-- Function `nand_new` (nand.c lines 529-560): allocate a fresh gate with
`n` empty input slots; the new handle is the next free arena index.  The
`alloc` flag models the success of the three allocations. -/
def nand_new (net : Network) (n : Nat) (alloc : Bool) : Option Nat × Network :=
  if alloc then
    (some net.gates.length,
     ⟨net.gates ++ [some ⟨0, List.replicate n emptyInput, [],
                          topo_sort_status.NOT_VISITED, false⟩]⟩)
  else (none, net)

/-- The while-loop of `nand_delete` that repeatedly disconnects the edge
described by the last consumer record.  Each iteration pops exactly one
record off the darray of gate `h`, so running the loop with fuel equal to
the current size is the same as running it to emptiness. -/
def deleteOutputsLoop : Nat → Network → Nat → Network
  | 0, net, _ => net
  | fuel + 1, net, h =>
    let g := net.gateD h
    if g.outputs.length > 0 then
      let info := g.outputs.getLastD ⟨0, 0⟩
      deleteOutputsLoop fuel (nand_disconnect_nand net h info.gate info.ind) h
    else net

/-- Function `nand_delete` (nand.c lines 562-580): disconnect all inputs,
then all outgoing edges, then free the record. -/
def nand_delete (net : Network) (g : Option Nat) : Network :=
  match g with
  | none => net
  | some h =>
    let n := (net.gateD h).input_count
    let net1 := (List.range n).foldl
      (fun acc i =>
        if ((acc.gateD h).getInput i).type ≠ input_type.EMPTY_INPUT then
          nand_disconnect_input acc h i
        else acc) net
    let net2 := deleteOutputsLoop ((net1.gateD h).outputs.length) net1 h
    ⟨net2.gates.set h none⟩

/-- Function `nand_fan_out` (nand.c lines 644-650). -/
def nand_fan_out (net : Network) (g : Option Nat) : Except Err Int :=
  match g with
  | none => Except.error Err.EINVAL
  | some h => Except.ok ((net.gateD h).outputs.length : Int)

/-- Function `nand_input` (nand.c lines 652-664); the second component is
the error reported through `errno` (`none` on the non-error paths). -/
def nand_input (net : Network) (g : Option Nat) (k : Nat) : ptr_t × Option Err :=
  match g with
  | none => (ptr_t.null, some Err.EINVAL)
  | some h =>
    if k ≥ (net.gateD h).input_count then (ptr_t.null, some Err.EINVAL)
    else if ((net.gateD h).getInput k).type = input_type.EMPTY_INPUT then
      (ptr_t.null, none)
    else (((net.gateD h).getInput k).ptr, none)

/-- Modelled from the spec (the header `darray.h` is not in the repository):
`darray_get` with a signed index; any index outside `[0, size)` is an
out-of-bounds access, which is undefined behaviour, marked here by
`none`. -/
def darray_get_signed (d : List out_info) (k : Int) : Option out_info :=
  if hk : 0 ≤ k ∧ k.toNat < d.length then some (d.get ⟨k.toNat, hk.2⟩) else none

/-- Function `nand_output` (nand.c lines 666-672).  The argument `k` has
type `ssize_t`.  The validation only tests `k >= nand_fan_out(g)`; a
negative `k` passes it and flows into `darray_get`.  Result: the returned
gate pointer (if any) and the error reported through `errno`; the pair
`(none, none)` marks the undefined-behaviour path. -/
def nand_output (net : Network) (g : Option Nat) (k : Int) : Option Nat × Option Err :=
  match g with
  | none => (none, some Err.EINVAL)
  | some h =>
    if k ≥ ((net.gateD h).outputs.length : Int) then (none, some Err.EINVAL)
    else
      match darray_get_signed (net.gateD h).outputs k with
      | some oi => (some oi.gate, none)
      | none => (none, none)

/-- Struct `dfs_info_t`: one frame of the explicit DFS stack. -/
structure dfs_info where
  gate : Nat
  ind : Nat
deriving DecidableEq, Repr

/-- The mutable state visible to the topological-sort helpers: the gate
arena, the DFS stack, the `topo_order` stack, the `all_gates` stack (all
with the head of the list as the top of the stack), and the remaining
allocation budget. -/
structure EvalState where
  net : Network
  dstack : List dfs_info
  topo : List Nat
  allGates : List Nat
  budget : Nat
deriving DecidableEq, Repr

/-- Function `process_input_nand` (nand.c lines 206-229).  Returns the
error (if any) together with the state as mutated up to the point of
return. -/
def process_input_nand (h : Nat) (st : EvalState) : Option Err × EvalState :=
  if (st.net.gateD h).status = topo_sort_status.CURRENTLY_PROCESSING then
    (some Err.ECANCELED, st)
  else if (st.net.gateD h).status = topo_sort_status.NOT_VISITED then
    match st.budget with
    | 0 => (some Err.ENOMEM, st)
    | b + 1 =>
      let st1 : EvalState := { st with allGates := h :: st.allGates, budget := b }
      let net1 := st1.net.modifyGate h
        (fun g => { g with status := topo_sort_status.CURRENTLY_PROCESSING })
      let st2 : EvalState := { st1 with net := net1 }
      match st2.budget with
      | 0 => (some Err.ENOMEM, st2)
      | b2 + 1 =>
        (none, { st2 with dstack := ⟨h, 0⟩ :: st2.dstack, budget := b2 })
  else (none, st)

/-- Function `process_input` (nand.c lines 255-273). -/
def process_input (input : in_info) (st : EvalState) : Option Err × EvalState :=
  if input.type = input_type.EMPTY_INPUT then (some Err.ECANCELED, st)
  else if input.type = input_type.NAND_GATE_INPUT then
    match input.ptr with
    | ptr_t.gate h => process_input_nand h st
    | _ => (none, st)
  else (none, st)

/-- Function `process_node` (nand.c lines 295-321).  The empty-stack case
cannot arise (the caller tests the size first); it returns the state
unchanged. -/
def process_node (st : EvalState) : Option Err × EvalState :=
  match st.dstack with
  | [] => (none, st)
  | di :: rest =>
    let st0 : EvalState := { st with dstack := rest }
    let g := st0.net.gateD di.gate
    let k := di.ind
    if k = g.input_count then
      let netv := st0.net.modifyGate di.gate
        (fun gg => { gg with status := topo_sort_status.VISITED })
      let st1 : EvalState := { st0 with net := netv }
      match st1.budget with
      | 0 => (some Err.ENOMEM, st1)
      | b + 1 => (none, { st1 with topo := di.gate :: st1.topo, budget := b })
    else
      match st0.budget with
      | 0 => (some Err.ENOMEM, st0)
      | b + 1 =>
        let st1 : EvalState :=
          { st0 with dstack := ⟨di.gate, k + 1⟩ :: st0.dstack, budget := b }
        process_input (g.getInput k) st1

/-- The while-loop of `topo_sort_dfs` (nand.c lines 361-365), run on
explicit fuel; `none` means the fuel ran out (which never happens for
adequate fuel). -/
def dfsLoop : Nat → EvalState → Option (Option Err × EvalState)
  | 0, st => if st.dstack.isEmpty then some (none, st) else none
  | fuel + 1, st =>
    if st.dstack.isEmpty then some (none, st)
    else
      match process_node st with
      | (none, st1) => dfsLoop fuel st1
      | (some e, st1) => some (some e, st1)

/-- Function `topo_sort_dfs` (nand.c lines 348-367): push the start gate
onto `all_gates` and the DFS stack (each push may fail on allocation), mark
it as being processed, and run the loop. -/
def topo_sort_dfs (fuel : Nat) (h : Nat) (st : EvalState) : Option (Option Err × EvalState) :=
  match st.budget with
  | 0 => some (some Err.ENOMEM, st)
  | b + 1 =>
    let st1 : EvalState := { st with allGates := h :: st.allGates, budget := b }
    match st1.budget with
    | 0 => some (some Err.ENOMEM, st1)
    | b2 + 1 =>
      let st2 : EvalState := { st1 with dstack := ⟨h, 0⟩ :: st1.dstack, budget := b2 }
      let net2 := st2.net.modifyGate h
        (fun g => { g with status := topo_sort_status.CURRENTLY_PROCESSING })
      dfsLoop fuel { st2 with net := net2 }

/-- The for-loop of `topo_sort` (nand.c lines 423-429): iterate over the
requested gates, skipping those already VISITED, stopping at the first
failure. -/
def topoSortLoop (fuel : Nat) : List Nat → EvalState → Option (Option Err × EvalState)
  | [], st => some (none, st)
  | h :: rest, st =>
    if (st.net.gateD h).status = topo_sort_status.VISITED then
      topoSortLoop fuel rest st
    else
      match topo_sort_dfs fuel h st with
      | some (none, st1) => topoSortLoop fuel rest st1
      | r => r

/-- Function `clear_gates` (nand.c lines 378-385): pop every gate off
`all_gates` and mark it NOT_VISITED. -/
def clearGatesLoop : List Nat → Network → Network
  | [], net => net
  | h :: rest, net =>
    clearGatesLoop rest
      (net.modifyGate h (fun g => { g with status := topo_sort_status.NOT_VISITED }))

/-- Function `topo_sort` (nand.c lines 406-437): create the two stacks
(possible allocation failures), run the DFS loop over the requested gates,
always clear the visited statuses, and reverse the topological order.  The
result is the error (if any), the topological order (oldest first, after
the `stack_reverse`), and the arena after cleanup. -/
def topo_sort (fuel : Nat) (net : Network) (gs : List Nat) (budget : Nat) :
    Option (Option Err × List Nat × Network) :=
  match budget with
  | 0 => some (some Err.ENOMEM, [], net)
  | b + 1 =>
    match b with
    | 0 => some (some Err.ENOMEM, [], net)
    | b2 + 1 =>
      match topoSortLoop fuel gs ⟨net, [], [], [], b2⟩ with
      | some (e, st) =>
        some (e, st.topo.reverse, clearGatesLoop st.allGates st.net)
      | none => none

/-- The body of the evaluation loop of `evaluate_sorted` for one gate
(nand.c lines 456-479): reset signal and critical path, fold over the input
slots in ascending order, negate the accumulated AND.  Reads of other gates
go through the current arena, reads and writes of the gate itself are
sequenced exactly as the in-place C updates. -/
def evalStep (sigs : Nat → Bool) (net : Network) (h : Nat) : Network :=
  let net0 := net.modifyGate h (fun g => { g with signal := true, crit_path_len := 0 })
  let net1 := (List.range (net0.gateD h).input_count).foldl
    (fun acc i =>
      let inf := (acc.gateD h).getInput i
      match inf.type, inf.ptr with
      | input_type.BOOLEAN_SIGNAL_INPUT, ptr_t.sig sid =>
        acc.modifyGate h (fun g =>
          let g1 := if g.crit_path_len < 1 then { g with crit_path_len := 1 } else g
          { g1 with signal := g1.signal && sigs sid })
      | input_type.NAND_GATE_INPUT, ptr_t.gate hs =>
        let sg := acc.gateD hs
        acc.modifyGate h (fun g =>
          let g1 :=
            if g.crit_path_len < sg.crit_path_len + 1 then
              { g with crit_path_len := sg.crit_path_len + 1 }
            else g
          { g1 with signal := g1.signal && sg.signal })
      | _, _ => acc) net0
  net1.modifyGate h (fun g => { g with signal := !g.signal })

/-- Function `evaluate_sorted` (nand.c lines 451-481): process the gates in
the (already reversed) topological order, front first. -/
def evaluate_sorted (net : Network) (sigs : Nat → Bool) (order : List Nat) : Network :=
  order.foldl (evalStep sigs) net

/-- Function `nand_evaluate_all` (nand.c lines 503-527): one allocation for
the `topo_order` stack, the topological sort, the forward pass, then the
collection loop writing `s[i] = g[i]->signal` and maximising the critical
path.  Returns the C result (`Except` models the -1/errno outcome) together
with the final arena. -/
def nand_evaluate_all (net : Network) (sigs : Nat → Bool) (gs : List Nat)
    (fuel budget : Nat) : Option (Except Err (Int × List Bool) × Network) :=
  match budget with
  | 0 => some (Except.error Err.ENOMEM, net)
  | b + 1 =>
    match topo_sort fuel net gs b with
    | none => none
    | some (some e, _, net1) => some (Except.error e, net1)
    | some (none, order, net1) =>
      let net2 := evaluate_sorted net1 sigs order
      let l := gs.foldl
        (fun acc h =>
          if acc < (net2.gateD h).crit_path_len then (net2.gateD h).crit_path_len
          else acc) 0
      some (Except.ok (l, gs.map (fun h => (net2.gateD h).signal)), net2)

/-- Function `nand_evaluate` (nand.c lines 628-642): argument validation
(NULL array, NULL output buffer modelled by `sNull`, zero length, NULL
entries) followed by `nand_evaluate_all`. -/
def nand_evaluate (net : Network) (sigs : Nat → Bool) (g : Option (List (Option Nat)))
    (sNull : Bool) (fuel budget : Nat) : Option (Except Err (Int × List Bool) × Network) :=
  match g with
  | none => some (Except.error Err.EINVAL, net)
  | some gl =>
    if sNull || gl.length = 0 then some (Except.error Err.EINVAL, net)
    else if gl.any (fun x => x = none) then some (Except.error Err.EINVAL, net)
    else nand_evaluate_all net sigs (gl.map (fun x => x.getD 0)) fuel budget

/-- The half of the bidirectional invariant attached to one input slot:
an occupied slot of type NAND_GATE_INPUT stores a handle `s` of a live gate
whose consumer record number `ind` points back at exactly this slot; the
`type` and `ptr` fields are coherent. -/
def slotOk (net : Network) (t : Nat) (k : Nat) (inf : in_info) : Bool :=
  match inf.type, inf.ptr with
  | input_type.EMPTY_INPUT, ptr_t.null => true
  | input_type.BOOLEAN_SIGNAL_INPUT, ptr_t.sig _ => true
  | input_type.NAND_GATE_INPUT, ptr_t.gate s =>
    match net.getGate s with
    | some gs =>
      match gs.outputs[inf.ind]? with
      | some oi => oi.gate == t && oi.ind == k
      | none => false
    | none => false
  | _, _ => true && false

/-- The half of the bidirectional invariant attached to one consumer
record: record number `i` of gate `s` names a live gate whose referenced
input slot holds GateSource(s, i). -/
def outOk (net : Network) (s : Nat) (i : Nat) (oi : out_info) : Bool :=
  match net.getGate oi.gate with
  | some gt =>
    match gt.inputs[oi.ind]? with
    | some inf =>
      inf.type == input_type.NAND_GATE_INPUT && inf.ptr == ptr_t.gate s && inf.ind == i
    | none => false
  | none => false

/-- All slots and all consumer records of one live gate satisfy their half
of the pairing invariant. -/
def gateOk (net : Network) (t : Nat) (g : nand_t) : Bool :=
  (List.range g.inputs.length).all (fun k => slotOk net t k (g.getInput k)) &&
  (List.range g.outputs.length).all (fun i => outOk net t i (g.outputs.getD i ⟨0, 0⟩))

/-- The bidirectional pairing invariant of the whole arena (spec section 3):
slot k of T holding GateSource(S, i) and consumer record i of S being (T, k)
imply each other, for every live gate. -/
def Wf (net : Network) : Bool :=
  (List.range net.gates.length).all (fun t =>
    match net.getGate t with
    | some g => gateOk net t g
    | none => true)

/-- Every live gate has traversal status NOT_VISITED (the resting state
between `evaluate` calls). -/
def AtRest (net : Network) : Bool :=
  (List.range net.gates.length).all (fun t =>
    match net.getGate t with
    | some g => g.status == topo_sort_status.NOT_VISITED
    | none => true)

/-- No live gate references handle `h`, neither through an input slot nor
through a consumer record. -/
def noRefs (net : Network) (h : Nat) : Bool :=
  (List.range net.gates.length).all (fun t =>
    match net.getGate t with
    | some g =>
      g.inputs.all (fun inf => inf.ptr ≠ ptr_t.gate h) &&
      g.outputs.all (fun oi => oi.gate ≠ h)
    | none => true)


/-- Propositional form of `Wf`: part one describes each occupied input slot
(coherence of `type` and `ptr`, and for a gate source the matching consumer
record), part two describes each consumer record (the matching slot on the
consumer side). -/
def WfP (net : Network) : Prop :=
  (∀ (t : Nat) (gt : nand_t) (k : Nat) (inf : in_info),
     net.getGate t = some gt → gt.inputs[k]? = some inf →
     (inf.type = input_type.EMPTY_INPUT → inf.ptr = ptr_t.null) ∧
     (inf.type = input_type.BOOLEAN_SIGNAL_INPUT → ∃ sid, inf.ptr = ptr_t.sig sid) ∧
     (inf.type = input_type.NAND_GATE_INPUT → ∃ s gs, inf.ptr = ptr_t.gate s ∧
        net.getGate s = some gs ∧ gs.outputs[inf.ind]? = some ⟨t, k⟩)) ∧
  (∀ (s : Nat) (gs : nand_t) (i : Nat) (oi : out_info),
     net.getGate s = some gs → gs.outputs[i]? = some oi →
     ∃ gt inf, net.getGate oi.gate = some gt ∧ gt.inputs[oi.ind]? = some inf ∧
       inf.type = input_type.NAND_GATE_INPUT ∧ inf.ptr = ptr_t.gate s ∧ inf.ind = i)

/-- Propositional resting-state predicate: every live gate is NOT_VISITED. -/
def AtRestP (net : Network) : Prop :=
  ∀ (h : Nat) (g : nand_t), net.getGate h = some g →
    g.status = topo_sort_status.NOT_VISITED

/-- The empty arena. -/
def emptyNet : Network := ⟨[]⟩

/-- Example network: two 2-input gates; the output of gate 0 feeds slot 0 of
gate 1; slots 0 and 1 of gate 0 hold signals 0 and 1; slot 1 of gate 1 holds
signal 2. -/
def exNet : Network :=
  let n1 := (nand_new emptyNet 2 true).2
  let n2 := (nand_new n1 2 true).2
  let n3 := (nand_connect_nand n2 (some 0) (some 1) 0 true).2
  let n4 := (nand_connect_signal n3 (some 0) (some 0) 0).2
  let n5 := (nand_connect_signal n4 (some 1) (some 0) 1).2
  (nand_connect_signal n5 (some 2) (some 1) 1).2

/-- Example network: one 1-input gate whose slot 0 is wired to its own
output (a direct self-loop). -/
def selfLoopNet : Network :=
  (nand_connect_nand (nand_new emptyNet 1 true).2 (some 0) (some 0) 0 true).2

/-- Example network: one 1-input gate whose slot 0 is left Empty. -/
def emptySlotNet : Network := (nand_new emptyNet 1 true).2

/-- The value contributed by one input slot during the forward pass, as the
spec describes it: an ExternalSignal slot contributes the referenced boolean,
a GateSource slot contributes the signal of the source gate as recorded in
`net`. -/
def slotVal (net : Network) (sigs : Nat → Bool) (inf : in_info) : Bool :=
  match inf.type, inf.ptr with
  | input_type.BOOLEAN_SIGNAL_INPUT, ptr_t.sig sid => sigs sid
  | input_type.NAND_GATE_INPUT, ptr_t.gate hs => (net.gateD hs).signal
  | _, _ => true

/-- The output signal a gate should carry according to the spec: NOT of the
AND over all its slots' contributed values. -/
def specSignal (net : Network) (sigs : Nat → Bool) (g : nand_t) : Bool :=
  !(g.inputs.all (slotVal net sigs))

/-- The critical-path length a gate should carry according to the spec: 0
for arity 0, otherwise the maximum over the slots of 1 (for an
ExternalSignal slot) and source critical path + 1 (for a GateSource slot),
with source values read from `net`. -/
def specCrit (net : Network) (g : nand_t) : Int :=
  g.inputs.foldl
    (fun m inf =>
      match inf.type, inf.ptr with
      | input_type.BOOLEAN_SIGNAL_INPUT, _ => max m 1
      | input_type.NAND_GATE_INPUT, ptr_t.gate hs => max m ((net.gateD hs).crit_path_len + 1)
      | _, _ => m) 0

/-- One gate of the chain network: gate 0 reads signal 0 on both slots,
gate j reads gate j-1 on slot 0 and signal 0 on slot 1; every gate except
the last feeds slot 0 of its successor. -/
def chainGate (k j : Nat) : nand_t :=
  ⟨0,
   if j = 0 then
     [⟨ptr_t.sig 0, input_type.BOOLEAN_SIGNAL_INPUT, 0⟩,
      ⟨ptr_t.sig 0, input_type.BOOLEAN_SIGNAL_INPUT, 0⟩]
   else
     [⟨ptr_t.gate (j - 1), input_type.NAND_GATE_INPUT, 0⟩,
      ⟨ptr_t.sig 0, input_type.BOOLEAN_SIGNAL_INPUT, 0⟩],
   if j + 1 = k then [] else [⟨j + 1, 0⟩],
   topo_sort_status.NOT_VISITED, false⟩

/-- A chain of k NAND gates, each feeding slot 0 of the next, with all
other inputs tied to external signals. -/
def chainNet (k : Nat) : Network :=
  ⟨(List.range k).map (fun j => some (chainGate k j))⟩

/-- The arena produced by the swap branch of `nand_disconnect_nand`
written as an explicit composition of single-gate updates: swap records i
and j of gate s, fix up the back-reference of the moved record (gate t2,
slot k2), pop the last record of s, clear slot k of gate t. -/
def discSwapNet (net : Network) (s t k i j t2 k2 : Nat) : Network :=
  (((net.modifyGate s
      (fun g => { g with outputs := darray_swap_elements g.outputs i j })).modifyGate t2
      (fun g => { g with inputs := g.inputs.set k2 { g.getInput k2 with ind := i } })).modifyGate s
      (fun g => { g with outputs := g.outputs.dropLast })).modifyGate t
      (fun g => g.setInput k emptyInput)

/-- The arena produced by the no-swap branch of `nand_disconnect_nand`:
pop the last record of gate s, clear slot k of gate t. -/
def discLastNet (net : Network) (s t k : Nat) : Network :=
  (net.modifyGate s (fun g => { g with outputs := g.outputs.dropLast })).modifyGate t
    (fun g => g.setInput k emptyInput)

/-- The list of gate handles on the DFS stack (top of stack first). -/
def dfsGates (l : List dfs_info) : List Nat := l.map (fun f => f.gate)

/-- One already-examined input slot, as seen from a suspended DFS frame:
the slot is not empty, and a gate source stored in it is either already
fully processed (VISITED) or sits in one of the frames above the suspended
one. -/
def slotDone (net : Network) (above : List Nat) (t k : Nat) : Prop :=
  ((net.gateD t).getInput k).type ≠ input_type.EMPTY_INPUT ∧
  (∀ hs, ((net.gateD t).getInput k).type = input_type.NAND_GATE_INPUT →
    ((net.gateD t).getInput k).ptr = ptr_t.gate hs →
    (net.gateD hs).status = topo_sort_status.VISITED ∨ hs ∈ above)

/-- Invariant of the DFS stack (head of the list = top of the stack): every
frame has examined exactly its first `ind` slots, each of which is done in
the sense of `slotDone` with respect to the frames lying above it. -/
def framesOk (net : Network) : List Nat → List dfs_info → Prop
  | _, [] => True
  | above, f :: rest =>
    f.ind ≤ (net.gateD f.gate).input_count ∧
    (∀ k, k < f.ind → slotDone net above f.gate k) ∧
    framesOk net (f.gate :: above) rest

/-- Invariant of the `topo_order` stack (head = most recently pushed):
every input slot of a member gate is non-empty and every gate source in a
slot appears deeper in the stack (hence earlier in the final reversed
order). -/
def TopoOk (net : Network) : List Nat → Prop
  | [] => True
  | h :: rest =>
    (∀ k, k < (net.gateD h).input_count →
      ((net.gateD h).getInput k).type ≠ input_type.EMPTY_INPUT ∧
      (∀ hs, ((net.gateD h).getInput k).type = input_type.NAND_GATE_INPUT →
        ((net.gateD h).getInput k).ptr = ptr_t.gate hs → hs ∈ rest)) ∧
    TopoOk net rest

/-- Restoration invariant of the topological sort: resetting the status of
every gate recorded on `all_gates` recovers the arena exactly as it was
when the sort started, and every gate whose status differs from NOT_VISITED
is recorded on `all_gates`. -/
def DInv (net0 : Network) (st : EvalState) : Prop :=
  clearGatesLoop st.allGates st.net = net0 ∧
  ∀ u, (st.net.gateD u).status ≠ topo_sort_status.NOT_VISITED → u ∈ st.allGates

/-- The full invariant maintained by the DFS between `process_node` steps:
restoration, the two status/stack correspondences, no duplicate frames or
topo entries, the frame and topo-stack invariants, and liveness of every
recorded handle. -/
def DFull (net0 : Network) (st : EvalState) : Prop :=
  DInv net0 st ∧
  (∀ u, (st.net.gateD u).status = topo_sort_status.VISITED ↔ u ∈ st.topo) ∧
  (∀ u, (st.net.gateD u).status = topo_sort_status.CURRENTLY_PROCESSING ↔
     u ∈ dfsGates st.dstack) ∧
  (dfsGates st.dstack).Nodup ∧
  st.topo.Nodup ∧
  framesOk st.net [] st.dstack ∧
  TopoOk st.net st.topo ∧
  (∀ f, f ∈ st.dstack → (st.net.getGate f.gate).isSome = true) ∧
  (∀ u, u ∈ st.topo → (st.net.getGate u).isSome = true)

/-- Two arenas that agree on everything the topological sort ever reads:
liveness, input slots and status of every gate; signals and critical paths
may differ. -/
def statEq (x y : Network) : Prop :=
  ∀ u, (x.getGate u).isSome = (y.getGate u).isSome ∧
    (x.gateD u).inputs = (y.gateD u).inputs ∧
    (x.gateD u).status = (y.gateD u).status

/-- Two evaluator states that differ at most in the signals and critical
paths stored in their arenas. -/
def stSim (s t : EvalState) : Prop :=
  statEq s.net t.net ∧ s.dstack = t.dstack ∧ s.topo = t.topo ∧
  s.allGates = t.allGates ∧ s.budget = t.budget

/-- Two arenas with identical gate population, input slots, consumer lists,
signals and critical paths; only traversal statuses may differ. -/
def sameShape (x y : Network) : Prop :=
  ∀ u, (x.getGate u).isSome = (y.getGate u).isSome ∧
    (x.gateD u).inputs = (y.gateD u).inputs ∧
    (x.gateD u).outputs = (y.gateD u).outputs ∧
    (x.gateD u).signal = (y.gateD u).signal ∧
    (x.gateD u).crit_path_len = (y.gateD u).crit_path_len

/-- How the arena evolves during the DFS: only statuses change, a status
never returns to NOT_VISITED, and VISITED is final. -/
def netMono (x y : Network) : Prop :=
  sameShape y x ∧
  (∀ u, (x.gateD u).status ≠ topo_sort_status.NOT_VISITED →
    (y.gateD u).status ≠ topo_sort_status.NOT_VISITED) ∧
  (∀ u, (x.gateD u).status = topo_sort_status.VISITED →
    (y.gateD u).status = topo_sort_status.VISITED)

/-- The critical-path accumulator step performed by `evaluate_sorted` for
one input slot: an external signal raises the accumulator to at least 1, a
gate source to at least source critical path + 1, anything else leaves it
unchanged. -/
def critStep (net : Network) (inf : in_info) (c : Int) : Int :=
  match inf.type, inf.ptr with
  | input_type.BOOLEAN_SIGNAL_INPUT, ptr_t.sig _ => max c 1
  | input_type.NAND_GATE_INPUT, ptr_t.gate hs => max c ((net.gateD hs).crit_path_len + 1)
  | _, _ => c

/-- The body of the slot loop of `evaluate_sorted` (nand.c lines 460-477),
one step of the fold performed by `evalStep` for gate `h`. -/
def evalSlotFold (sigs : Nat → Bool) (h : Nat) (acc2 : Network) (i2 : Nat) : Network :=
  let inf := (acc2.gateD h).getInput i2
  match inf.type, inf.ptr with
  | input_type.BOOLEAN_SIGNAL_INPUT, ptr_t.sig sid =>
    acc2.modifyGate h (fun g3 =>
      let g4 := if g3.crit_path_len < 1 then { g3 with crit_path_len := 1 } else g3
      { g4 with signal := g4.signal && sigs sid })
  | input_type.NAND_GATE_INPUT, ptr_t.gate hs =>
    let sg := acc2.gateD hs
    acc2.modifyGate h (fun g3 =>
      let g4 :=
        if g3.crit_path_len < sg.crit_path_len + 1 then
          { g3 with crit_path_len := sg.crit_path_len + 1 }
        else g3
      { g4 with signal := g4.signal && sg.signal })
  | _, _ => acc2

/-- The arena obtained by evaluating gate 0 of `exNet` with all external
signals true: gate 0 carries signal `!(true && true) = false` and critical
path 1; nothing else changes. -/
def exEvalNet : Network :=
  ⟨[some ⟨1, [⟨ptr_t.sig 0, input_type.BOOLEAN_SIGNAL_INPUT, 0⟩,
              ⟨ptr_t.sig 1, input_type.BOOLEAN_SIGNAL_INPUT, 0⟩],
          [⟨1, 0⟩], topo_sort_status.NOT_VISITED, false⟩,
    some ⟨0, [⟨ptr_t.gate 0, input_type.NAND_GATE_INPUT, 0⟩,
              ⟨ptr_t.sig 2, input_type.BOOLEAN_SIGNAL_INPUT, 0⟩],
          [], topo_sort_status.NOT_VISITED, false⟩]⟩

/-- The suspended DFS frames over a contiguous run of chain gates, each
waiting at slot 1. -/
def chainFrames (a b : Nat) : List dfs_info :=
  (List.range' a b).map (fun i => ⟨i, 1⟩)

/-- The chain arena with the traversal status of gate `j` overridden to
`f j`. -/
def chainNetSt (k : Nat) (f : Nat → topo_sort_status) : Network :=
  ⟨(List.range k).map (fun j => some { chainGate k j with status := f j })⟩

/-- The fold step of `specCrit`, named so that facts about one slot's
contribution can be stated and reused. -/
def specCritStep (net : Network) (m : Int) (inf : in_info) : Int :=
  match inf.type, inf.ptr with
  | input_type.BOOLEAN_SIGNAL_INPUT, _ => max m 1
  | input_type.NAND_GATE_INPUT, ptr_t.gate hs => max m ((net.gateD hs).crit_path_len + 1)
  | _, _ => m

/-! Basic lemmas about the arena primitives. -/

theorem Network.getGate_eq (net : Network) (h : Nat) :
    net.getGate h = (net.gates[h]?).getD none := by
  rw [Network.getGate, List.getD_eq_getD_get?, List.get?_eq_getElem?]

theorem Network.lt_of_getGate_some {net : Network} {h : Nat} {g : nand_t}
    (hg : net.getGate h = some g) : h < net.gates.length := by
  by_contra hlt
  rw [Network.getGate, List.getD_eq_default] at hg
  · exact Option.noConfusion hg
  · omega

theorem Network.length_modifyGate (net : Network) (h : Nat) (f : nand_t → nand_t) :
    (net.modifyGate h f).gates.length = net.gates.length := by
  unfold Network.modifyGate
  cases hg : net.getGate h <;> simp

theorem Network.getGate_modifyGate (net : Network) (h : Nat) (f : nand_t → nand_t)
    (h' : Nat) :
    (net.modifyGate h f).getGate h' =
      if h' = h then (net.getGate h).map f else net.getGate h' := by
  unfold Network.modifyGate
  cases hg : net.getGate h with
  | none =>
    by_cases he : h' = h <;> simp [he, hg]
  | some g =>
    have hlt : h < net.gates.length := Network.lt_of_getGate_some hg
    by_cases he : h' = h
    · subst he
      rw [Network.getGate_eq]
      simp [List.getElem?_set_eq_of_lt _ hlt]
    · rw [Network.getGate_eq]
      rw [List.getElem?_set_ne (fun hc => he hc.symm)]
      simp [he, ← Network.getGate_eq]

theorem Network.getGate_modifyGate_self {net : Network} {h : Nat} {g : nand_t}
    (f : nand_t → nand_t) (hg : net.getGate h = some g) :
    (net.modifyGate h f).getGate h = some (f g) := by
  rw [Network.getGate_modifyGate, if_pos rfl, hg]
  rfl

theorem Network.getGate_modifyGate_ne {net : Network} {h h' : Nat}
    (f : nand_t → nand_t) (hne : h' ≠ h) :
    (net.modifyGate h f).getGate h' = net.getGate h' := by
  rw [Network.getGate_modifyGate, if_neg hne]

theorem Network.modifyGate_not_live {net : Network} {h : Nat}
    (f : nand_t → nand_t) (hg : net.getGate h = none) :
    net.modifyGate h f = net := by
  unfold Network.modifyGate
  rw [hg]

theorem Network.gateD_eq_of_getGate {net : Network} {h : Nat} {g : nand_t}
    (hg : net.getGate h = some g) : net.gateD h = g := by
  rw [Network.gateD, hg, Option.getD_some]

theorem nand_t.getInput_eq_of_getElem {g : nand_t} {k : Nat} {inf : in_info}
    (hk : g.inputs[k]? = some inf) : g.getInput k = inf := by
  rw [nand_t.getInput, List.getD_eq_getD_get?, List.get?_eq_getElem?, hk, Option.getD_some]

theorem nand_t.getElem_of_getInput {g : nand_t} {k : Nat} (hk : k < g.inputs.length) :
    g.inputs[k]? = some (g.getInput k) := by
  rw [nand_t.getInput, List.getD_eq_getD_get?, List.get?_eq_getElem?,
    List.getElem?_eq_getElem hk]
  rfl



theorem outOk_iff (net : Network) (s i : Nat) (oi : out_info) :
    outOk net s i oi = true ↔
      ∃ gt inf, net.getGate oi.gate = some gt ∧ gt.inputs[oi.ind]? = some inf ∧
        inf.type = input_type.NAND_GATE_INPUT ∧ inf.ptr = ptr_t.gate s ∧ inf.ind = i := by
  obtain ⟨og, oind⟩ := oi
  simp only [outOk]
  cases hg : net.getGate og with
  | none =>
    simp only [hg, Bool.false_eq_true, false_iff]
    rintro ⟨gt, inf, hgt, _⟩
    exact Option.noConfusion hgt
  | some gt =>
    simp only [hg, Option.some.injEq]
    cases hi : gt.inputs[oind]? with
    | none =>
      simp only [hi, Bool.false_eq_true, false_iff]
      rintro ⟨gt2, inf, hgt, hinf, _⟩
      subst hgt
      rw [hi] at hinf
      exact Option.noConfusion hinf
    | some inf =>
      simp only [hi, Bool.and_eq_true, beq_iff_eq]
      constructor
      · rintro ⟨⟨h1, h2⟩, h3⟩
        exact ⟨gt, inf, rfl, hi, h1, h2, h3⟩
      · rintro ⟨gt2, inf2, hgt, hinf, h2, h3, h4⟩
        subst hgt
        rw [hi] at hinf
        cases hinf
        exact ⟨⟨h2, h3⟩, h4⟩

theorem slotOk_iff (net : Network) (t k : Nat) (inf : in_info) :
    slotOk net t k inf = true ↔
      ((inf.type = input_type.EMPTY_INPUT → inf.ptr = ptr_t.null) ∧
       (inf.type = input_type.BOOLEAN_SIGNAL_INPUT → ∃ sid, inf.ptr = ptr_t.sig sid) ∧
       (inf.type = input_type.NAND_GATE_INPUT → ∃ s gs, inf.ptr = ptr_t.gate s ∧
          net.getGate s = some gs ∧ gs.outputs[inf.ind]? = some ⟨t, k⟩)) := by
  obtain ⟨p, ty, ind⟩ := inf
  cases ty <;> cases p <;> simp only [slotOk] <;> try simp
  case NAND_GATE_INPUT.gate s =>
    cases hg : net.getGate s with
    | none =>
      simp [hg]
    | some gs =>
      simp [hg]
      cases ho : gs.outputs[ind]? with
      | none => simp [ho]
      | some oi =>
        obtain ⟨og, oind⟩ := oi
        simp [ho, Bool.and_eq_true, beq_iff_eq, out_info.mk.injEq]

theorem list_getD_eq_of_getElem {α : Type} {l : List α} {i : Nat} {d a : α}
    (h : l[i]? = some a) : l.getD i d = a := by
  rw [List.getD_eq_getD_get?, List.get?_eq_getElem?, h, Option.getD_some]

theorem list_getElem?_of_lt {α : Type} {l : List α} {i : Nat} (d : α)
    (h : i < l.length) : l[i]? = some (l.getD i d) := by
  rw [List.getD_eq_getD_get?, List.get?_eq_getElem?, List.getElem?_eq_getElem h]
  rfl

theorem Wf_iff (net : Network) : Wf net = true ↔ WfP net := by
  constructor
  · intro hw
    rw [Wf, List.all_eq_true] at hw
    constructor
    · intro t gt k inf hgt hinf
      have ht := hw t (by rw [List.mem_range]; exact Network.lt_of_getGate_some hgt)
      rw [hgt] at ht
      simp only [gateOk, Bool.and_eq_true, List.all_eq_true] at ht
      have hk : k < gt.inputs.length := by
        by_contra hc
        rw [List.getElem?_eq_none (by omega)] at hinf
        exact Option.noConfusion hinf
      have := ht.1 k (by rw [List.mem_range]; exact hk)
      rw [nand_t.getInput_eq_of_getElem hinf] at this
      exact (slotOk_iff net t k inf).mp this
    · intro s gs i oi hgs hoi
      have hs := hw s (by rw [List.mem_range]; exact Network.lt_of_getGate_some hgs)
      rw [hgs] at hs
      simp only [gateOk, Bool.and_eq_true, List.all_eq_true] at hs
      have hi : i < gs.outputs.length := by
        by_contra hc
        rw [List.getElem?_eq_none (by omega)] at hoi
        exact Option.noConfusion hoi
      have := hs.2 i (by rw [List.mem_range]; exact hi)
      rw [list_getD_eq_of_getElem hoi] at this
      exact (outOk_iff net s i oi).mp this
  · intro hw
    rw [Wf, List.all_eq_true]
    intro t _
    cases hgt : net.getGate t with
    | none => rfl
    | some g =>
      simp only [gateOk, Bool.and_eq_true, List.all_eq_true]
      constructor
      · intro k hk
        rw [List.mem_range] at hk
        have hinf := nand_t.getElem_of_getInput (g := g) hk
        exact (slotOk_iff net t k (g.getInput k)).mpr (hw.1 t g k _ hgt hinf)
      · intro i hi
        rw [List.mem_range] at hi
        have hoi := list_getElem?_of_lt (⟨0, 0⟩ : out_info) hi
        exact (outOk_iff net t i _).mpr (hw.2 t g i _ hgt hoi)

/-! Claim C7 and claim C9. -/

/-- Claim C7: `nand_connect_nand` validates its arguments on every call
before the fast path (a NULL handle or an out-of-range slot index yields
InvalidArgument even when the slot already holds the requested source); when
the target slot already holds GateSource of the same source gate the call is
an idempotent no-op returning success; and when the consumer-list append
cannot allocate, the call reports AllocationFailure and leaves the arena,
in particular the target slot, unchanged. -/
theorem claim_C7_connect_nand_validation_noop_alloc :
    (∀ (net : Network) (gin : Option Nat) (k : Nat) (alloc : Bool),
       nand_connect_nand net none gin k alloc = (Except.error Err.EINVAL, net)) ∧
    (∀ (net : Network) (ho : Nat) (k : Nat) (alloc : Bool),
       nand_connect_nand net (some ho) none k alloc = (Except.error Err.EINVAL, net)) ∧
    (∀ (net : Network) (ho hi : Nat) (k : Nat) (alloc : Bool),
       k ≥ (net.gateD hi).input_count →
       nand_connect_nand net (some ho) (some hi) k alloc = (Except.error Err.EINVAL, net)) ∧
    (∀ (net : Network) (ho hi : Nat) (k : Nat) (alloc : Bool),
       k < (net.gateD hi).input_count →
       ((net.gateD hi).getInput k).ptr = ptr_t.gate ho →
       nand_connect_nand net (some ho) (some hi) k alloc = (Except.ok (), net)) ∧
    (∀ (net : Network) (ho hi : Nat) (k : Nat),
       k < (net.gateD hi).input_count →
       ((net.gateD hi).getInput k).ptr ≠ ptr_t.gate ho →
       nand_connect_nand net (some ho) (some hi) k false = (Except.error Err.ENOMEM, net)) := by
  refine ⟨fun net gin k alloc => rfl, fun net ho k alloc => rfl, ?_, ?_, ?_⟩
  · intro net ho hi k alloc hk
    simp only [nand_connect_nand]
    rw [if_pos hk]
  · intro net ho hi k alloc hk hptr
    simp only [nand_connect_nand]
    rw [if_neg (by omega), if_pos hptr]
  · intro net ho hi k hk hptr
    simp only [nand_connect_nand]
    rw [if_neg (by omega), if_neg hptr]
    rfl

/-- Witness for claim C7 at concrete inputs on `exNet`. -/
theorem claim_C7_witness :
    nand_connect_nand exNet (some 0) (some 1) 5 true = (Except.error Err.EINVAL, exNet) ∧
    nand_connect_nand exNet (some 0) (some 1) 0 true = (Except.ok (), exNet) ∧
    nand_connect_nand exNet (some 1) (some 0) 0 false = (Except.error Err.ENOMEM, exNet) :=
  ⟨claim_C7_connect_nand_validation_noop_alloc.2.2.1 exNet 0 1 5 true (by decide),
   claim_C7_connect_nand_validation_noop_alloc.2.2.2.1 exNet 0 1 0 true (by decide) (by decide),
   claim_C7_connect_nand_validation_noop_alloc.2.2.2.2 exNet 1 0 0 (by decide) (by decide)⟩

/-- Claim C9 (documenting the code bug): `nand_output` only tests
`k >= nand_fan_out(g)`, so at the failing input k = -1 on a gate with one
consumer the EINVAL branch is not taken and the call flows into
`darray_get` with a negative index (undefined behaviour, modelled by the
result `(none, none)` with errno untouched); an in-range index returns the
consumer gate, and an index at or above the fan-out is reported as
EINVAL. -/
theorem claim_C9_output_negative_index_not_validated :
    nand_output exNet (some 0) 0 = (some 1, none) ∧
    nand_output exNet (some 0) 1 = (none, some Err.EINVAL) ∧
    nand_output exNet (some 0) (-1) = (none, none) ∧
    (nand_output exNet (some 0) (-1)).2 ≠ some Err.EINVAL := by
  refine ⟨?_, ?_, ?_, ?_⟩ <;> decide

/-! Lemmas about the consumer-darray primitives. -/

theorem darray_swap_length (d : List out_info) (i j : Nat) :
    (darray_swap_elements d i j).length = d.length := by
  unfold darray_swap_elements
  cases hi : d[i]? <;> cases hj : d[j]? <;> simp

theorem darray_swap_getElem_fst {d : List out_info} {i j : Nat}
    (hi : i < d.length) (hj : j < d.length) :
    (darray_swap_elements d i j)[i]? = d[j]? := by
  unfold darray_swap_elements
  rw [List.getElem?_eq_getElem hi, List.getElem?_eq_getElem hj]
  by_cases he : i = j
  · subst he
    rw [List.getElem?_set_eq_of_lt _ (by simp [hi])]
  · rw [List.getElem?_set_ne (fun hc => he hc.symm), List.getElem?_set_eq_of_lt _ hi]

theorem darray_swap_getElem_snd {d : List out_info} {i j : Nat}
    (hi : i < d.length) (hj : j < d.length) :
    (darray_swap_elements d i j)[j]? = d[i]? := by
  unfold darray_swap_elements
  rw [List.getElem?_eq_getElem hi, List.getElem?_eq_getElem hj]
  rw [List.getElem?_set_eq_of_lt _ (by simp [hj])]

theorem darray_swap_getElem_other {d : List out_info} {i j r : Nat}
    (h1 : r ≠ i) (h2 : r ≠ j) :
    (darray_swap_elements d i j)[r]? = d[r]? := by
  unfold darray_swap_elements
  cases hi : d[i]? <;> cases hj : d[j]? <;>
    simp [List.getElem?_set_ne (fun hc => h2 hc.symm),
          List.getElem?_set_ne (fun hc => h1 hc.symm)]

theorem disconnect_nand_eq_last {net : Network} {t s k i : Nat} {gt gs : nand_t}
    {inf : in_info}
    (hgt : net.getGate t = some gt) (hinf : gt.inputs[k]? = some inf)
    (hind : inf.ind = i)
    (hgs : net.getGate s = some gs)
    (hlast : i + 1 = gs.outputs.length) :
    nand_disconnect_nand net s t k =
      (net.modifyGate s (fun g => { g with outputs := g.outputs.dropLast })).modifyGate t
        (fun g => g.setInput k emptyInput) := by
  simp only [nand_disconnect_nand]
  rw [Network.gateD_eq_of_getGate hgt, nand_t.getInput_eq_of_getElem hinf, hind,
      Network.gateD_eq_of_getGate hgs]
  rw [if_neg (by omega)]

theorem disconnect_nand_eq_swap {net : Network} {t s k i t2 k2 : Nat} {gt gs : nand_t}
    {inf : in_info}
    (hgt : net.getGate t = some gt) (hinf : gt.inputs[k]? = some inf)
    (hind : inf.ind = i)
    (hgs : net.getGate s = some gs)
    (hi : i < gs.outputs.length)
    (hne : i + 1 ≠ gs.outputs.length)
    (hlast : gs.outputs[gs.outputs.length - 1]? = some ⟨t2, k2⟩) :
    nand_disconnect_nand net s t k =
      (((net.modifyGate s
           (fun g => { g with outputs := darray_swap_elements g.outputs i (gs.outputs.length - 1) })).modifyGate t2
           (fun g => { g with inputs := g.inputs.set k2 { g.getInput k2 with ind := i } })).modifyGate s
           (fun g => { g with outputs := g.outputs.dropLast })).modifyGate t
           (fun g => g.setInput k emptyInput) := by
  simp only [nand_disconnect_nand]
  rw [Network.gateD_eq_of_getGate hgt, nand_t.getInput_eq_of_getElem hinf, hind,
      Network.gateD_eq_of_getGate hgs]
  rw [if_pos hne]
  have hsw : (net.modifyGate s
      (fun g => { g with outputs := darray_swap_elements g.outputs i (gs.outputs.length - 1) })).gateD s =
      { gs with outputs := darray_swap_elements gs.outputs i (gs.outputs.length - 1) } :=
    Network.gateD_eq_of_getGate (Network.getGate_modifyGate_self _ hgs)
  rw [hsw]
  have hoi : (darray_swap_elements gs.outputs i (gs.outputs.length - 1)).getD i ⟨0, 0⟩ =
      (⟨t2, k2⟩ : out_info) := by
    apply list_getD_eq_of_getElem
    rw [darray_swap_getElem_fst hi (by omega)]
    exact hlast
  rw [hoi]

theorem Network.getGate_modifyGate_pointwise (net : Network) (h : Nat)
    (f : nand_t → nand_t) (u : Nat) :
    (net.modifyGate h f).getGate u =
      Option.map (fun g => if u = h then f g else g) (net.getGate u) := by
  rw [Network.getGate_modifyGate]
  by_cases he : u = h
  · subst he
    simp
  · simp [he]

theorem wf_slot_target {net : Network} (hw : WfP net) {t s k : Nat} {gt : nand_t}
    {inf : in_info}
    (hgt : net.getGate t = some gt) (hinf : gt.inputs[k]? = some inf)
    (hty : inf.type = input_type.NAND_GATE_INPUT) (hptr : inf.ptr = ptr_t.gate s) :
    ∃ gs, net.getGate s = some gs ∧ gs.outputs[inf.ind]? = some ⟨t, k⟩ := by
  obtain ⟨s2, gs, hp, hgs, hrec⟩ := (hw.1 t gt k inf hgt hinf).2.2 hty
  rw [hptr] at hp
  cases hp
  exact ⟨gs, hgs, hrec⟩

theorem wf_record_eq_ind {net : Network} (hw : WfP net) {t s k r : Nat}
    {gt gs : nand_t} {inf : in_info}
    (hgt : net.getGate t = some gt) (hinf : gt.inputs[k]? = some inf)
    (hgs : net.getGate s = some gs)
    (hrec : gs.outputs[r]? = some ⟨t, k⟩) : r = inf.ind := by
  obtain ⟨gt2, inf2, hgt2, hinf2, _, _, hind2⟩ := hw.2 s gs r ⟨t, k⟩ hgs hrec
  simp only at hgt2 hinf2
  rw [hgt] at hgt2
  cases hgt2
  rw [hinf] at hinf2
  cases hinf2
  omega

theorem disconnect_nand_eq_last2 {net : Network} {t s k i : Nat} {gt gs : nand_t}
    {inf : in_info}
    (hgt : net.getGate t = some gt) (hinf : gt.inputs[k]? = some inf)
    (hind : inf.ind = i)
    (hgs : net.getGate s = some gs)
    (hlast : i + 1 = gs.outputs.length) :
    nand_disconnect_nand net s t k = discLastNet net s t k := by
  rw [discLastNet]
  exact disconnect_nand_eq_last hgt hinf hind hgs hlast

theorem disconnect_nand_eq_swap2 {net : Network} {t s k i t2 k2 : Nat} {gt gs : nand_t}
    {inf : in_info}
    (hgt : net.getGate t = some gt) (hinf : gt.inputs[k]? = some inf)
    (hind : inf.ind = i)
    (hgs : net.getGate s = some gs)
    (hi : i < gs.outputs.length)
    (hne : i + 1 ≠ gs.outputs.length)
    (hlast : gs.outputs[gs.outputs.length - 1]? = some ⟨t2, k2⟩) :
    nand_disconnect_nand net s t k = discSwapNet net s t k i (gs.outputs.length - 1) t2 k2 := by
  rw [discSwapNet]
  exact disconnect_nand_eq_swap hgt hinf hind hgs hi hne hlast

theorem discSwap_getGate (net : Network) (s t k i j t2 k2 u : Nat) :
    (discSwapNet net s t k i j t2 k2).getGate u =
      Option.map (fun g0 =>
        let g1 := if u = s then { g0 with outputs := darray_swap_elements g0.outputs i j } else g0
        let g2 := if u = t2 then
          { g1 with inputs := g1.inputs.set k2 { g1.getInput k2 with ind := i } } else g1
        let g3 := if u = s then { g2 with outputs := g2.outputs.dropLast } else g2
        if u = t then g3.setInput k emptyInput else g3) (net.getGate u) := by
  unfold discSwapNet
  rw [Network.getGate_modifyGate_pointwise, Network.getGate_modifyGate_pointwise,
      Network.getGate_modifyGate_pointwise, Network.getGate_modifyGate_pointwise,
      Option.map_map, Option.map_map, Option.map_map]
  rfl

theorem discLast_getGate (net : Network) (s t k u : Nat) :
    (discLastNet net s t k).getGate u =
      Option.map (fun g0 =>
        let g3 := if u = s then { g0 with outputs := g0.outputs.dropLast } else g0
        if u = t then g3.setInput k emptyInput else g3) (net.getGate u) := by
  unfold discLastNet
  rw [Network.getGate_modifyGate_pointwise, Network.getGate_modifyGate_pointwise,
      Option.map_map]
  rfl

set_option maxHeartbeats 1000000 in
theorem discSwap_fields {net : Network} (s t k i j t2 k2 : Nat) {u : Nat} {g0 : nand_t}
    (hu0 : net.getGate u = some g0) :
    ∃ gu, (discSwapNet net s t k i j t2 k2).getGate u = some gu ∧
      (∀ jj, gu.inputs[jj]? =
        (if u = t ∧ jj = k then (if k < g0.inputs.length then some emptyInput else none)
         else if u = t2 ∧ jj = k2 then
           (if k2 < g0.inputs.length then some { g0.getInput k2 with ind := i } else none)
         else g0.inputs[jj]?)) ∧
      gu.outputs = (if u = s then (darray_swap_elements g0.outputs i j).dropLast
                    else g0.outputs) ∧
      gu.status = g0.status ∧ gu.signal = g0.signal ∧
      gu.crit_path_len = g0.crit_path_len := by
  rw [discSwap_getGate, hu0]
  refine ⟨_, rfl, ?_, ?_, ?_, ?_, ?_⟩ <;>
    by_cases hut : u = t <;> by_cases hut2 : u = t2 <;> by_cases hus : u = s <;>
    (try simp only [if_pos hut]) <;> (try simp only [if_neg hut]) <;>
    (try simp only [if_pos hut2]) <;> (try simp only [if_neg hut2]) <;>
    (try simp only [if_pos hus]) <;> (try simp only [if_neg hus])
  all_goals try rfl
  all_goals intro jj
  all_goals try simp only [nand_t.setInput, List.getElem?_set, List.length_set]
  all_goals split_ifs <;> first | rfl | omega

set_option maxHeartbeats 1000000 in
theorem discLast_fields {net : Network} {s t k u : Nat} {g0 : nand_t}
    (hu0 : net.getGate u = some g0) :
    ∃ gu, (discLastNet net s t k).getGate u = some gu ∧
      (∀ jj, gu.inputs[jj]? =
        (if u = t ∧ jj = k then (if k < g0.inputs.length then some emptyInput else none)
         else g0.inputs[jj]?)) ∧
      gu.outputs = (if u = s then g0.outputs.dropLast else g0.outputs) ∧
      gu.status = g0.status ∧ gu.signal = g0.signal ∧
      gu.crit_path_len = g0.crit_path_len := by
  rw [discLast_getGate, hu0]
  refine ⟨_, rfl, ?_, ?_, ?_, ?_, ?_⟩ <;>
    by_cases hut : u = t <;> by_cases hus : u = s <;>
    (try simp only [if_pos hut]) <;> (try simp only [if_neg hut]) <;>
    (try simp only [if_pos hus]) <;> (try simp only [if_neg hus])
  all_goals try rfl
  all_goals intro jj
  all_goals try simp only [nand_t.setInput, List.getElem?_set, List.length_set]
  all_goals split_ifs <;> first | rfl | omega

theorem lt_of_getElem?_some {α : Type} {l : List α} {i : Nat} {a : α}
    (h : l[i]? = some a) : i < l.length := by
  by_contra hc
  rw [List.getElem?_eq_none (by omega)] at h
  exact Option.noConfusion h

theorem WfP_discLast {net : Network} {t s k : Nat} {gt gs : nand_t} {inf : in_info}
    (hw : WfP net)
    (hgt : net.getGate t = some gt) (hinf : gt.inputs[k]? = some inf)
    (hptr : inf.ptr = ptr_t.gate s)
    (hgs : net.getGate s = some gs)
    (hrec : gs.outputs[inf.ind]? = some ⟨t, k⟩)
    (hlast : inf.ind + 1 = gs.outputs.length) :
    WfP (discLastNet net s t k) := by
  constructor
  · intro u gu jj infj hgu hinfj
    cases hu0 : net.getGate u with
    | none => rw [discLast_getGate, hu0] at hgu; exact Option.noConfusion hgu
    | some g0 =>
    obtain ⟨gu2, hgu2, hinps, houts, _, _, _⟩ := discLast_fields (s := s) (t := t) (k := k) hu0
    rw [hgu2] at hgu
    cases hgu
    rw [hinps jj] at hinfj
    by_cases h1 : u = t ∧ jj = k
    · rw [if_pos h1] at hinfj
      by_cases h2 : k < g0.inputs.length
      · rw [if_pos h2] at hinfj
        cases hinfj
        refine ⟨fun _ => rfl, fun hC => absurd hC (by simp [emptyInput]),
          fun hC => absurd hC (by simp [emptyInput])⟩
      · rw [if_neg h2] at hinfj
        exact Option.noConfusion hinfj
    · rw [if_neg h1] at hinfj
      have base := hw.1 u g0 jj infj hu0 hinfj
      refine ⟨base.1, base.2.1, ?_⟩
      intro hN
      obtain ⟨s3, gs3, hp3, hgs3, hrec3⟩ := base.2.2 hN
      obtain ⟨gs3f, hgs3f, hinps3, houts3, _, _, _⟩ :=
        discLast_fields (s := s) (t := t) (k := k) hgs3
      refine ⟨s3, gs3f, hp3, hgs3f, ?_⟩
      rw [houts3]
      by_cases hs3 : s3 = s
      · subst hs3
        rw [hgs] at hgs3
        cases hgs3
        rw [if_pos rfl, List.getElem?_dropLast]
        have hb : infj.ind < gs.outputs.length := lt_of_getElem?_some hrec3
        by_cases hii : infj.ind = inf.ind
        · rw [hii, hrec] at hrec3
          cases hrec3
          exact absurd ⟨rfl, rfl⟩ h1
        · rw [if_pos (by omega)]
          exact hrec3
      · rw [if_neg hs3]
        exact hrec3
  · intro u gu r oi hgu hoi
    cases hu0 : net.getGate u with
    | none => rw [discLast_getGate, hu0] at hgu; exact Option.noConfusion hgu
    | some g0 =>
    obtain ⟨gu2, hgu2, hinps, houts, _, _, _⟩ := discLast_fields (s := s) (t := t) (k := k) hu0
    rw [hgu2] at hgu
    cases hgu
    rw [houts] at hoi
    have hbase : g0.outputs[r]? = some oi ∧ (u = s → r + 1 < gs.outputs.length) := by
      by_cases hus : u = s
      · rw [if_pos hus] at hoi
        rw [List.getElem?_dropLast] at hoi
        by_cases hr : r < g0.outputs.length - 1
        · rw [if_pos hr] at hoi
          subst hus
          rw [hgs] at hu0
          cases hu0
          exact ⟨hoi, fun _ => by omega⟩
        · rw [if_neg hr] at hoi
          exact Option.noConfusion hoi
      · rw [if_neg hus] at hoi
        exact ⟨hoi, fun hC => absurd hC hus⟩
    obtain ⟨gt3, inf3, hgt3, hinf3, hty3, hptr3, hind3⟩ := hw.2 u g0 r oi hu0 hbase.1
    obtain ⟨gt3f, hgt3f, hinps3, houts3, _, _, _⟩ :=
      discLast_fields (s := s) (t := t) (k := k) hgt3
    refine ⟨gt3f, inf3, hgt3f, ?_, hty3, hptr3, hind3⟩
    rw [hinps3 oi.ind]
    have hcond : ¬(oi.gate = t ∧ oi.ind = k) := by
      rintro ⟨he1, he2⟩
      rw [he1, hgt] at hgt3
      cases hgt3
      rw [he2, hinf] at hinf3
      cases hinf3
      by_cases hus : u = s
      · have := hbase.2 hus
        omega
      · rw [hptr] at hptr3
        cases hptr3
        exact hus rfl
    rw [if_neg hcond]
    exact hinf3

set_option maxHeartbeats 1000000 in
theorem WfP_discSwap {net : Network} {t s k t2 k2 : Nat} {gt gs : nand_t} {inf : in_info}
    (hw : WfP net)
    (hgt : net.getGate t = some gt) (hinf : gt.inputs[k]? = some inf)
    (hptr : inf.ptr = ptr_t.gate s)
    (hgs : net.getGate s = some gs)
    (hrec : gs.outputs[inf.ind]? = some ⟨t, k⟩)
    (hne : inf.ind + 1 ≠ gs.outputs.length)
    (hlast2 : gs.outputs[gs.outputs.length - 1]? = some ⟨t2, k2⟩) :
    WfP (discSwapNet net s t k inf.ind (gs.outputs.length - 1) t2 k2) := by
  have hiLt : inf.ind < gs.outputs.length := lt_of_getElem?_some hrec
  have hiLt1 : inf.ind < gs.outputs.length - 1 := by omega
  obtain ⟨gt2, inf2, hgt2, hinf2, hty2, hptr2, hind2⟩ :=
    hw.2 s gs (gs.outputs.length - 1) ⟨t2, k2⟩ hgs hlast2
  simp only at hgt2 hinf2
  have hk2Lt : k2 < gt2.inputs.length := lt_of_getElem?_some hinf2
  have hne22 : ¬(t2 = t ∧ k2 = k) := by
    rintro ⟨he1, he2⟩
    rw [he1, hgt] at hgt2
    cases hgt2
    rw [he2, hinf] at hinf2
    cases hinf2
    omega
  have hswlen : (darray_swap_elements gs.outputs inf.ind (gs.outputs.length - 1)).length =
      gs.outputs.length := darray_swap_length _ _ _
  have hsr_i : ((darray_swap_elements gs.outputs inf.ind
      (gs.outputs.length - 1)).dropLast)[inf.ind]? = some ⟨t2, k2⟩ := by
    rw [List.getElem?_dropLast, hswlen, if_pos hiLt1,
      darray_swap_getElem_fst hiLt (by omega)]
    exact hlast2
  have hsr_other : ∀ r, r ≠ inf.ind → r < gs.outputs.length - 1 →
      ((darray_swap_elements gs.outputs inf.ind
        (gs.outputs.length - 1)).dropLast)[r]? = gs.outputs[r]? := by
    intro r hr1 hr2
    rw [List.getElem?_dropLast, hswlen, if_pos hr2,
      darray_swap_getElem_other hr1 (by omega)]
  constructor
  · intro u gu jj infj hgu hinfj
    cases hu0 : net.getGate u with
    | none => rw [discSwap_getGate, hu0] at hgu; exact Option.noConfusion hgu
    | some g0 =>
    obtain ⟨gu2, hgu2, hinps, houts, _, _, _⟩ :=
      discSwap_fields s t k inf.ind
        (gs.outputs.length - 1) t2 k2 hu0
    rw [hgu2] at hgu
    cases hgu
    rw [hinps jj] at hinfj
    by_cases h1 : u = t ∧ jj = k
    · rw [if_pos h1] at hinfj
      by_cases h2 : k < g0.inputs.length
      · rw [if_pos h2] at hinfj
        cases hinfj
        refine ⟨fun _ => rfl, fun hC => absurd hC (by simp [emptyInput]),
          fun hC => absurd hC (by simp [emptyInput])⟩
      · rw [if_neg h2] at hinfj
        exact Option.noConfusion hinfj
    · rw [if_neg h1] at hinfj
      by_cases hq : u = t2 ∧ jj = k2
      · rw [if_pos hq] at hinfj
        rw [hq.1, hgt2] at hu0
        cases hu0
        rw [if_pos hk2Lt] at hinfj
        rw [nand_t.getInput_eq_of_getElem hinf2] at hinfj
        cases hinfj
        refine ⟨fun hC => absurd hC ?_, fun hC => absurd hC ?_, fun _ => ?_⟩
        · simp only [hty2]
          intro hc
          exact input_type.noConfusion hc
        · simp only [hty2]
          intro hc
          exact input_type.noConfusion hc
        · obtain ⟨gsf, hgsf, hinpsS, houtsS, _, _, _⟩ :=
            discSwap_fields s t k inf.ind
              (gs.outputs.length - 1) t2 k2 hgs
          refine ⟨s, gsf, hptr2, hgsf, ?_⟩
          rw [houtsS, if_pos rfl]
          rw [hq.1, hq.2]
          exact hsr_i
      · rw [if_neg hq] at hinfj
        have base := hw.1 u g0 jj infj hu0 hinfj
        refine ⟨base.1, base.2.1, ?_⟩
        intro hN
        obtain ⟨s3, gs3, hp3, hgs3, hrec3⟩ := base.2.2 hN
        obtain ⟨gs3f, hgs3f, hinps3, houts3, _, _, _⟩ :=
          discSwap_fields s t k inf.ind
            (gs.outputs.length - 1) t2 k2 hgs3
        refine ⟨s3, gs3f, hp3, hgs3f, ?_⟩
        rw [houts3]
        by_cases hs3 : s3 = s
        · subst hs3
          rw [hgs] at hgs3
          cases hgs3
          rw [if_pos rfl]
          have hb : infj.ind < gs.outputs.length := lt_of_getElem?_some hrec3
          by_cases hii : infj.ind = inf.ind
          · rw [hii, hrec] at hrec3
            cases hrec3
            exact absurd ⟨rfl, rfl⟩ h1
          · by_cases hii2 : infj.ind = gs.outputs.length - 1
            · rw [hii2, hlast2] at hrec3
              cases hrec3
              exact absurd ⟨rfl, rfl⟩ hq
            · rw [hsr_other infj.ind hii (by omega)]
              exact hrec3
        · rw [if_neg hs3]
          exact hrec3
  · intro u gu r oi hgu hoi
    cases hu0 : net.getGate u with
    | none => rw [discSwap_getGate, hu0] at hgu; exact Option.noConfusion hgu
    | some g0 =>
    obtain ⟨gu2, hgu2, hinps, houts, _, _, _⟩ :=
      discSwap_fields s t k inf.ind
        (gs.outputs.length - 1) t2 k2 hu0
    rw [hgu2] at hgu
    cases hgu
    rw [houts] at hoi
    by_cases hus : u = s
    · rw [if_pos hus] at hoi
      rw [hus, hgs] at hu0
      cases hu0
      have hrb : r < gs.outputs.length - 1 := by
        by_contra hc
        rw [List.getElem?_dropLast, hswlen, if_neg hc] at hoi
        exact Option.noConfusion hoi
      by_cases hri : r = inf.ind
      · rw [hri, hsr_i] at hoi
        cases hoi
        obtain ⟨gt2f, hgt2f, hinps2, houts2, _, _, _⟩ :=
          discSwap_fields s t k inf.ind
            (gs.outputs.length - 1) t2 k2 hgt2
        refine ⟨gt2f, { inf2 with ind := inf.ind }, hgt2f, ?_, by simp [hty2],
          by simp [hptr2, hus], hri.symm⟩
        rw [hinps2 k2, if_neg (by exact fun hc => hne22 ⟨hc.1, hc.2⟩),
          if_pos ⟨rfl, rfl⟩, if_pos hk2Lt, nand_t.getInput_eq_of_getElem hinf2]
      · rw [hsr_other r hri hrb] at hoi
        obtain ⟨gt3, inf3, hgt3, hinf3, hty3, hptr3, hind3⟩ := hw.2 s gs r oi hgs hoi
        obtain ⟨gt3f, hgt3f, hinps3, houts3, _, _, _⟩ :=
          discSwap_fields s t k inf.ind
            (gs.outputs.length - 1) t2 k2 hgt3
        refine ⟨gt3f, inf3, hgt3f, ?_, hty3, by rw [hus]; exact hptr3, hind3⟩
        rw [hinps3 oi.ind]
        have hc1 : ¬(oi.gate = t ∧ oi.ind = k) := by
          rintro ⟨he1, he2⟩
          rw [he1, hgt] at hgt3
          cases hgt3
          rw [he2, hinf] at hinf3
          cases hinf3
          omega
        have hc2 : ¬(oi.gate = t2 ∧ oi.ind = k2) := by
          rintro ⟨he1, he2⟩
          rw [he1, hgt2] at hgt3
          cases hgt3
          rw [he2, hinf2] at hinf3
          cases hinf3
          omega
        rw [if_neg hc1, if_neg hc2]
        exact hinf3
    · rw [if_neg hus] at hoi
      obtain ⟨gt3, inf3, hgt3, hinf3, hty3, hptr3, hind3⟩ := hw.2 u g0 r oi hu0 hoi
      obtain ⟨gt3f, hgt3f, hinps3, houts3, _, _, _⟩ :=
        discSwap_fields s t k inf.ind
          (gs.outputs.length - 1) t2 k2 hgt3
      refine ⟨gt3f, inf3, hgt3f, ?_, hty3, hptr3, hind3⟩
      rw [hinps3 oi.ind]
      have hc1 : ¬(oi.gate = t ∧ oi.ind = k) := by
        rintro ⟨he1, he2⟩
        rw [he1, hgt] at hgt3
        cases hgt3
        rw [he2, hinf] at hinf3
        cases hinf3
        rw [hptr] at hptr3
        cases hptr3
        exact hus rfl
      have hc2 : ¬(oi.gate = t2 ∧ oi.ind = k2) := by
        rintro ⟨he1, he2⟩
        rw [he1, hgt2] at hgt3
        cases hgt3
        rw [he2, hinf2] at hinf3
        cases hinf3
        rw [hptr2] at hptr3
        cases hptr3
        exact hus rfl
      rw [if_neg hc1, if_neg hc2]
      exact hinf3

theorem isSome_getGate_modifyGate (net : Network) (h : Nat) (f : nand_t → nand_t)
    (u : Nat) :
    ((net.modifyGate h f).getGate u).isSome = (net.getGate u).isSome := by
  rw [Network.getGate_modifyGate_pointwise]
  cases net.getGate u <;> rfl

theorem modifyGate_modifyGate_self (net : Network) (h : Nat) (f1 f2 : nand_t → nand_t) :
    (net.modifyGate h f1).modifyGate h f2 = net.modifyGate h (fun g => f2 (f1 g)) := by
  unfold Network.modifyGate
  cases hg : net.getGate h with
  | none => simp [hg]
  | some g =>
    have hlt : h < net.gates.length := Network.lt_of_getGate_some hg
    have hg2 : Network.getGate ⟨net.gates.set h (some (f1 g))⟩ h = some (f1 g) := by
      rw [Network.getGate_eq]
      simp [List.getElem?_set_eq_of_lt _ hlt]
    simp only [hg, hg2, List.set_set]

theorem modifyGate_modifyGate_ne (net : Network) {h1 h2 : Nat}
    (f1 f2 : nand_t → nand_t) (hne : h1 ≠ h2) :
    (net.modifyGate h1 f1).modifyGate h2 f2 = (net.modifyGate h2 f2).modifyGate h1 f1 := by
  unfold Network.modifyGate
  cases hg1 : net.getGate h1 with
  | none =>
    cases hg2 : net.getGate h2 with
    | none => simp [hg1, hg2]
    | some g2 =>
      have : Network.getGate ⟨net.gates.set h2 (some (f2 g2))⟩ h1 = none := by
        rw [Network.getGate_eq]
        dsimp only
        rw [List.getElem?_set_ne (fun hc => hne hc.symm), ← Network.getGate_eq]
        exact hg1
      simp [hg1, hg2, this]
  | some g1 =>
    cases hg2 : net.getGate h2 with
    | none =>
      have : Network.getGate ⟨net.gates.set h1 (some (f1 g1))⟩ h2 = none := by
        rw [Network.getGate_eq]
        dsimp only
        rw [List.getElem?_set_ne hne, ← Network.getGate_eq]
        exact hg2
      simp [hg1, hg2, this]
    | some g2 =>
      have e1 : Network.getGate ⟨net.gates.set h1 (some (f1 g1))⟩ h2 = some g2 := by
        rw [Network.getGate_eq]
        dsimp only
        rw [List.getElem?_set_ne hne, ← Network.getGate_eq]
        exact hg2
      have e2 : Network.getGate ⟨net.gates.set h2 (some (f2 g2))⟩ h1 = some g1 := by
        rw [Network.getGate_eq]
        dsimp only
        rw [List.getElem?_set_ne (fun hc => hne hc.symm), ← Network.getGate_eq]
        exact hg1
      simp only [hg1, hg2, e1, e2]
      rw [List.set_comm _ _ _ hne]

theorem modifyGate_comm (net : Network) (h1 h2 : Nat) (f1 f2 : nand_t → nand_t)
    (hcomm : h1 = h2 → ∀ g, f2 (f1 g) = f1 (f2 g)) :
    (net.modifyGate h1 f1).modifyGate h2 f2 = (net.modifyGate h2 f2).modifyGate h1 f1 := by
  by_cases he : h1 = h2
  · subst he
    rw [modifyGate_modifyGate_self, modifyGate_modifyGate_self]
    have : (fun g => f2 (f1 g)) = (fun g => f1 (f2 g)) := funext (hcomm rfl)
    rw [this]
  · exact modifyGate_modifyGate_ne net f1 f2 he

set_option maxHeartbeats 1000000 in
theorem setSlot_fields {net : Network} (g : Nat) (k : Nat) (newinf : in_info) {u : Nat}
    {g0 : nand_t} (hu0 : net.getGate u = some g0) :
    ∃ gu, (net.modifyGate g (fun gg => gg.setInput k newinf)).getGate u = some gu ∧
      (∀ jj, gu.inputs[jj]? =
        (if u = g ∧ jj = k then (if k < g0.inputs.length then some newinf else none)
         else g0.inputs[jj]?)) ∧
      gu.outputs = g0.outputs ∧
      gu.status = g0.status ∧ gu.signal = g0.signal ∧
      gu.crit_path_len = g0.crit_path_len := by
  rw [Network.getGate_modifyGate_pointwise, hu0]
  refine ⟨_, rfl, ?_, ?_, ?_, ?_, ?_⟩ <;>
    by_cases hug : u = g <;>
    (try simp only [if_pos hug]) <;> (try simp only [if_neg hug])
  all_goals try rfl
  all_goals intro jj
  all_goals try simp only [nand_t.setInput, List.getElem?_set, List.length_set]
  all_goals split_ifs <;> first | rfl | omega

theorem WfP_set_slot {net : Network} (hw : WfP net) {g : Nat} {gg : nand_t} {k : Nat}
    (hgg : net.getGate g = some gg)
    (hcur : ∀ inf, gg.inputs[k]? = some inf → inf.type ≠ input_type.NAND_GATE_INPUT)
    {newinf : in_info}
    (hnew : (newinf.type = input_type.EMPTY_INPUT ∧ newinf.ptr = ptr_t.null) ∨
            (newinf.type = input_type.BOOLEAN_SIGNAL_INPUT ∧
             ∃ sid, newinf.ptr = ptr_t.sig sid)) :
    WfP (net.modifyGate g (fun gg => gg.setInput k newinf)) := by
  constructor
  · intro u gu jj infj hgu hinfj
    cases hu0 : net.getGate u with
    | none =>
      rw [Network.getGate_modifyGate_pointwise, hu0] at hgu
      exact Option.noConfusion hgu
    | some g0 =>
    obtain ⟨gu2, hgu2, hinps, houts, _, _, _⟩ := setSlot_fields g k newinf hu0
    rw [hgu2] at hgu
    cases hgu
    rw [hinps jj] at hinfj
    by_cases h1 : u = g ∧ jj = k
    · rw [if_pos h1] at hinfj
      by_cases h2 : k < g0.inputs.length
      · rw [if_pos h2] at hinfj
        cases hinfj
        rcases hnew with ⟨hty, hp⟩ | ⟨hty, sid, hp⟩
        · exact ⟨fun _ => hp, fun hC => absurd (hty ▸ hC) (by intro hc; cases hc),
            fun hC => absurd (hty ▸ hC) (by intro hc; cases hc)⟩
        · refine ⟨fun hC => ?_, fun _ => ⟨sid, hp⟩, fun hC => ?_⟩
          · rw [hty] at hC
            cases hC
          · rw [hty] at hC
            cases hC
      · rw [if_neg h2] at hinfj
        exact Option.noConfusion hinfj
    · rw [if_neg h1] at hinfj
      have base := hw.1 u g0 jj infj hu0 hinfj
      refine ⟨base.1, base.2.1, ?_⟩
      intro hN
      obtain ⟨s3, gs3, hp3, hgs3, hrec3⟩ := base.2.2 hN
      obtain ⟨gs3f, hgs3f, hinps3, houts3, _, _, _⟩ := setSlot_fields g k newinf hgs3
      refine ⟨s3, gs3f, hp3, hgs3f, ?_⟩
      rw [houts3]
      exact hrec3
  · intro u gu r oi hgu hoi
    cases hu0 : net.getGate u with
    | none =>
      rw [Network.getGate_modifyGate_pointwise, hu0] at hgu
      exact Option.noConfusion hgu
    | some g0 =>
    obtain ⟨gu2, hgu2, hinps, houts, _, _, _⟩ := setSlot_fields g k newinf hu0
    rw [hgu2] at hgu
    cases hgu
    rw [houts] at hoi
    obtain ⟨gt3, inf3, hgt3, hinf3, hty3, hptr3, hind3⟩ := hw.2 u g0 r oi hu0 hoi
    obtain ⟨gt3f, hgt3f, hinps3, houts3, _, _, _⟩ := setSlot_fields g k newinf hgt3
    refine ⟨gt3f, inf3, hgt3f, ?_, hty3, hptr3, hind3⟩
    rw [hinps3 oi.ind]
    have hcond : ¬(oi.gate = g ∧ oi.ind = k) := by
      rintro ⟨he1, he2⟩
      rw [he1, hgg] at hgt3
      cases hgt3
      rw [he2] at hinf3
      exact hcur inf3 hinf3 hty3
    rw [if_neg hcond]
    exact hinf3

theorem isSome_discLast (net : Network) (s t k u : Nat) :
    (((discLastNet net s t k).getGate u).isSome) = ((net.getGate u).isSome) := by
  unfold discLastNet
  rw [isSome_getGate_modifyGate, isSome_getGate_modifyGate]

theorem isSome_discSwap (net : Network) (s t k i j t2 k2 u : Nat) :
    (((discSwapNet net s t k i j t2 k2).getGate u).isSome) = ((net.getGate u).isSome) := by
  unfold discSwapNet
  rw [isSome_getGate_modifyGate, isSome_getGate_modifyGate, isSome_getGate_modifyGate,
    isSome_getGate_modifyGate]

theorem getInput_eq_type {g1 g2 : nand_t} {j : Nat}
    (h : g1.inputs[j]? = g2.inputs[j]?) : (g1.getInput j).type = (g2.getInput j).type := by
  rw [nand_t.getInput, nand_t.getInput, List.getD_eq_getD_get?, List.getD_eq_getD_get?,
    List.get?_eq_getElem?, List.get?_eq_getElem?, h]

set_option maxHeartbeats 1000000 in
theorem disconnect_nand_spec {net : Network} {t s k : Nat} {gt : nand_t}
    {inf : in_info}
    (hw : WfP net)
    (hgt : net.getGate t = some gt) (hinf : gt.inputs[k]? = some inf)
    (hty : inf.type = input_type.NAND_GATE_INPUT) (hptr : inf.ptr = ptr_t.gate s) :
    WfP (nand_disconnect_nand net s t k) ∧
    (∀ u, (((nand_disconnect_nand net s t k).getGate u).isSome) =
      ((net.getGate u).isSome)) ∧
    (∃ gt2, (nand_disconnect_nand net s t k).getGate t = some gt2 ∧
       gt2.inputs.length = gt.inputs.length ∧
       (∀ inf2, gt2.inputs[k]? = some inf2 → inf2.type = input_type.EMPTY_INPUT) ∧
       (∀ j, j ≠ k → (gt2.getInput j).type = (gt.getInput j).type)) ∧
    (∀ u gu0, net.getGate u = some gu0 → u ≠ s →
       ∃ gu2, (nand_disconnect_nand net s t k).getGate u = some gu2 ∧
         gu2.outputs = gu0.outputs) ∧
    (∃ gs gs2, net.getGate s = some gs ∧
       (nand_disconnect_nand net s t k).getGate s = some gs2 ∧
       gs2.outputs.length = gs.outputs.length - 1) ∧
    (∀ u gu0, net.getGate u = some gu0 → u ≠ t →
       ∃ gu2, (nand_disconnect_nand net s t k).getGate u = some gu2 ∧
         (∀ j, (gu2.getInput j).type = (gu0.getInput j).type)) := by
  obtain ⟨gs, hgs, hrec⟩ := wf_slot_target hw hgt hinf hty hptr
  have hkLt : k < gt.inputs.length := lt_of_getElem?_some hinf
  have hiLt : inf.ind < gs.outputs.length := lt_of_getElem?_some hrec
  by_cases hb : inf.ind + 1 = gs.outputs.length
  · rw [disconnect_nand_eq_last2 hgt hinf rfl hgs hb]
    refine ⟨WfP_discLast hw hgt hinf hptr hgs hrec hb, fun u => isSome_discLast net s t k u,
      ?_, ?_, ?_, ?_⟩
    · obtain ⟨gt2, hgt2, hinps, houts, _, _, _⟩ :=
        discLast_fields (s := s) (t := t) (k := k) hgt
      refine ⟨gt2, hgt2, ?_, ?_, ?_⟩
      · rw [discLast_getGate, hgt] at hgt2
        cases hgt2
        split_ifs <;> simp [nand_t.setInput]
      · intro inf2 hinf2
        rw [hinps k, if_pos ⟨rfl, rfl⟩, if_pos hkLt] at hinf2
        cases hinf2
        rfl
      · intro j hj
        have hh := hinps j
        rw [if_neg (fun hc => hj hc.2)] at hh
        rw [nand_t.getInput, nand_t.getInput, List.getD_eq_getD_get?, List.getD_eq_getD_get?,
          List.get?_eq_getElem?, List.get?_eq_getElem?, hh]
    · intro u gu0 hu0 hus
      obtain ⟨gu2, hgu2, hinps, houts, _, _, _⟩ :=
        discLast_fields (s := s) (t := t) (k := k) hu0
      exact ⟨gu2, hgu2, by rw [houts, if_neg hus]⟩
    · obtain ⟨gs2, hgs2, hinps, houts, _, _, _⟩ :=
        discLast_fields (s := s) (t := t) (k := k) hgs
      refine ⟨gs, gs2, hgs, hgs2, ?_⟩
      rw [houts, if_pos rfl]
      simp [List.length_dropLast]
    · intro u gu0 hu0 hut
      obtain ⟨gu2, hgu2, hinps, houts, _, _, _⟩ :=
        discLast_fields (s := s) (t := t) (k := k) hu0
      refine ⟨gu2, hgu2, ?_⟩
      intro j
      apply getInput_eq_type
      rw [hinps j, if_neg (fun hc => hut hc.1)]
  · have hl : gs.outputs.length - 1 < gs.outputs.length := by omega
    obtain ⟨oi2, hoi2⟩ : ∃ oi2, gs.outputs[gs.outputs.length - 1]? = some oi2 := by
      rw [List.getElem?_eq_getElem hl]
      exact ⟨_, rfl⟩
    obtain ⟨t2, k2⟩ := oi2
    rw [disconnect_nand_eq_swap2 hgt hinf rfl hgs hiLt hb hoi2]
    refine ⟨WfP_discSwap hw hgt hinf hptr hgs hrec hb hoi2,
      fun u => isSome_discSwap net s t k inf.ind (gs.outputs.length - 1) t2 k2 u, ?_, ?_, ?_, ?_⟩
    · obtain ⟨gt2x, hgt2x, hinps, houts, _, _, _⟩ :=
        discSwap_fields s t k inf.ind
          (gs.outputs.length - 1) t2 k2 hgt
      refine ⟨gt2x, hgt2x, ?_, ?_, ?_⟩
      · rw [discSwap_getGate, hgt] at hgt2x
        cases hgt2x
        split_ifs <;> simp [nand_t.setInput]
      · intro inf2 hinf2
        rw [hinps k, if_pos ⟨rfl, rfl⟩, if_pos hkLt] at hinf2
        cases hinf2
        rfl
      · intro j hj
        have hh := hinps j
        rw [if_neg (fun hc => hj hc.2)] at hh
        by_cases hq : t = t2 ∧ j = k2
        · rw [if_pos hq] at hh
          by_cases hq2 : k2 < gt.inputs.length
          · rw [if_pos hq2] at hh
            rw [nand_t.getInput, nand_t.getInput, List.getD_eq_getD_get?,
              List.getD_eq_getD_get?, List.get?_eq_getElem?, List.get?_eq_getElem?, hh]
            simp [nand_t.getInput, hq.2, List.getD_eq_getD_get?, List.get?_eq_getElem?,
              List.getElem?_eq_getElem hq2]
          · rw [if_neg hq2] at hh
            rw [nand_t.getInput, nand_t.getInput, List.getD_eq_getD_get?,
              List.getD_eq_getD_get?, List.get?_eq_getElem?, List.get?_eq_getElem?, hh,
              List.getElem?_eq_none (by omega)]
        · rw [if_neg hq] at hh
          rw [nand_t.getInput, nand_t.getInput, List.getD_eq_getD_get?, List.getD_eq_getD_get?,
            List.get?_eq_getElem?, List.get?_eq_getElem?, hh]
    · intro u gu0 hu0 hus
      obtain ⟨gu2, hgu2, hinps, houts, _, _, _⟩ :=
        discSwap_fields s t k inf.ind
          (gs.outputs.length - 1) t2 k2 hu0
      exact ⟨gu2, hgu2, by rw [houts, if_neg hus]⟩
    · obtain ⟨gs2, hgs2, hinps, houts, _, _, _⟩ :=
        discSwap_fields s t k inf.ind
          (gs.outputs.length - 1) t2 k2 hgs
      refine ⟨gs, gs2, hgs, hgs2, ?_⟩
      rw [houts, if_pos rfl, List.length_dropLast, darray_swap_length]
    · intro u gu0 hu0 hut
      obtain ⟨gu2, hgu2, hinps, houts, _, _, _⟩ :=
        discSwap_fields s t k inf.ind
          (gs.outputs.length - 1) t2 k2 hu0
      refine ⟨gu2, hgu2, ?_⟩
      intro j
      have hh := hinps j
      rw [if_neg (fun hc => hut hc.1)] at hh
      by_cases hq : u = t2 ∧ j = k2
      · rw [if_pos hq] at hh
        by_cases hq2 : k2 < gu0.inputs.length
        · rw [if_pos hq2] at hh
          rw [nand_t.getInput, nand_t.getInput, List.getD_eq_getD_get?,
            List.getD_eq_getD_get?, List.get?_eq_getElem?, List.get?_eq_getElem?, hh]
          simp [nand_t.getInput, hq.2, List.getD_eq_getD_get?, List.get?_eq_getElem?,
            List.getElem?_eq_getElem hq2]
        · rw [if_neg hq2] at hh
          rw [nand_t.getInput, nand_t.getInput, List.getD_eq_getD_get?,
            List.getD_eq_getD_get?, List.get?_eq_getElem?, List.get?_eq_getElem?, hh,
            List.getElem?_eq_none (by omega)]
      · rw [if_neg hq] at hh
        exact getInput_eq_type hh

theorem disconnect_input_noop {net : Network} {g k : Nat}
    (h1 : ((net.gateD g).getInput k).type ≠ input_type.BOOLEAN_SIGNAL_INPUT)
    (h2 : ((net.gateD g).getInput k).type ≠ input_type.NAND_GATE_INPUT) :
    nand_disconnect_input net g k = net := by
  simp only [nand_disconnect_input]
  rw [if_neg h1, if_neg h2]

set_option maxHeartbeats 1000000 in
theorem disconnect_input_spec {net : Network} (hw : WfP net) (g k : Nat) :
    WfP (nand_disconnect_input net g k) ∧
    (∀ u, (((nand_disconnect_input net g k).getGate u).isSome) =
      ((net.getGate u).isSome)) ∧
    (∀ gg, net.getGate g = some gg →
      ∃ gg2, (nand_disconnect_input net g k).getGate g = some gg2 ∧
        gg2.inputs.length = gg.inputs.length ∧
        (∀ inf2, gg2.inputs[k]? = some inf2 → inf2.type = input_type.EMPTY_INPUT) ∧
        (∀ j, j ≠ k → (gg2.getInput j).type = (gg.getInput j).type)) ∧
    (∀ u gu0, net.getGate u = some gu0 →
      ((net.gateD g).getInput k).ptr ≠ ptr_t.gate u →
      ∃ gu2, (nand_disconnect_input net g k).getGate u = some gu2 ∧
        gu2.outputs = gu0.outputs) := by
  cases hg0 : net.getGate g with
  | none =>
    have hgd : net.gateD g = defaultGate := by rw [Network.gateD, hg0]; rfl
    have hin : (net.gateD g).getInput k = emptyInput := by
      rw [hgd]
      rfl
    have hnoop : nand_disconnect_input net g k = net :=
      disconnect_input_noop (by rw [hin]; intro hc; cases hc) (by rw [hin]; intro hc; cases hc)
    rw [hnoop]
    exact ⟨hw, fun u => rfl, fun gg hgg => Option.noConfusion hgg,
      fun u gu0 hu0 _ => ⟨gu0, hu0, rfl⟩⟩
  | some gg =>
  have hgd : net.gateD g = gg := Network.gateD_eq_of_getGate hg0
  by_cases hk : k < gg.inputs.length
  · have hinf0 : gg.inputs[k]? = some (gg.getInput k) := nand_t.getElem_of_getInput hk
    cases hty0 : (gg.getInput k).type with
    | EMPTY_INPUT =>
      have hnoop : nand_disconnect_input net g k = net :=
        disconnect_input_noop (by rw [hgd, hty0]; intro hc; cases hc)
          (by rw [hgd, hty0]; intro hc; cases hc)
      rw [hnoop]
      refine ⟨hw, fun u => rfl, ?_, fun u gu0 hu0 _ => ⟨gu0, hu0, rfl⟩⟩
      intro gg2 hgg2
      cases hgg2
      refine ⟨gg, hg0, rfl, ?_, fun j _ => rfl⟩
      intro inf2 hinf2
      rw [hinf0] at hinf2
      cases hinf2
      exact hty0
    | BOOLEAN_SIGNAL_INPUT =>
      obtain ⟨gg2, hgg2, hinps, houts, _, _, _⟩ := setSlot_fields g k emptyInput hg0
      have hg2in : gg2.inputs[k]? = some emptyInput := by
        rw [hinps k, if_pos ⟨rfl, rfl⟩, if_pos hk]
      have hstep : nand_disconnect_input net g k = nand_disconnect_signal net g k := by
        have hA : (if ((net.gateD g).getInput k).type = input_type.BOOLEAN_SIGNAL_INPUT then
            nand_disconnect_signal net g k else net) = nand_disconnect_signal net g k :=
          if_pos (by rw [hgd]; exact hty0)
        have hB : ¬(((nand_disconnect_signal net g k).gateD g).getInput k).type =
            input_type.NAND_GATE_INPUT := by
          rw [nand_disconnect_signal, Network.gateD_eq_of_getGate hgg2,
            nand_t.getInput_eq_of_getElem hg2in]
          intro hc
          cases hc
        simp only [nand_disconnect_input]
        rw [hA, if_neg hB]
      rw [hstep, nand_disconnect_signal]
      have hcur : ∀ inf, gg.inputs[k]? = some inf →
          inf.type ≠ input_type.NAND_GATE_INPUT := by
        intro inf hinf
        rw [hinf0] at hinf
        cases hinf
        rw [hty0]
        intro hc
        cases hc
      refine ⟨WfP_set_slot hw hg0 hcur (Or.inl ⟨rfl, rfl⟩),
        fun u => isSome_getGate_modifyGate net g _ u, ?_, ?_⟩
      · intro gg0 hgg0
        cases hgg0
        refine ⟨gg2, hgg2, ?_, ?_, ?_⟩
        · rw [Network.getGate_modifyGate_pointwise, hg0] at hgg2
          cases hgg2
          split_ifs <;> simp [nand_t.setInput]
        · intro inf2 hinf2
          rw [hg2in] at hinf2
          cases hinf2
          rfl
        · intro j hj
          apply getInput_eq_type
          rw [hinps j, if_neg (fun hc => hj hc.2)]
      · intro u gu0 hu0 _
        obtain ⟨gu2, hgu2, hinpsu, houtsu, _, _, _⟩ := setSlot_fields g k emptyInput hu0
        exact ⟨gu2, hgu2, houtsu⟩
    | NAND_GATE_INPUT =>
      obtain ⟨s, gs, hptrEq, hgs, hrec⟩ :=
        (hw.1 g gg k (gg.getInput k) hg0 hinf0).2.2 hty0
      have hstep : nand_disconnect_input net g k = nand_disconnect_nand net s g k := by
        have hA : (if ((net.gateD g).getInput k).type = input_type.BOOLEAN_SIGNAL_INPUT then
            nand_disconnect_signal net g k else net) = net :=
          if_neg (by rw [hgd, hty0]; intro hc; cases hc)
        simp only [nand_disconnect_input]
        rw [hA, if_pos (by rw [hgd]; exact hty0)]
        rw [hgd, hptrEq]
      rw [hstep]
      obtain ⟨hwf, hsome, hgate, houts, _⟩ :=
        disconnect_nand_spec hw hg0 hinf0 hty0 hptrEq
      refine ⟨hwf, hsome, ?_, ?_⟩
      · intro gg0 hgg0
        cases hgg0
        exact hgate
      · intro u gu0 hu0 hne
        refine houts u gu0 hu0 ?_
        intro hus
        rw [hgd, hptrEq] at hne
        exact hne (by rw [hus])
  · have hin : gg.getInput k = emptyInput := by
      rw [nand_t.getInput, List.getD_eq_default _ _ (by omega)]
    have hnoop : nand_disconnect_input net g k = net :=
      disconnect_input_noop (by rw [hgd, hin]; intro hc; cases hc)
        (by rw [hgd, hin]; intro hc; cases hc)
    rw [hnoop]
    refine ⟨hw, fun u => rfl, ?_, fun u gu0 hu0 _ => ⟨gu0, hu0, rfl⟩⟩
    intro gg2 hgg2
    cases hgg2
    refine ⟨gg, hg0, rfl, ?_, fun j _ => rfl⟩
    intro inf2 hinf2
    rw [List.getElem?_eq_none (by omega)] at hinf2
    exact Option.noConfusion hinf2

theorem WfP_connect_signal {net : Network} (hw : WfP net) (s g : Option Nat) (k : Nat) :
    WfP (nand_connect_signal net s g k).2 := by
  cases s with
  | none => exact hw
  | some sid =>
    cases g with
    | none => exact hw
    | some h =>
      simp only [nand_connect_signal]
      by_cases hk : k ≥ (net.gateD h).input_count
      · rw [if_pos hk]
        exact hw
      · rw [if_neg hk]
        have hlive : ∃ gg, net.getGate h = some gg := by
          cases hg : net.getGate h with
          | none =>
            exfalso
            apply hk
            rw [Network.gateD, hg]
            exact Nat.zero_le k
          | some gg => exact ⟨gg, rfl⟩
        obtain ⟨gg, hg⟩ := hlive
        obtain ⟨hwd, hsome, hgate, _⟩ := disconnect_input_spec hw h k
        obtain ⟨gg2, hgg2, hlen, hempty, _⟩ := hgate gg hg
        refine WfP_set_slot hwd hgg2 ?_ (Or.inr ⟨rfl, sid, rfl⟩)
        intro inf hinf hc
        rw [hempty inf hinf] at hc
        cases hc

set_option maxHeartbeats 1000000 in
theorem push_disconnect_input_comm {net : Network} (hw : WfP net) {hi k ho : Nat}
    {ghi : nand_t}
    (hghi : net.getGate hi = some ghi)
    (hkLt : k < ghi.inputs.length)
    (hne : (ghi.getInput k).ptr ≠ ptr_t.gate ho) :
    nand_disconnect_input
        (net.modifyGate ho (fun g => { g with outputs := g.outputs ++ [⟨hi, k⟩] })) hi k =
      (nand_disconnect_input net hi k).modifyGate ho
        (fun g => { g with outputs := g.outputs ++ [⟨hi, k⟩] }) := by
  cases hho : net.getGate ho with
  | none =>
    rw [Network.modifyGate_not_live _ hho, Network.modifyGate_not_live]
    obtain ⟨_, hsome, _⟩ := disconnect_input_spec hw hi k
    have := hsome ho
    rw [hho] at this
    cases hd : (nand_disconnect_input net hi k).getGate ho with
    | none => rfl
    | some gd =>
      rw [hd] at this
      simp at this
  | some gho =>
  have hinf0 : ghi.inputs[k]? = some (ghi.getInput k) := nand_t.getElem_of_getInput hkLt
  have hghip : (net.modifyGate ho
      (fun g => { g with outputs := g.outputs ++ [⟨hi, k⟩] })).getGate hi =
      some (if hi = ho then { ghi with outputs := ghi.outputs ++ [⟨hi, k⟩] } else ghi) := by
    rw [Network.getGate_modifyGate_pointwise, hghi]
    by_cases hio : hi = ho <;> simp [hio]
  have hinpsp : (if hi = ho then { ghi with outputs := ghi.outputs ++ [⟨hi, k⟩] }
      else ghi).inputs = ghi.inputs := by
    split_ifs <;> rfl
  have hgdp : ((net.modifyGate ho
      (fun g => { g with outputs := g.outputs ++ [⟨hi, k⟩] })).gateD hi).getInput k =
      ghi.getInput k := by
    rw [Network.gateD_eq_of_getGate hghip, nand_t.getInput, nand_t.getInput, hinpsp]
  have hgd : net.gateD hi = ghi := Network.gateD_eq_of_getGate hghi
  cases hty0 : (ghi.getInput k).type with
  | EMPTY_INPUT =>
    rw [disconnect_input_noop (by rw [hgdp, hty0]; intro hc; cases hc)
      (by rw [hgdp, hty0]; intro hc; cases hc)]
    rw [disconnect_input_noop (by rw [hgd, hty0]; intro hc; cases hc)
      (by rw [hgd, hty0]; intro hc; cases hc)]
  | BOOLEAN_SIGNAL_INPUT =>
    obtain ⟨gg2, hgg2, hinps, houts, _, _, _⟩ := setSlot_fields hi k emptyInput hghi
    have hg2in : gg2.inputs[k]? = some emptyInput := by
      rw [hinps k, if_pos ⟨rfl, rfl⟩, if_pos hkLt]
    have hstep2 : nand_disconnect_input net hi k = nand_disconnect_signal net hi k := by
      have hA : (if ((net.gateD hi).getInput k).type = input_type.BOOLEAN_SIGNAL_INPUT then
          nand_disconnect_signal net hi k else net) = nand_disconnect_signal net hi k :=
        if_pos (by rw [hgd]; exact hty0)
      have hB : ¬(((nand_disconnect_signal net hi k).gateD hi).getInput k).type =
          input_type.NAND_GATE_INPUT := by
        rw [nand_disconnect_signal, Network.gateD_eq_of_getGate hgg2,
          nand_t.getInput_eq_of_getElem hg2in]
        intro hc
        cases hc
      simp only [nand_disconnect_input]
      rw [hA, if_neg hB]
    set netp := net.modifyGate ho (fun g => { g with outputs := g.outputs ++ [⟨hi, k⟩] })
      with hnetp
    obtain ⟨gg2p, hgg2p, hinpsP, houtsP, _, _, _⟩ := setSlot_fields hi k emptyInput hghip
    have hg2inp : gg2p.inputs[k]? = some emptyInput := by
      rw [hinpsP k, if_pos ⟨rfl, rfl⟩, if_pos (by rw [hinpsp]; exact hkLt)]
    have hstep1 : nand_disconnect_input netp hi k = nand_disconnect_signal netp hi k := by
      have hA : (if ((netp.gateD hi).getInput k).type = input_type.BOOLEAN_SIGNAL_INPUT then
          nand_disconnect_signal netp hi k else netp) = nand_disconnect_signal netp hi k :=
        if_pos (by rw [hgdp]; exact hty0)
      have hB : ¬(((nand_disconnect_signal netp hi k).gateD hi).getInput k).type =
          input_type.NAND_GATE_INPUT := by
        rw [nand_disconnect_signal, Network.gateD_eq_of_getGate hgg2p,
          nand_t.getInput_eq_of_getElem hg2inp]
        intro hc
        cases hc
      simp only [nand_disconnect_input]
      rw [hA, if_neg hB]
    rw [hstep1, hstep2, nand_disconnect_signal, nand_disconnect_signal, hnetp]
    exact modifyGate_comm net ho hi _ _ (fun _ g => rfl)
  | NAND_GATE_INPUT =>
    obtain ⟨s, gs, hptrEq, hgs, hrec⟩ :=
      (hw.1 hi ghi k (ghi.getInput k) hghi hinf0).2.2 hty0
    have hsho : s ≠ ho := by
      intro hc
      rw [hc] at hptrEq
      exact hne hptrEq
    set netp := net.modifyGate ho (fun g => { g with outputs := g.outputs ++ [⟨hi, k⟩] })
      with hnetp
    have hgsp : netp.getGate s = some gs := by
      rw [hnetp, Network.getGate_modifyGate_ne _ hsho]
      exact hgs
    have hstep2 : nand_disconnect_input net hi k = nand_disconnect_nand net s hi k := by
      have hA : (if ((net.gateD hi).getInput k).type = input_type.BOOLEAN_SIGNAL_INPUT then
          nand_disconnect_signal net hi k else net) = net :=
        if_neg (by rw [hgd, hty0]; intro hc; cases hc)
      simp only [nand_disconnect_input]
      rw [hA, if_pos (by rw [hgd]; exact hty0)]
      rw [hgd, hptrEq]
    have hstep1 : nand_disconnect_input netp hi k = nand_disconnect_nand netp s hi k := by
      have hA : (if ((netp.gateD hi).getInput k).type = input_type.BOOLEAN_SIGNAL_INPUT then
          nand_disconnect_signal netp hi k else netp) = netp :=
        if_neg (by rw [hgdp, hty0]; intro hc; cases hc)
      simp only [nand_disconnect_input]
      rw [hA, if_pos (by rw [hgdp]; exact hty0)]
      rw [hgdp, hptrEq]
    rw [hstep1, hstep2]
    have hinfP : (if hi = ho then { ghi with outputs := ghi.outputs ++ [⟨hi, k⟩] }
        else ghi).inputs[k]? = some (ghi.getInput k) := by
      rw [hinpsp]
      exact hinf0
    by_cases hb : (ghi.getInput k).ind + 1 = gs.outputs.length
    · rw [disconnect_nand_eq_last2 hghip hinfP rfl hgsp hb,
        disconnect_nand_eq_last2 hghi hinf0 rfl hgs hb]
      unfold discLastNet
      rw [hnetp]
      rw [modifyGate_comm net ho s _ _ (fun heq => absurd heq.symm hsho)]
      rw [modifyGate_comm _ ho hi (fun g => { g with outputs := g.outputs ++ [⟨hi, k⟩] })
        (fun g => g.setInput k emptyInput) (fun _ g => rfl)]
    · have hiLt : (ghi.getInput k).ind < gs.outputs.length := lt_of_getElem?_some hrec
      have hl : gs.outputs.length - 1 < gs.outputs.length := by omega
      obtain ⟨oi2, hoi2⟩ : ∃ oi2, gs.outputs[gs.outputs.length - 1]? = some oi2 := by
        rw [List.getElem?_eq_getElem hl]
        exact ⟨_, rfl⟩
      obtain ⟨t2, k2⟩ := oi2
      rw [disconnect_nand_eq_swap2 hghip hinfP rfl hgsp hiLt hb hoi2,
        disconnect_nand_eq_swap2 hghi hinf0 rfl hgs hiLt hb hoi2]
      unfold discSwapNet
      rw [hnetp]
      rw [modifyGate_comm net ho s _ _ (fun heq => absurd heq.symm hsho)]
      rw [modifyGate_comm _ ho t2 (fun g => { g with outputs := g.outputs ++ [⟨hi, k⟩] })
        (fun g => { g with inputs := g.inputs.set k2 { g.getInput k2 with ind := (ghi.getInput k).ind } })
        (fun _ g => rfl)]
      rw [modifyGate_comm _ ho s _ _ (fun heq => absurd heq.symm hsho)]
      rw [modifyGate_comm _ ho hi (fun g => { g with outputs := g.outputs ++ [⟨hi, k⟩] })
        (fun g => g.setInput k emptyInput) (fun _ g => rfl)]

set_option maxHeartbeats 1000000 in
theorem pushSet_fields {net : Network} (ho hi k : Nat) (rec : out_info)
    (newinf : in_info) {u : Nat} {g0 : nand_t}
    (hu0 : net.getGate u = some g0) :
    ∃ gu, ((net.modifyGate ho
        (fun g => { g with outputs := g.outputs ++ [rec] })).modifyGate hi
        (fun g => g.setInput k newinf)).getGate u = some gu ∧
      (∀ jj, gu.inputs[jj]? =
        (if u = hi ∧ jj = k then (if k < g0.inputs.length then some newinf else none)
         else g0.inputs[jj]?)) ∧
      gu.outputs = (if u = ho then g0.outputs ++ [rec] else g0.outputs) ∧
      gu.status = g0.status ∧ gu.signal = g0.signal ∧
      gu.crit_path_len = g0.crit_path_len := by
  rw [Network.getGate_modifyGate_pointwise, Network.getGate_modifyGate_pointwise, hu0,
    Option.map_map]
  refine ⟨_, rfl, ?_, ?_, ?_, ?_, ?_⟩ <;>
    by_cases hut : u = hi <;> by_cases hus : u = ho <;>
    simp only [Function.comp] <;>
    (try simp only [if_pos hut]) <;> (try simp only [if_neg hut]) <;>
    (try simp only [if_pos hus]) <;> (try simp only [if_neg hus])
  all_goals try rfl
  all_goals intro jj
  all_goals try simp only [nand_t.setInput, List.getElem?_set, List.length_set]
  all_goals split_ifs <;> first | rfl | omega

set_option maxHeartbeats 1000000 in
theorem WfP_connectPrim {netd : Network} (hw : WfP netd) {ho hi k : Nat}
    {gho ghi : nand_t}
    (hho : netd.getGate ho = some gho) (hhi : netd.getGate hi = some ghi)
    (hkLt : k < ghi.inputs.length)
    (hempty : ∀ inf, ghi.inputs[k]? = some inf → inf.type = input_type.EMPTY_INPUT) :
    WfP ((netd.modifyGate ho
        (fun g => { g with outputs := g.outputs ++ [⟨hi, k⟩] })).modifyGate hi
        (fun g => g.setInput k
          ⟨ptr_t.gate ho, input_type.NAND_GATE_INPUT, gho.outputs.length⟩)) := by
  have hrecTK : ∀ (u r : Nat) (oi : out_info) (gu0 : nand_t), netd.getGate u = some gu0 →
      gu0.outputs[r]? = some oi → ¬(oi.gate = hi ∧ oi.ind = k) := by
    intro u r oi gu0 hu0 hoi hc
    obtain ⟨gt3, inf3, hgt3, hinf3, hty3, _, _⟩ := hw.2 u gu0 r oi hu0 hoi
    rw [hc.1, hhi] at hgt3
    cases hgt3
    rw [hc.2] at hinf3
    rw [hempty inf3 hinf3] at hty3
    cases hty3
  constructor
  · intro u gu jj infj hgu hinfj
    cases hu0 : netd.getGate u with
    | none =>
      rw [Network.getGate_modifyGate_pointwise, Network.getGate_modifyGate_pointwise, hu0] at hgu
      exact Option.noConfusion hgu
    | some g0 =>
    obtain ⟨gu2, hgu2, hinps, houts, _, _, _⟩ := pushSet_fields ho hi k ⟨hi, k⟩ _ hu0
    rw [hgu2] at hgu
    cases hgu
    rw [hinps jj] at hinfj
    by_cases h1 : u = hi ∧ jj = k
    · rw [if_pos h1] at hinfj
      by_cases h2 : k < g0.inputs.length
      · rw [if_pos h2] at hinfj
        cases hinfj
        refine ⟨fun hC => ?_, fun hC => ?_, fun _ => ?_⟩
        · cases hC
        · cases hC
        · obtain ⟨ghof, hghof, hinpsO, houtsO, _, _, _⟩ := pushSet_fields ho hi k ⟨hi, k⟩ _ hho
          refine ⟨ho, ghof, rfl, hghof, ?_⟩
          rw [houtsO, if_pos rfl]
          show (gho.outputs ++ [(⟨hi, k⟩ : out_info)])[gho.outputs.length]? =
            some ⟨u, jj⟩
          rw [List.getElem?_concat_length, h1.1, h1.2]
      · rw [if_neg h2] at hinfj
        exact Option.noConfusion hinfj
    · rw [if_neg h1] at hinfj
      have base := hw.1 u g0 jj infj hu0 hinfj
      refine ⟨base.1, base.2.1, ?_⟩
      intro hN
      obtain ⟨s3, gs3, hp3, hgs3, hrec3⟩ := base.2.2 hN
      obtain ⟨gs3f, hgs3f, hinps3, houts3, _, _, _⟩ := pushSet_fields ho hi k ⟨hi, k⟩ _ hgs3
      refine ⟨s3, gs3f, hp3, hgs3f, ?_⟩
      rw [houts3]
      by_cases hs3 : s3 = ho
      · rw [if_pos hs3]
        rw [List.getElem?_append_left (lt_of_getElem?_some hrec3)]
        exact hrec3
      · rw [if_neg hs3]
        exact hrec3
  · intro u gu r oi hgu hoi
    cases hu0 : netd.getGate u with
    | none =>
      rw [Network.getGate_modifyGate_pointwise, Network.getGate_modifyGate_pointwise, hu0] at hgu
      exact Option.noConfusion hgu
    | some g0 =>
    obtain ⟨gu2, hgu2, hinps, houts, _, _, _⟩ := pushSet_fields ho hi k ⟨hi, k⟩ _ hu0
    rw [hgu2] at hgu
    cases hgu
    rw [houts] at hoi
    by_cases hus : u = ho
    · rw [if_pos hus] at hoi
      rw [hus, hho] at hu0
      cases hu0
      by_cases hrL : r = gho.outputs.length
      · rw [hrL, List.getElem?_concat_length] at hoi
        cases hoi
        obtain ⟨ghif, hghif, hinpsI, houtsI, _, _, _⟩ := pushSet_fields ho hi k ⟨hi, k⟩ _ hhi
        refine ⟨ghif, ⟨ptr_t.gate ho, input_type.NAND_GATE_INPUT, gho.outputs.length⟩,
          hghif, ?_, rfl, by rw [hus], hrL.symm⟩
        rw [hinpsI k, if_pos ⟨rfl, rfl⟩, if_pos hkLt]
      · have hrlt : r < gho.outputs.length := by
          have := lt_of_getElem?_some hoi
          rw [List.length_append] at this
          simp at this
          omega
        rw [List.getElem?_append_left hrlt] at hoi
        obtain ⟨gt3, inf3, hgt3, hinf3, hty3, hptr3, hind3⟩ := hw.2 ho gho r oi hho hoi
        obtain ⟨gt3f, hgt3f, hinps3, houts3, _, _, _⟩ := pushSet_fields ho hi k ⟨hi, k⟩ _ hgt3
        refine ⟨gt3f, inf3, hgt3f, ?_, hty3, by rw [hus]; exact hptr3, hind3⟩
        rw [hinps3 oi.ind, if_neg (hrecTK ho r oi gho hho hoi)]
        exact hinf3
    · rw [if_neg hus] at hoi
      obtain ⟨gt3, inf3, hgt3, hinf3, hty3, hptr3, hind3⟩ := hw.2 u g0 r oi hu0 hoi
      obtain ⟨gt3f, hgt3f, hinps3, houts3, _, _, _⟩ := pushSet_fields ho hi k ⟨hi, k⟩ _ hgt3
      refine ⟨gt3f, inf3, hgt3f, ?_, hty3, hptr3, hind3⟩
      rw [hinps3 oi.ind, if_neg (hrecTK u r oi g0 hu0 hoi)]
      exact hinf3

set_option maxHeartbeats 1000000 in
theorem WfP_connect_nand {net : Network} (hw : WfP net) (go gi : Option Nat)
    (k : Nat) (alloc : Bool)
    (hvo : validPtr net go = true) (hvi : validPtr net gi = true) :
    WfP (nand_connect_nand net go gi k alloc).2 := by
  cases go with
  | none => exact hw
  | some ho =>
    cases gi with
    | none => exact hw
    | some hi =>
      obtain ⟨gho, hho⟩ : ∃ g, net.getGate ho = some g := by
        cases hg : net.getGate ho with
        | none => rw [validPtr, hg] at hvo; cases hvo
        | some g => exact ⟨g, rfl⟩
      obtain ⟨ghi, hhi⟩ : ∃ g, net.getGate hi = some g := by
        cases hg : net.getGate hi with
        | none => rw [validPtr, hg] at hvi; cases hvi
        | some g => exact ⟨g, rfl⟩
      have hgd : net.gateD hi = ghi := Network.gateD_eq_of_getGate hhi
      simp only [nand_connect_nand]
      by_cases hk : k ≥ (net.gateD hi).input_count
      · rw [if_pos hk]
        exact hw
      rw [if_neg hk]
      by_cases hfast : ((net.gateD hi).getInput k).ptr = ptr_t.gate ho
      · rw [if_pos hfast]
        exact hw
      rw [if_neg hfast]
      cases alloc with
      | false => exact hw
      | true =>
      simp only [Bool.not_true, Bool.false_eq_true, if_false]
      have hkLt : k < ghi.inputs.length := by
        rw [hgd] at hk
        rw [nand_t.input_count] at hk
        omega
      have hne : (ghi.getInput k).ptr ≠ ptr_t.gate ho := by
        rw [hgd] at hfast
        exact hfast
      have hcomm := push_disconnect_input_comm hw hhi hkLt hne
      rw [hcomm]
      obtain ⟨hwd, hsome, hgate, houts⟩ := disconnect_input_spec hw hi k
      obtain ⟨gg2, hgg2, hlen, hempty, _⟩ := hgate ghi hhi
      obtain ⟨gho2, hgho2, hghouts⟩ := houts ho gho hho (by rw [hgd]; exact hne)
      have hlenOut : (((nand_disconnect_input net hi k).modifyGate ho
          (fun g => { g with outputs := g.outputs ++ [⟨hi, k⟩] })).gateD ho).outputs.length - 1 =
          gho2.outputs.length := by
        rw [Network.gateD_eq_of_getGate (Network.getGate_modifyGate_self _ hgho2)]
        simp
      rw [hlenOut]
      exact WfP_connectPrim hwd hgho2 hgg2 (by omega) hempty

theorem getInput_type_empty_of_getElem {g : nand_t} {j : Nat}
    (h : ∀ inf, g.inputs[j]? = some inf → inf.type = input_type.EMPTY_INPUT) :
    (g.getInput j).type = input_type.EMPTY_INPUT := by
  by_cases hj : j < g.inputs.length
  · exact h _ (nand_t.getElem_of_getInput hj)
  · rw [nand_t.getInput, List.getD_eq_default _ _ (by omega)]
    rfl

set_option maxHeartbeats 1000000 in
theorem delete_inputs_fold {h : Nat} : ∀ (l : List Nat) (net : Network) (gh : nand_t),
    WfP net → net.getGate h = some gh →
    ∃ gh2, (l.foldl (fun acc i =>
        if ((acc.gateD h).getInput i).type ≠ input_type.EMPTY_INPUT then
          nand_disconnect_input acc h i
        else acc) net).getGate h = some gh2 ∧
      WfP (l.foldl (fun acc i =>
        if ((acc.gateD h).getInput i).type ≠ input_type.EMPTY_INPUT then
          nand_disconnect_input acc h i
        else acc) net) ∧
      gh2.inputs.length = gh.inputs.length ∧
      (∀ j, j ∈ l → (gh2.getInput j).type = input_type.EMPTY_INPUT) ∧
      (∀ j, (gh.getInput j).type = input_type.EMPTY_INPUT →
        (gh2.getInput j).type = input_type.EMPTY_INPUT) := by
  intro l
  induction l with
  | nil =>
    intro net gh hw hgh
    exact ⟨gh, hgh, hw, rfl, fun j hj => absurd hj (List.not_mem_nil j), fun j hj => hj⟩
  | cons i rest ih =>
    intro net gh hw hgh
    rw [List.foldl_cons]
    by_cases hcond : ((net.gateD h).getInput i).type ≠ input_type.EMPTY_INPUT
    · rw [if_pos hcond]
      obtain ⟨hwd, hsome, hgate, _⟩ := disconnect_input_spec hw h i
      obtain ⟨gh1, hgh1, hlen1, hemp1, htypes1⟩ := hgate gh hgh
      obtain ⟨gh2, hgh2, hw2, hlen2, hmem2, hpers2⟩ := ih _ gh1 hwd hgh1
      refine ⟨gh2, hgh2, hw2, by rw [hlen2, hlen1], ?_, ?_⟩
      · intro j hj
        rcases List.mem_cons.mp hj with hji | hjr
        · subst hji
          exact hpers2 j (getInput_type_empty_of_getElem hemp1)
        · exact hmem2 j hjr
      · intro j hj
        by_cases hji : j = i
        · subst hji
          exact hpers2 j (getInput_type_empty_of_getElem hemp1)
        · exact hpers2 j (by rw [htypes1 j hji]; exact hj)
    · rw [if_neg hcond]
      rw [not_not] at hcond
      rw [Network.gateD_eq_of_getGate hgh] at hcond
      obtain ⟨gh2, hgh2, hw2, hlen2, hmem2, hpers2⟩ := ih net gh hw hgh
      refine ⟨gh2, hgh2, hw2, hlen2, ?_, hpers2⟩
      intro j hj
      rcases List.mem_cons.mp hj with hji | hjr
      · subst hji
        exact hpers2 j hcond
      · exact hmem2 j hjr

set_option maxHeartbeats 1000000 in
theorem delete_outputs_loop_spec {h : Nat} : ∀ (fuel : Nat) (net : Network) (gh : nand_t),
    WfP net → net.getGate h = some gh → fuel = gh.outputs.length →
    (∀ j, (gh.getInput j).type = input_type.EMPTY_INPUT) →
    ∃ gh2, (deleteOutputsLoop fuel net h).getGate h = some gh2 ∧
      WfP (deleteOutputsLoop fuel net h) ∧
      gh2.outputs = [] ∧
      (∀ j, (gh2.getInput j).type = input_type.EMPTY_INPUT) := by
  intro fuel
  induction fuel with
  | zero =>
    intro net gh hw hgh hfuel hemp
    refine ⟨gh, hgh, hw, ?_, hemp⟩
    rw [← List.length_eq_zero]
    omega
  | succ f ih =>
    intro net gh hw hgh hfuel hemp
    have hgd : net.gateD h = gh := Network.gateD_eq_of_getGate hgh
    have hlen : 0 < gh.outputs.length := by omega
    have hlast : gh.outputs[gh.outputs.length - 1]? =
        some (gh.outputs.getLastD ⟨0, 0⟩) := by
      rw [List.getLastD_eq_getLast?, List.getLast?_eq_getElem?,
        List.getElem?_eq_getElem (by omega)]
      rfl
    obtain ⟨gt2, inf2, hgt2, hinf2, hty2, hptr2, hind2⟩ :=
      hw.2 h gh (gh.outputs.length - 1) _ hgh hlast
    have hth : (gh.outputs.getLastD ⟨0, 0⟩).gate ≠ h := by
      intro hc
      rw [hc, hgh] at hgt2
      cases hgt2
      have := hemp (gh.outputs.getLastD ⟨0, 0⟩).ind
      rw [nand_t.getInput_eq_of_getElem hinf2] at this
      rw [hty2] at this
      cases this
    have hstep : deleteOutputsLoop (f + 1) net h =
        deleteOutputsLoop f (nand_disconnect_nand net h
          (gh.outputs.getLastD ⟨0, 0⟩).gate (gh.outputs.getLastD ⟨0, 0⟩).ind) h := by
      show (if (net.gateD h).outputs.length > 0 then
          deleteOutputsLoop f (nand_disconnect_nand net h
            ((net.gateD h).outputs.getLastD ⟨0, 0⟩).gate
            ((net.gateD h).outputs.getLastD ⟨0, 0⟩).ind) h
        else net) = _
      rw [hgd, if_pos hlen]
    rw [hstep]
    obtain ⟨hwd, hsome, hgate, houts, hslen, htypes⟩ :=
      disconnect_nand_spec hw hgt2 hinf2 hty2 hptr2
    obtain ⟨gs, gs2, hgs, hgs2, hslen2⟩ := hslen
    rw [hgh] at hgs
    cases hgs
    obtain ⟨gh1, hgh1, htypes1⟩ := htypes h gh hgh (Ne.symm hth)
    rw [hgs2] at hgh1
    cases hgh1
    refine ih _ gs2 hwd hgs2 (by omega) ?_
    intro j
    rw [htypes1 j]
    exact hemp j

theorem getGate_free (net : Network) (h u : Nat) :
    (Network.mk (net.gates.set h none)).getGate u =
      if u = h then none else net.getGate u := by
  by_cases he : u = h
  · subst he
    rw [if_pos rfl, Network.getGate_eq]
    dsimp only
    by_cases hlt : u < net.gates.length
    · rw [List.getElem?_set_eq_of_lt _ hlt]
      rfl
    · rw [List.getElem?_eq_none (by simp; omega)]
      rfl
  · rw [if_neg he, Network.getGate_eq]
    dsimp only
    rw [List.getElem?_set_ne (fun hc => he hc.symm), ← Network.getGate_eq]

set_option maxHeartbeats 1000000 in
theorem free_spec {net2 : Network} (hw : WfP net2) {h : Nat} {gh2 : nand_t}
    (hgh : net2.getGate h = some gh2)
    (hout : gh2.outputs = [])
    (hin : ∀ j, (gh2.getInput j).type = input_type.EMPTY_INPUT) :
    WfP (Network.mk (net2.gates.set h none)) ∧
    noRefs (Network.mk (net2.gates.set h none)) h = true ∧
    (Network.mk (net2.gates.set h none)).getGate h = none := by
  have hnoref_in : ∀ (u : Nat) (gu : nand_t) (j : Nat) (inf : in_info),
      net2.getGate u = some gu → gu.inputs[j]? = some inf → inf.ptr ≠ ptr_t.gate h := by
    intro u gu j inf hu hj hc
    have base := hw.1 u gu j inf hu hj
    cases hty : inf.type with
    | EMPTY_INPUT => rw [base.1 hty] at hc; cases hc
    | BOOLEAN_SIGNAL_INPUT =>
      obtain ⟨sid, hp⟩ := base.2.1 hty
      rw [hp] at hc
      cases hc
    | NAND_GATE_INPUT =>
      obtain ⟨s3, gs3, hp3, hgs3, hrec3⟩ := base.2.2 hty
      rw [hp3] at hc
      cases hc
      rw [hgh] at hgs3
      cases hgs3
      rw [hout] at hrec3
      rw [List.getElem?_eq_none (by simp)] at hrec3
      exact Option.noConfusion hrec3
  have hnoref_out : ∀ (u : Nat) (gu : nand_t) (r : Nat) (oi : out_info),
      net2.getGate u = some gu → gu.outputs[r]? = some oi → oi.gate ≠ h := by
    intro u gu r oi hu hr hc
    obtain ⟨gt3, inf3, hgt3, hinf3, hty3, _, _⟩ := hw.2 u gu r oi hu hr
    rw [hc, hgh] at hgt3
    cases hgt3
    have := hin oi.ind
    rw [nand_t.getInput_eq_of_getElem hinf3, hty3] at this
    cases this
  refine ⟨⟨?_, ?_⟩, ?_, by rw [getGate_free, if_pos rfl]⟩
  · intro t gt k inf hgt hinf
    rw [getGate_free] at hgt
    by_cases ht : t = h
    · rw [if_pos ht] at hgt
      exact Option.noConfusion hgt
    · rw [if_neg ht] at hgt
      have base := hw.1 t gt k inf hgt hinf
      refine ⟨base.1, base.2.1, ?_⟩
      intro hN
      obtain ⟨s3, gs3, hp3, hgs3, hrec3⟩ := base.2.2 hN
      have hs3 : s3 ≠ h := by
        intro hc
        exact hnoref_in t gt k inf hgt hinf (by rw [hp3, hc])
      refine ⟨s3, gs3, hp3, ?_, hrec3⟩
      rw [getGate_free, if_neg hs3]
      exact hgs3
  · intro s gs i oi hgs hoi
    rw [getGate_free] at hgs
    by_cases hs : s = h
    · rw [if_pos hs] at hgs
      exact Option.noConfusion hgs
    · rw [if_neg hs] at hgs
      obtain ⟨gt3, inf3, hgt3, hinf3, hty3, hptr3, hind3⟩ := hw.2 s gs i oi hgs hoi
      have hoig : oi.gate ≠ h := hnoref_out s gs i oi hgs hoi
      refine ⟨gt3, inf3, ?_, hinf3, hty3, hptr3, hind3⟩
      rw [getGate_free, if_neg hoig]
      exact hgt3
  · rw [noRefs, List.all_eq_true]
    intro t ht
    rw [getGate_free]
    by_cases hth : t = h
    · rw [if_pos hth]
    · rw [if_neg hth]
      cases hgt : net2.getGate t with
      | none => rfl
      | some gt =>
        rw [Bool.and_eq_true, List.all_eq_true, List.all_eq_true]
        constructor
        · intro inf hinf
          obtain ⟨j, hjlt, hjeq⟩ := List.getElem_of_mem hinf
          have hj2 : gt.inputs[j]? = some inf := by
            rw [List.getElem?_eq_getElem hjlt, hjeq]
          exact decide_eq_true (hnoref_in t gt j inf hgt hj2)
        · intro oi hoi
          obtain ⟨r, hrlt, hreq⟩ := List.getElem_of_mem hoi
          have hr2 : gt.outputs[r]? = some oi := by
            rw [List.getElem?_eq_getElem hrlt, hreq]
          exact decide_eq_true (hnoref_out t gt r oi hgt hr2)

set_option maxHeartbeats 1000000 in
theorem delete_spec {net : Network} (hw : WfP net) (h : Nat) {gh : nand_t}
    (hgh : net.getGate h = some gh) :
    WfP (nand_delete net (some h)) ∧
    noRefs (nand_delete net (some h)) h = true ∧
    (nand_delete net (some h)).getGate h = none := by
  simp only [nand_delete]
  rw [Network.gateD_eq_of_getGate hgh]
  obtain ⟨gh2, hgh2, hw2, hlen2, hmem2, hpers2⟩ :=
    delete_inputs_fold (List.range gh.input_count) net gh hw hgh
  have hallEmpty : ∀ j, (gh2.getInput j).type = input_type.EMPTY_INPUT := by
    intro j
    by_cases hj : j < gh2.inputs.length
    · apply hmem2
      rw [List.mem_range, nand_t.input_count]
      omega
    · rw [nand_t.getInput, List.getD_eq_default _ _ (by omega)]
      rfl
  rw [Network.gateD_eq_of_getGate hgh2]
  obtain ⟨gh3, hgh3, hw3, hout3, hin3⟩ :=
    delete_outputs_loop_spec gh2.outputs.length _ gh2 hw2 hgh2 rfl hallEmpty
  exact free_spec hw3 hgh3 hout3 hin3

/-- Claim C1: every mutating operation of the connection manager —
`nand_connect_nand`, `nand_connect_signal`, `nand_disconnect_input` and
`nand_delete` — preserves the bidirectional pairing invariant `Wf`:
whenever slot k of gate T holds a gate source (S, i), record i of S's
consumer list equals (T, k), and conversely every consumer record (T, k)
of S is matched by slot k of T pointing back at S with index equal to the
record's own position. -/
theorem claim_C1_mutations_preserve_pairing_invariant :
    (∀ (net : Network) (go gi : Option Nat) (k : Nat) (alloc : Bool),
      Wf net = true → validPtr net go = true → validPtr net gi = true →
      Wf (nand_connect_nand net go gi k alloc).2 = true) ∧
    (∀ (net : Network) (s g : Option Nat) (k : Nat),
      Wf net = true → Wf (nand_connect_signal net s g k).2 = true) ∧
    (∀ (net : Network) (g k : Nat),
      Wf net = true → Wf (nand_disconnect_input net g k) = true) ∧
    (∀ (net : Network) (g : Option Nat),
      Wf net = true → validPtr net g = true → Wf (nand_delete net g) = true) := by
  refine ⟨?_, ?_, ?_, ?_⟩
  · intro net go gi k alloc hw hvo hvi
    exact (Wf_iff _).mpr (WfP_connect_nand ((Wf_iff _).mp hw) go gi k alloc hvo hvi)
  · intro net s g k hw
    exact (Wf_iff _).mpr (WfP_connect_signal ((Wf_iff _).mp hw) s g k)
  · intro net g k hw
    exact (Wf_iff _).mpr (disconnect_input_spec ((Wf_iff _).mp hw) g k).1
  · intro net g hw hv
    cases g with
    | none => exact hw
    | some h =>
      obtain ⟨gh, hgh⟩ : ∃ g0, net.getGate h = some g0 := by
        cases hg : net.getGate h with
        | none => rw [validPtr, hg] at hv; cases hv
        | some g0 => exact ⟨g0, rfl⟩
      exact (Wf_iff _).mpr (delete_spec ((Wf_iff _).mp hw) h hgh).1

theorem claim_C1_witness :
    Wf (nand_connect_nand exNet (some 1) (some 0) 1 true).2 = true ∧
    Wf (nand_connect_signal exNet (some 7) (some 1) 0 ).2 = true ∧
    Wf (nand_disconnect_input exNet 1 0) = true ∧
    Wf (nand_delete exNet (some 0)) = true :=
  ⟨claim_C1_mutations_preserve_pairing_invariant.1 exNet (some 1) (some 0) 1 true
      (by decide) (by decide) (by decide),
   claim_C1_mutations_preserve_pairing_invariant.2.1 exNet (some 7) (some 1) 0 (by decide),
   claim_C1_mutations_preserve_pairing_invariant.2.2.1 exNet 1 0 (by decide),
   claim_C1_mutations_preserve_pairing_invariant.2.2.2 exNet (some 0) (by decide) (by decide)⟩

/-- Claim C6: destroying a live gate removes every trace of it — afterwards
no remaining gate's consumer list references it and no remaining gate's
input slot holds a gate source pointing at it (`noRefs`), and its arena
slot is freed. -/
theorem claim_C6_delete_removes_all_traces (net : Network) (h : Nat)
    (hw : Wf net = true) (hv : validPtr net (some h) = true) :
    noRefs (nand_delete net (some h)) h = true ∧
    (nand_delete net (some h)).getGate h = none := by
  obtain ⟨gh, hgh⟩ : ∃ g0, net.getGate h = some g0 := by
    cases hg : net.getGate h with
    | none => rw [validPtr, hg] at hv; cases hv
    | some g0 => exact ⟨g0, rfl⟩
  obtain ⟨_, hnr, hfree⟩ := delete_spec ((Wf_iff _).mp hw) h hgh
  exact ⟨hnr, hfree⟩

theorem claim_C6_witness :
    noRefs (nand_delete exNet (some 0)) 0 = true ∧
    (nand_delete exNet (some 0)).getGate 0 = none :=
  claim_C6_delete_removes_all_traces exNet 0 (by decide) (by decide)

/-! Lemmas about `clearGatesLoop` and status-only updates. -/

theorem list_set_self {α : Type} {l : List α} {i : Nat} {a : α}
    (h : l[i]? = some a) : l.set i a = l := by
  have hi : i < l.length := by
    by_contra hc
    rw [List.getElem?_eq_none (by omega)] at h
    cases h
  apply List.ext_getElem?
  intro j
  by_cases hij : i = j
  · subst hij
    rw [List.getElem?_set_eq_of_lt _ hi, h]
  · rw [List.getElem?_set_ne hij]

theorem gates_getElem?_of_getGate {net : Network} {h : Nat} {g : nand_t}
    (hg : net.getGate h = some g) : net.gates[h]? = some (some g) := by
  rw [Network.getGate_eq] at hg
  cases hq : net.gates[h]? with
  | none => rw [hq] at hg; cases hg
  | some o =>
    rw [hq] at hg
    simp only [Option.getD] at hg
    rw [hg]

theorem modifyGate_self_id {net : Network} {h : Nat} {g : nand_t}
    (hg : net.getGate h = some g) {f : nand_t → nand_t} (hf : f g = g) :
    net.modifyGate h f = net := by
  have hrw : net.modifyGate h f = Network.mk (net.gates.set h (some (f g))) := by
    unfold Network.modifyGate
    rw [hg]
  rw [hrw, hf]
  cases net with
  | mk gates =>
    congr 1
    exact list_set_self (gates_getElem?_of_getGate hg)

theorem modify_status_id {net : Network} {h : Nat}
    (hs : (net.gateD h).status = topo_sort_status.NOT_VISITED) :
    net.modifyGate h (fun g => { g with status := topo_sort_status.NOT_VISITED }) = net := by
  cases hg : net.getGate h with
  | none => unfold Network.modifyGate; rw [hg]
  | some g =>
    have hgd := Network.gateD_eq_of_getGate hg
    rw [hgd] at hs
    apply modifyGate_self_id hg
    rw [← hs]

theorem clearGatesLoop_getGate : ∀ (A : List Nat) (net : Network) (u : Nat),
    (clearGatesLoop A net).getGate u =
      (net.getGate u).map (fun g =>
        if u ∈ A then { g with status := topo_sort_status.NOT_VISITED } else g)
  | [], net, u => by
    cases hg : net.getGate u <;> simp [clearGatesLoop, hg]
  | h :: rest, net, u => by
    rw [clearGatesLoop, clearGatesLoop_getGate rest, Network.getGate_modifyGate_pointwise,
        Option.map_map]
    cases hg : net.getGate u with
    | none => rfl
    | some g =>
      simp only [Option.map, Function.comp]
      congr 1
      by_cases h1 : u = h
      · subst h1
        by_cases h2 : u ∈ rest <;> simp [h2, List.mem_cons]
      · by_cases h2 : u ∈ rest <;> simp [h1, h2, List.mem_cons]

theorem clearGatesLoop_isSome (A : List Nat) (net : Network) (u : Nat) :
    ((clearGatesLoop A net).getGate u).isSome = (net.getGate u).isSome := by
  rw [clearGatesLoop_getGate]
  cases net.getGate u <;> rfl

theorem clearGatesLoop_inputs (A : List Nat) (net : Network) (u : Nat) :
    ((clearGatesLoop A net).gateD u).inputs = (net.gateD u).inputs := by
  rw [Network.gateD, Network.gateD, clearGatesLoop_getGate]
  cases net.getGate u with
  | none => rfl
  | some g => by_cases h : u ∈ A <;> simp [h]

theorem clearGatesLoop_outputs (A : List Nat) (net : Network) (u : Nat) :
    ((clearGatesLoop A net).gateD u).outputs = (net.gateD u).outputs := by
  rw [Network.gateD, Network.gateD, clearGatesLoop_getGate]
  cases net.getGate u with
  | none => rfl
  | some g => by_cases h : u ∈ A <;> simp [h]

theorem clearGatesLoop_signal (A : List Nat) (net : Network) (u : Nat) :
    ((clearGatesLoop A net).gateD u).signal = (net.gateD u).signal := by
  rw [Network.gateD, Network.gateD, clearGatesLoop_getGate]
  cases net.getGate u with
  | none => rfl
  | some g => by_cases h : u ∈ A <;> simp [h]

theorem clearGatesLoop_crit (A : List Nat) (net : Network) (u : Nat) :
    ((clearGatesLoop A net).gateD u).crit_path_len = (net.gateD u).crit_path_len := by
  rw [Network.gateD, Network.gateD, clearGatesLoop_getGate]
  cases net.getGate u with
  | none => rfl
  | some g => by_cases h : u ∈ A <;> simp [h]

theorem clearGatesLoop_modify_mem : ∀ (A : List Nat) (net : Network) (h : Nat)
    (s : topo_sort_status), h ∈ A →
    clearGatesLoop A (net.modifyGate h (fun g => { g with status := s })) =
      clearGatesLoop A net
  | [], _, _, _, hmem => absurd hmem (List.not_mem_nil _)
  | t :: rest, net, h, s, hmem => by
    by_cases hth : t = h
    · subst hth
      rw [clearGatesLoop, clearGatesLoop, modifyGate_modifyGate_self]
    · rw [clearGatesLoop, clearGatesLoop,
          modifyGate_modifyGate_ne _ _ _ (fun hc => hth hc.symm)]
      exact clearGatesLoop_modify_mem rest _ h s
        (by cases List.mem_cons.mp hmem with
            | inl hx => exact absurd hx.symm hth
            | inr hx => exact hx)

/-! Status-only modifications and the shape of the DFS net evolution. -/

theorem gateD_modify_status (net : Network) (h : Nat) (s : topo_sort_status) (u : Nat) :
    (net.modifyGate h (fun g => { g with status := s })).gateD u =
      if u = h ∧ (net.getGate h).isSome = true
      then { net.gateD u with status := s } else net.gateD u := by
  by_cases he : u = h
  · subst he
    cases hg : net.getGate u with
    | none =>
      rw [Network.modifyGate_not_live _ hg,
          if_neg (fun hc => nomatch hc.2)]
    | some g =>
      rw [Network.gateD, Network.getGate_modifyGate_pointwise, hg,
          if_pos ⟨rfl, rfl⟩]
      simp [Network.gateD, hg]
  · rw [Network.gateD, Network.getGate_modifyGate_pointwise,
        if_neg (fun hc : u = h ∧ _ => he hc.1)]
    cases hg : net.getGate u with
    | none => simp [Network.gateD, hg, he]
    | some g => simp [Network.gateD, hg, he]

theorem modify_status_inputs (net : Network) (h : Nat) (s : topo_sort_status) (u : Nat) :
    ((net.modifyGate h (fun g => { g with status := s })).gateD u).inputs =
      (net.gateD u).inputs := by
  rw [gateD_modify_status]
  split <;> rfl

theorem modify_status_outputs (net : Network) (h : Nat) (s : topo_sort_status) (u : Nat) :
    ((net.modifyGate h (fun g => { g with status := s })).gateD u).outputs =
      (net.gateD u).outputs := by
  rw [gateD_modify_status]
  split <;> rfl

theorem modify_status_signal (net : Network) (h : Nat) (s : topo_sort_status) (u : Nat) :
    ((net.modifyGate h (fun g => { g with status := s })).gateD u).signal =
      (net.gateD u).signal := by
  rw [gateD_modify_status]
  split <;> rfl

theorem modify_status_crit (net : Network) (h : Nat) (s : topo_sort_status) (u : Nat) :
    ((net.modifyGate h (fun g => { g with status := s })).gateD u).crit_path_len =
      (net.gateD u).crit_path_len := by
  rw [gateD_modify_status]
  split <;> rfl

theorem modify_status_status_ne (net : Network) {h : Nat} (s : topo_sort_status)
    {u : Nat} (hne : u ≠ h) :
    ((net.modifyGate h (fun g => { g with status := s })).gateD u).status =
      (net.gateD u).status := by
  rw [gateD_modify_status, if_neg (fun hc => hne hc.1)]

theorem modify_status_status_self (net : Network) {h : Nat} (s : topo_sort_status)
    (hlive : (net.getGate h).isSome = true) :
    ((net.modifyGate h (fun g => { g with status := s })).gateD h).status = s := by
  rw [gateD_modify_status, if_pos ⟨rfl, hlive⟩]

theorem sameShape_refl (x : Network) : sameShape x x :=
  fun _ => ⟨rfl, rfl, rfl, rfl, rfl⟩

theorem sameShape_trans {x y z : Network} (h1 : sameShape x y) (h2 : sameShape y z) :
    sameShape x z := by
  intro u
  obtain ⟨a1, b1, c1, d1, e1⟩ := h1 u
  obtain ⟨a2, b2, c2, d2, e2⟩ := h2 u
  exact ⟨a1.trans a2, b1.trans b2, c1.trans c2, d1.trans d2, e1.trans e2⟩

theorem sameShape_modify_status (net : Network) (h : Nat) (s : topo_sort_status) :
    sameShape (net.modifyGate h (fun g => { g with status := s })) net := by
  intro u
  exact ⟨isSome_getGate_modifyGate net h _ u, modify_status_inputs net h s u,
    modify_status_outputs net h s u, modify_status_signal net h s u,
    modify_status_crit net h s u⟩

theorem netMono_refl (x : Network) : netMono x x :=
  ⟨sameShape_refl x, fun _ h => h, fun _ h => h⟩

theorem netMono_trans {x y z : Network} (h1 : netMono x y) (h2 : netMono y z) :
    netMono x z :=
  ⟨sameShape_trans h2.1 h1.1, fun u hu => h2.2.1 u (h1.2.1 u hu),
   fun u hu => h2.2.2 u (h1.2.2 u hu)⟩

theorem netMono_modify {net : Network} {h : Nat} {s : topo_sort_status}
    (hs : s ≠ topo_sort_status.NOT_VISITED)
    (hcp : s = topo_sort_status.CURRENTLY_PROCESSING →
      (net.gateD h).status = topo_sort_status.NOT_VISITED) :
    netMono net (net.modifyGate h (fun g => { g with status := s })) := by
  refine ⟨sameShape_modify_status net h s, ?_, ?_⟩
  · intro u hu
    by_cases he : u = h
    · subst he
      by_cases hl : (net.getGate u).isSome = true
      · rw [modify_status_status_self net s hl]
        exact hs
      · rw [gateD_modify_status, if_neg (fun hc => hl hc.2)]
        exact hu
    · rw [modify_status_status_ne net s he]
      exact hu
  · intro u hu
    by_cases he : u = h
    · subst he
      by_cases hl : (net.getGate u).isSome = true
      · rw [modify_status_status_self net s hl]
        cases s with
        | VISITED => rfl
        | NOT_VISITED => exact absurd rfl hs
        | CURRENTLY_PROCESSING =>
          rw [hcp rfl] at hu
          cases hu
      · rw [gateD_modify_status, if_neg (fun hc => hl hc.2)]
        exact hu
    · rw [modify_status_status_ne net s he]
      exact hu

theorem process_input_nand_net_cases (h : Nat) (st : EvalState) :
    (process_input_nand h st).2.net = st.net ∨
    ((st.net.gateD h).status = topo_sort_status.NOT_VISITED ∧
     (process_input_nand h st).2.net =
       st.net.modifyGate h
         (fun g => { g with status := topo_sort_status.CURRENTLY_PROCESSING })) := by
  unfold process_input_nand
  by_cases h1 : (st.net.gateD h).status = topo_sort_status.CURRENTLY_PROCESSING
  · rw [if_pos h1]
    exact Or.inl rfl
  · rw [if_neg h1]
    by_cases h2 : (st.net.gateD h).status = topo_sort_status.NOT_VISITED
    · rw [if_pos h2]
      cases hb : st.budget with
      | zero => exact Or.inl rfl
      | succ b =>
        cases b with
        | zero => exact Or.inr ⟨h2, rfl⟩
        | succ b2 => exact Or.inr ⟨h2, rfl⟩
    · rw [if_neg h2]
      exact Or.inl rfl

theorem process_input_net_cases (input : in_info) (st : EvalState) :
    (process_input input st).2.net = st.net ∨
    (∃ h, (st.net.gateD h).status = topo_sort_status.NOT_VISITED ∧
     (process_input input st).2.net =
       st.net.modifyGate h
         (fun g => { g with status := topo_sort_status.CURRENTLY_PROCESSING })) := by
  unfold process_input
  by_cases h1 : input.type = input_type.EMPTY_INPUT
  · rw [if_pos h1]
    exact Or.inl rfl
  · rw [if_neg h1]
    by_cases h2 : input.type = input_type.NAND_GATE_INPUT
    · rw [if_pos h2]
      cases input.ptr with
      | null => exact Or.inl rfl
      | sig sid => exact Or.inl rfl
      | gate hg =>
        cases process_input_nand_net_cases hg st with
        | inl hx => exact Or.inl hx
        | inr hx => exact Or.inr ⟨hg, hx⟩
    · rw [if_neg h2]
      exact Or.inl rfl

theorem process_node_net_cases (st : EvalState) :
    (process_node st).2.net = st.net ∨
    ∃ h s, s ≠ topo_sort_status.NOT_VISITED ∧
      (s = topo_sort_status.CURRENTLY_PROCESSING →
        (st.net.gateD h).status = topo_sort_status.NOT_VISITED) ∧
      (process_node st).2.net =
        st.net.modifyGate h (fun g => { g with status := s }) := by
  unfold process_node
  cases hd : st.dstack with
  | nil => exact Or.inl rfl
  | cons di rest =>
    dsimp only
    by_cases hk : di.ind = (st.net.gateD di.gate).input_count
    · rw [if_pos hk]
      cases hb : st.budget with
      | zero =>
        exact Or.inr ⟨di.gate, topo_sort_status.VISITED, by decide,
          fun hc => absurd hc (by decide), rfl⟩
      | succ b =>
        exact Or.inr ⟨di.gate, topo_sort_status.VISITED, by decide,
          fun hc => absurd hc (by decide), rfl⟩
    · rw [if_neg hk]
      cases hb : st.budget with
      | zero => exact Or.inl rfl
      | succ b =>
        cases process_input_net_cases ((st.net.gateD di.gate).getInput di.ind)
            { st with dstack := ⟨di.gate, di.ind + 1⟩ :: rest, budget := b } with
        | inl hx => exact Or.inl hx
        | inr hx =>
          obtain ⟨hg, hnv, heq⟩ := hx
          exact Or.inr ⟨hg, topo_sort_status.CURRENTLY_PROCESSING,
            by decide, fun _ => hnv, heq⟩

theorem process_node_netMono (st : EvalState) :
    netMono st.net (process_node st).2.net := by
  cases process_node_net_cases st with
  | inl hx => rw [hx]; exact netMono_refl _
  | inr hx =>
    obtain ⟨h, s, hs, hcp, heq⟩ := hx
    rw [heq]
    exact netMono_modify hs hcp

/-! Preservation of the restoration invariant through the DFS helpers. -/

theorem clearGates_push_modify {net : Network} {h : Nat}
    (hnv : (net.gateD h).status = topo_sort_status.NOT_VISITED)
    (A : List Nat) (s : topo_sort_status) :
    clearGatesLoop (h :: A) (net.modifyGate h (fun g => { g with status := s })) =
      clearGatesLoop A net := by
  have h1 : clearGatesLoop (h :: A) (net.modifyGate h (fun g => { g with status := s })) =
      clearGatesLoop A ((net.modifyGate h (fun g => { g with status := s })).modifyGate h
        (fun g => { g with status := topo_sort_status.NOT_VISITED })) := rfl
  rw [h1, modifyGate_modifyGate_self]
  show clearGatesLoop A
      (net.modifyGate h (fun g => { g with status := topo_sort_status.NOT_VISITED })) =
    clearGatesLoop A net
  rw [modify_status_id hnv]

theorem TopoOk_congr {x y : Network}
    (htopo : ∀ u, (x.gateD u).inputs = (y.gateD u).inputs) :
    ∀ l, TopoOk x l → TopoOk y l
  | [], _ => trivial
  | h :: rest, ht => by
    obtain ⟨hhead, htail⟩ := ht
    refine ⟨?_, TopoOk_congr htopo rest htail⟩
    intro k hk
    have hcnt : (x.gateD h).input_count = (y.gateD h).input_count :=
      congrArg List.length (htopo h)
    obtain ⟨h1, h2⟩ := hhead k (by rw [hcnt]; exact hk)
    have hin : (y.gateD h).getInput k = (x.gateD h).getInput k := by
      rw [nand_t.getInput, nand_t.getInput, htopo h]
    rw [hin]
    exact ⟨h1, h2⟩

theorem framesOk_mono {x y : Network}
    (htopo : ∀ u, (x.gateD u).inputs = (y.gateD u).inputs)
    (hvis : ∀ u, (x.gateD u).status = topo_sort_status.VISITED →
      (y.gateD u).status = topo_sort_status.VISITED) :
    ∀ (l : List dfs_info) (a b : List Nat),
      (∀ u, u ∈ a → u ∈ b ∨ (y.gateD u).status = topo_sort_status.VISITED) →
      framesOk x a l → framesOk y b l
  | [], _, _, _, _ => trivial
  | f :: rest, a, b, hab, hf => by
    obtain ⟨hle, hdone, hrest⟩ := hf
    refine ⟨?_, ?_, ?_⟩
    · have hcnt : (x.gateD f.gate).input_count = (y.gateD f.gate).input_count :=
        congrArg List.length (htopo f.gate)
      exact hcnt ▸ hle
    · intro k hk
      obtain ⟨h1, h2⟩ := hdone k hk
      have hin : (y.gateD f.gate).getInput k = (x.gateD f.gate).getInput k := by
        rw [nand_t.getInput, nand_t.getInput, htopo f.gate]
      constructor
      · rw [hin]; exact h1
      · intro hs hty hptr
        rw [hin] at hty hptr
        cases h2 hs hty hptr with
        | inl hv => exact Or.inl (hvis hs hv)
        | inr hm =>
          cases hab hs hm with
          | inl hx => exact Or.inr hx
          | inr hx => exact Or.inl hx
    · refine framesOk_mono htopo hvis rest (f.gate :: a) (f.gate :: b) ?_ hrest
      intro u hu
      cases List.mem_cons.mp hu with
      | inl hx => exact Or.inl (by rw [hx]; exact List.mem_cons_self _ _)
      | inr hx =>
        cases hab u hx with
        | inl hy => exact Or.inl (List.mem_cons_of_mem _ hy)
        | inr hy => exact Or.inr hy

theorem dinv_slot_coherent {net0 : Network} (hwf : WfP net0) {st : EvalState}
    (hclr : clearGatesLoop st.allGates st.net = net0) {t : Nat}
    (hlive : (st.net.getGate t).isSome = true) {k : Nat}
    (hk : k < (st.net.gateD t).input_count) :
    ((st.net.gateD t).getInput k).type = input_type.EMPTY_INPUT ∨
    (((st.net.gateD t).getInput k).type = input_type.BOOLEAN_SIGNAL_INPUT ∧
      ∃ sid, ((st.net.gateD t).getInput k).ptr = ptr_t.sig sid) ∨
    (((st.net.gateD t).getInput k).type = input_type.NAND_GATE_INPUT ∧
      ∃ hs, ((st.net.gateD t).getInput k).ptr = ptr_t.gate hs ∧
        (st.net.getGate hs).isSome = true) := by
  have hinp : ∀ u, (net0.gateD u).inputs = (st.net.gateD u).inputs := by
    intro u
    rw [← hclr]
    exact clearGatesLoop_inputs _ _ u
  have hsome : ∀ u, (net0.getGate u).isSome = (st.net.getGate u).isSome := by
    intro u
    rw [← hclr]
    exact clearGatesLoop_isSome _ _ u
  obtain ⟨gt0, hgt0⟩ : ∃ g, net0.getGate t = some g := by
    have h1 := hsome t
    rw [hlive] at h1
    cases hq : net0.getGate t with
    | none => rw [hq] at h1; cases h1
    | some g => exact ⟨g, rfl⟩
  have hieq : (st.net.gateD t).inputs = gt0.inputs := by
    rw [← hinp t, Network.gateD_eq_of_getGate hgt0]
  have hklen : k < (st.net.gateD t).inputs.length := hk
  have hmem : (st.net.gateD t).inputs[k]? = some ((st.net.gateD t).getInput k) :=
    nand_t.getElem_of_getInput hklen
  have hmem0 : gt0.inputs[k]? = some ((st.net.gateD t).getInput k) := by
    rw [← hieq]
    exact hmem
  obtain ⟨he, hsig, hnand⟩ := hwf.1 t gt0 k _ hgt0 hmem0
  cases hty : ((st.net.gateD t).getInput k).type with
  | EMPTY_INPUT => exact Or.inl rfl
  | BOOLEAN_SIGNAL_INPUT => exact Or.inr (Or.inl ⟨rfl, hsig hty⟩)
  | NAND_GATE_INPUT =>
    obtain ⟨s, gs, hptr, hgs, _⟩ := hnand hty
    refine Or.inr (Or.inr ⟨rfl, s, hptr, ?_⟩)
    rw [← hsome s, hgs]
    rfl

theorem DInv_push_cp {net0 : Network} {st : EvalState} {h : Nat}
    (hnv : (st.net.gateD h).status = topo_sort_status.NOT_VISITED)
    (hinv : DInv net0 st) (st2 : EvalState)
    (hnet : st2.net = st.net.modifyGate h
      (fun g => { g with status := topo_sort_status.CURRENTLY_PROCESSING }))
    (hall : st2.allGates = h :: st.allGates) : DInv net0 st2 := by
  constructor
  · rw [hnet, hall, clearGates_push_modify hnv]
    exact hinv.1
  · intro u hu
    rw [hnet] at hu
    rw [hall]
    by_cases he : u = h
    · rw [he]
      exact List.mem_cons_self _ _
    · rw [modify_status_status_ne _ _ he] at hu
      exact List.mem_cons_of_mem _ (hinv.2 u hu)

theorem process_input_nand_DInv {net0 : Network} {st : EvalState} (h : Nat)
    (hinv : DInv net0 st) : DInv net0 (process_input_nand h st).2 := by
  unfold process_input_nand
  by_cases h1 : (st.net.gateD h).status = topo_sort_status.CURRENTLY_PROCESSING
  · rw [if_pos h1]
    exact hinv
  · rw [if_neg h1]
    by_cases h2 : (st.net.gateD h).status = topo_sort_status.NOT_VISITED
    · rw [if_pos h2]
      cases hb : st.budget with
      | zero => exact hinv
      | succ b =>
        cases b with
        | zero => exact DInv_push_cp h2 hinv _ rfl rfl
        | succ b2 => exact DInv_push_cp h2 hinv _ rfl rfl
    · rw [if_neg h2]
      exact hinv

theorem process_input_DInv {net0 : Network} {st : EvalState} (input : in_info)
    (hinv : DInv net0 st) : DInv net0 (process_input input st).2 := by
  unfold process_input
  by_cases h1 : input.type = input_type.EMPTY_INPUT
  · rw [if_pos h1]
    exact hinv
  · rw [if_neg h1]
    by_cases h2 : input.type = input_type.NAND_GATE_INPUT
    · rw [if_pos h2]
      cases input.ptr with
      | null => exact hinv
      | sig sid => exact hinv
      | gate hg => exact process_input_nand_DInv hg hinv
    · rw [if_neg h2]
      exact hinv

theorem process_node_DInv {net0 : Network} {st : EvalState}
    (hstk : ∀ f, f ∈ st.dstack → (st.net.gateD f.gate).status ≠ topo_sort_status.NOT_VISITED)
    (hinv : DInv net0 st) : DInv net0 (process_node st).2 := by
  unfold process_node
  cases hd : st.dstack with
  | nil => exact hinv
  | cons di rest =>
    dsimp only
    have hdi : (st.net.gateD di.gate).status ≠ topo_sort_status.NOT_VISITED :=
      hstk di (by rw [hd]; exact List.mem_cons_self _ _)
    have hdiA : di.gate ∈ st.allGates := hinv.2 di.gate hdi
    by_cases hk : di.ind = (st.net.gateD di.gate).input_count
    · rw [if_pos hk]
      have hkey : ∀ b D T, DInv net0
          ⟨st.net.modifyGate di.gate (fun g => { g with status := topo_sort_status.VISITED }),
           D, T, st.allGates, b⟩ := by
        intro b D T
        constructor
        · show clearGatesLoop st.allGates
            (st.net.modifyGate di.gate
              (fun g => { g with status := topo_sort_status.VISITED })) = net0
          rw [clearGatesLoop_modify_mem _ _ _ _ hdiA]
          exact hinv.1
        · intro u hu
          by_cases he : u = di.gate
          · rw [he]
            exact hdiA
          · rw [modify_status_status_ne _ _ he] at hu
            exact hinv.2 u hu
      cases hb : st.budget with
      | zero => exact hkey _ _ _
      | succ b => exact hkey _ _ _
    · rw [if_neg hk]
      cases hb : st.budget with
      | zero => exact hinv
      | succ b =>
        exact process_input_DInv _ (⟨hinv.1, hinv.2⟩ : DInv net0 _)

/-! Preservation of the full DFS invariant by the three kinds of
`process_node` step. -/

theorem dfull_pop_visit {net0 : Network} {st : EvalState} {di : dfs_info}
    {rest : List dfs_info} (hfull : DFull net0 st) (hd : st.dstack = di :: rest)
    (hk : di.ind = (st.net.gateD di.gate).input_count) (b : Nat) :
    DFull net0
      ⟨st.net.modifyGate di.gate (fun g => { g with status := topo_sort_status.VISITED }),
       rest, di.gate :: st.topo, st.allGates, b⟩ := by
  obtain ⟨hinv, hvis, hcp, hndf, hndt, hfr, htp, hlivef, hlivet⟩ := hfull
  rw [hd] at hcp hndf hfr hlivef
  have hgd : dfsGates (di :: rest) = di.gate :: dfsGates rest := rfl
  have hstat : (st.net.gateD di.gate).status = topo_sort_status.CURRENTLY_PROCESSING :=
    (hcp di.gate).mpr (by rw [hgd]; exact List.mem_cons_self _ _)
  have hlive : (st.net.getGate di.gate).isSome = true :=
    hlivef di (List.mem_cons_self _ _)
  have hnotvis : di.gate ∉ st.topo := fun hm => by
    have h1 := (hvis di.gate).mpr hm
    rw [hstat] at h1
    cases h1
  have hnotrest : di.gate ∉ dfsGates rest := by
    rw [hgd] at hndf
    exact (List.nodup_cons.mp hndf).1
  have hdiA : di.gate ∈ st.allGates :=
    hinv.2 di.gate (fun hc => absurd (hstat.symm.trans hc) (by decide))
  have htopo2 : ∀ u, ((st.net.modifyGate di.gate
      (fun g => { g with status := topo_sort_status.VISITED })).gateD u).inputs =
      (st.net.gateD u).inputs := fun u => modify_status_inputs _ _ _ u
  obtain ⟨hfr1, hfr2, hfr3⟩ := hfr
  refine ⟨⟨?_, ?_⟩, ?_, ?_, ?_, ?_, ?_, ?_, ?_, ?_⟩
  · show clearGatesLoop st.allGates
      (st.net.modifyGate di.gate
        (fun g => { g with status := topo_sort_status.VISITED })) = net0
    rw [clearGatesLoop_modify_mem _ _ _ _ hdiA]
    exact hinv.1
  · intro u hu
    by_cases he : u = di.gate
    · rw [he]
      exact hdiA
    · rw [modify_status_status_ne _ _ he] at hu
      exact hinv.2 u hu
  · intro u
    by_cases he : u = di.gate
    · subst he
      exact ⟨fun _ => List.mem_cons_self _ _,
        fun _ => modify_status_status_self _ _ hlive⟩
    · rw [modify_status_status_ne _ _ he]
      constructor
      · intro h1
        exact List.mem_cons_of_mem _ ((hvis u).mp h1)
      · intro h1
        cases List.mem_cons.mp h1 with
        | inl hx => exact absurd hx he
        | inr hx => exact (hvis u).mpr hx
  · intro u
    by_cases he : u = di.gate
    · subst he
      rw [modify_status_status_self _ _ hlive]
      exact ⟨fun hc => absurd hc (by decide), fun hm => absurd hm hnotrest⟩
    · rw [modify_status_status_ne _ _ he]
      constructor
      · intro h1
        have h2 := (hcp u).mp h1
        rw [hgd] at h2
        cases List.mem_cons.mp h2 with
        | inl hx => exact absurd hx he
        | inr hx => exact hx
      · intro hm
        exact (hcp u).mpr (by rw [hgd]; exact List.mem_cons_of_mem _ hm)
  · rw [hgd] at hndf
    exact (List.nodup_cons.mp hndf).2
  · exact List.nodup_cons.mpr ⟨hnotvis, hndt⟩
  · refine framesOk_mono (fun u => (htopo2 u).symm) ?_ rest [di.gate] [] ?_ hfr3
    · intro u hu
      by_cases he : u = di.gate
      · subst he
        rw [hstat] at hu
        cases hu
      · rw [modify_status_status_ne _ _ he]
        exact hu
    · intro u hu
      cases List.mem_cons.mp hu with
      | inl hx =>
        subst hx
        exact Or.inr (modify_status_status_self _ _ hlive)
      | inr hx => cases hx
  · refine ⟨?_, TopoOk_congr (fun u => (htopo2 u).symm) _ htp⟩
    intro k hk2
    have hcnt : ((st.net.modifyGate di.gate
        (fun g => { g with status := topo_sort_status.VISITED })).gateD di.gate).input_count =
        (st.net.gateD di.gate).input_count := congrArg List.length (htopo2 di.gate)
    rw [hcnt] at hk2
    obtain ⟨hne2, hsrc2⟩ := hfr2 k (by omega)
    have hin : ((st.net.modifyGate di.gate
        (fun g => { g with status := topo_sort_status.VISITED })).gateD di.gate).getInput k =
        (st.net.gateD di.gate).getInput k := by
      rw [nand_t.getInput, nand_t.getInput, htopo2 di.gate]
    constructor
    · rw [hin]
      exact hne2
    · intro hs hty hptr
      rw [hin] at hty hptr
      cases hsrc2 hs hty hptr with
      | inl hv => exact (hvis hs).mp hv
      | inr hm => cases hm
  · intro f hf
    rw [isSome_getGate_modifyGate]
    exact hlivef f (List.mem_cons_of_mem _ hf)
  · intro u hu
    rw [isSome_getGate_modifyGate]
    cases List.mem_cons.mp hu with
    | inl hx => rw [hx]; exact hlive
    | inr hx => exact hlivet u hx

theorem dfull_resume {net0 : Network} {st : EvalState} {di : dfs_info}
    {rest : List dfs_info} (hfull : DFull net0 st) (hd : st.dstack = di :: rest)
    (hlt : di.ind < (st.net.gateD di.gate).input_count)
    (hne : ((st.net.gateD di.gate).getInput di.ind).type ≠ input_type.EMPTY_INPUT)
    (hsrc : ∀ hs, ((st.net.gateD di.gate).getInput di.ind).type = input_type.NAND_GATE_INPUT →
      ((st.net.gateD di.gate).getInput di.ind).ptr = ptr_t.gate hs →
      (st.net.gateD hs).status = topo_sort_status.VISITED)
    (b : Nat) :
    DFull net0 ⟨st.net, ⟨di.gate, di.ind + 1⟩ :: rest, st.topo, st.allGates, b⟩ := by
  obtain ⟨hinv, hvis, hcp, hndf, hndt, hfr, htp, hlivef, hlivet⟩ := hfull
  rw [hd] at hcp hndf hfr hlivef
  obtain ⟨hfr1, hfr2, hfr3⟩ := hfr
  refine ⟨⟨hinv.1, hinv.2⟩, hvis, hcp, hndf, hndt,
    ⟨(by show di.ind + 1 ≤ (st.net.gateD di.gate).input_count; omega), ?_, hfr3⟩,
    htp, ?_, hlivet⟩
  · intro k hk2
    have hk3 : k < di.ind + 1 := hk2
    by_cases hkk : k < di.ind
    · exact hfr2 k hkk
    · have hkd : k = di.ind := by omega
      show slotDone st.net [] di.gate k
      rw [hkd]
      exact ⟨hne, fun hs hty hptr => Or.inl (hsrc hs hty hptr)⟩
  · intro f hf
    cases List.mem_cons.mp hf with
    | inl hx =>
      rw [hx]
      exact hlivef di (List.mem_cons_self _ _)
    | inr hx => exact hlivef f (List.mem_cons_of_mem _ hx)

theorem dfull_descend {net0 : Network} {st : EvalState} {di : dfs_info}
    {rest : List dfs_info} {hs : Nat} (hfull : DFull net0 st)
    (hd : st.dstack = di :: rest)
    (hlt : di.ind < (st.net.gateD di.gate).input_count)
    (hty : ((st.net.gateD di.gate).getInput di.ind).type = input_type.NAND_GATE_INPUT)
    (hptr : ((st.net.gateD di.gate).getInput di.ind).ptr = ptr_t.gate hs)
    (hnv : (st.net.gateD hs).status = topo_sort_status.NOT_VISITED)
    (hlive : (st.net.getGate hs).isSome = true) (b : Nat) :
    DFull net0
      ⟨st.net.modifyGate hs
         (fun g => { g with status := topo_sort_status.CURRENTLY_PROCESSING }),
       ⟨hs, 0⟩ :: ⟨di.gate, di.ind + 1⟩ :: rest, st.topo, hs :: st.allGates, b⟩ := by
  obtain ⟨hinv, hvis, hcp, hndf, hndt, hfr, htp, hlivef, hlivet⟩ := hfull
  rw [hd] at hcp hndf hfr hlivef
  have hgd : dfsGates (di :: rest) = di.gate :: dfsGates rest := rfl
  obtain ⟨hfr1, hfr2, hfr3⟩ := hfr
  have hnotfr : hs ∉ di.gate :: dfsGates rest := fun hm => by
    have h1 := (hcp hs).mpr (by rw [hgd]; exact hm)
    rw [hnv] at h1
    cases h1
  have hnottopo : hs ∉ st.topo := fun hm => by
    have h1 := (hvis hs).mpr hm
    rw [hnv] at h1
    cases h1
  have htopo2 : ∀ u, ((st.net.modifyGate hs
      (fun g => { g with status := topo_sort_status.CURRENTLY_PROCESSING })).gateD u).inputs =
      (st.net.gateD u).inputs := fun u => modify_status_inputs _ _ _ u
  have hvmono : ∀ u, (st.net.gateD u).status = topo_sort_status.VISITED →
      ((st.net.modifyGate hs
        (fun g => { g with status := topo_sort_status.CURRENTLY_PROCESSING })).gateD u).status =
      topo_sort_status.VISITED := by
    intro u hu
    by_cases he : u = hs
    · subst he
      rw [hnv] at hu
      cases hu
    · rw [modify_status_status_ne _ _ he]
      exact hu
  refine ⟨DInv_push_cp hnv ⟨hinv.1, hinv.2⟩ _ rfl rfl, ?_, ?_, ?_, hndt, ?_, ?_, ?_, ?_⟩
  · intro u
    by_cases he : u = hs
    · subst he
      rw [modify_status_status_self _ _ hlive]
      exact ⟨fun hc => absurd hc (by decide), fun hm => absurd hm hnottopo⟩
    · rw [modify_status_status_ne _ _ he]
      exact hvis u
  · intro u
    by_cases he : u = hs
    · subst he
      rw [modify_status_status_self _ _ hlive]
      exact ⟨fun _ => List.mem_cons_self _ _, fun _ => rfl⟩
    · rw [modify_status_status_ne _ _ he]
      constructor
      · intro h1
        have h2 := (hcp u).mp h1
        rw [hgd] at h2
        exact List.mem_cons_of_mem _ h2
      · intro hm
        cases List.mem_cons.mp hm with
        | inl hx => exact absurd hx he
        | inr hx => exact (hcp u).mpr (by rw [hgd]; exact hx)
  · exact List.nodup_cons.mpr ⟨hnotfr, hndf⟩
  · refine ⟨Nat.zero_le _, fun k hk2 => absurd (hk2 : k < 0) (Nat.not_lt_zero k), ?_, ?_, ?_⟩
    · show di.ind + 1 ≤ ((st.net.modifyGate hs
        (fun g => { g with status := topo_sort_status.CURRENTLY_PROCESSING })).gateD
          di.gate).input_count
      have hcnt : ((st.net.modifyGate hs
          (fun g => { g with status := topo_sort_status.CURRENTLY_PROCESSING })).gateD
            di.gate).input_count = (st.net.gateD di.gate).input_count :=
        congrArg List.length (htopo2 di.gate)
      omega
    · intro k hk2
      have hk3 : k < di.ind + 1 := hk2
      have hin : ((st.net.modifyGate hs
          (fun g => { g with status := topo_sort_status.CURRENTLY_PROCESSING })).gateD
            di.gate).getInput k = (st.net.gateD di.gate).getInput k := by
        rw [nand_t.getInput, nand_t.getInput, htopo2 di.gate]
      by_cases hkk : k < di.ind
      · obtain ⟨h1, h2⟩ := hfr2 k hkk
        constructor
        · rw [hin]
          exact h1
        · intro hs2 hty2 hptr2
          rw [hin] at hty2 hptr2
          cases h2 hs2 hty2 hptr2 with
          | inl hv => exact Or.inl (hvmono hs2 hv)
          | inr hm => cases hm
      · have hkd : k = di.ind := by omega
        constructor
        · rw [hin, hkd, hty]
          decide
        · intro hs2 hty2 hptr2
          rw [hin, hkd, hptr] at hptr2
          have hseq : hs = hs2 := by
            injection hptr2
          exact Or.inr (by rw [← hseq]; exact List.mem_cons_self _ _)
    · refine framesOk_mono (fun u => (htopo2 u).symm) hvmono rest [di.gate] [di.gate, hs] ?_ hfr3
      intro u hu
      cases List.mem_cons.mp hu with
      | inl hx => exact Or.inl (by rw [hx]; exact List.mem_cons_self _ _)
      | inr hx => cases hx
  · exact TopoOk_congr (fun u => (htopo2 u).symm) _ htp
  · intro f hf
    rw [isSome_getGate_modifyGate]
    cases List.mem_cons.mp hf with
    | inl hx =>
      rw [hx]
      exact hlive
    | inr hx =>
      cases List.mem_cons.mp hx with
      | inl hy =>
        rw [hy]
        exact hlivef di (List.mem_cons_self _ _)
      | inr hy => exact hlivef f (List.mem_cons_of_mem _ hy)
  · intro u hu
    rw [isSome_getGate_modifyGate]
    exact hlivet u hu

theorem process_node_DFull {net0 : Network} (hwf : WfP net0) {st : EvalState}
    (hfull : DFull net0 st) {st' : EvalState}
    (hp : process_node st = (none, st')) : DFull net0 st' := by
  unfold process_node at hp
  cases hd : st.dstack with
  | nil =>
    rw [hd] at hp
    injection hp with h1 h2
    rw [← h2]
    exact hfull
  | cons di rest =>
    rw [hd] at hp
    dsimp only at hp
    by_cases hk : di.ind = (st.net.gateD di.gate).input_count
    · rw [if_pos hk] at hp
      cases hb : st.budget with
      | zero =>
        rw [hb] at hp
        injection hp with h1 h2
        exact Option.noConfusion h1
      | succ b =>
        rw [hb] at hp
        injection hp with h1 h2
        rw [← h2]
        exact dfull_pop_visit hfull hd hk b
    · rw [if_neg hk] at hp
      cases hb : st.budget with
      | zero =>
        rw [hb] at hp
        injection hp with h1 h2
        exact Option.noConfusion h1
      | succ b =>
        rw [hb] at hp
        dsimp only at hp
        have hfull2 := hfull
        obtain ⟨hinv, hvis, hcp, hndf, hndt, hfr, htp, hlivef, hlivet⟩ := hfull2
        rw [hd] at hfr hlivef
        have hlt : di.ind < (st.net.gateD di.gate).input_count :=
          Nat.lt_of_le_of_ne hfr.1 hk
        have hlivedi : (st.net.getGate di.gate).isSome = true :=
          hlivef di (List.mem_cons_self _ _)
        unfold process_input at hp
        rcases dinv_slot_coherent hwf hinv.1 hlivedi hlt with hE | ⟨hS, sid, hps⟩ |
          ⟨hN, hs, hptr, hlivehs⟩
        · rw [if_pos hE] at hp
          injection hp with h1 h2
          exact Option.noConfusion h1
        · rw [if_neg (fun hc => absurd (hS.symm.trans hc) (by decide)),
              if_neg (fun hc => absurd (hS.symm.trans hc) (by decide))] at hp
          injection hp with h1 h2
          rw [← h2]
          exact dfull_resume hfull hd hlt
            (fun hc => absurd (hS.symm.trans hc) (by decide))
            (fun hs2 hty2 _ => absurd (hS.symm.trans hty2) (by decide)) b
        · rw [if_neg (fun hc => absurd (hN.symm.trans hc) (by decide)),
              if_pos hN, hptr] at hp
          dsimp only at hp
          unfold process_input_nand at hp
          dsimp only at hp
          cases hsst : (st.net.gateD hs).status with
          | CURRENTLY_PROCESSING =>
            rw [if_pos hsst] at hp
            injection hp with h1 h2
            exact Option.noConfusion h1
          | NOT_VISITED =>
            rw [if_neg (fun hc => absurd (hsst.symm.trans hc) (by decide)),
                if_pos hsst] at hp
            cases b with
            | zero =>
              injection hp with h1 h2
              exact Option.noConfusion h1
            | succ b2 =>
              cases b2 with
              | zero =>
                injection hp with h1 h2
                exact Option.noConfusion h1
              | succ b3 =>
                injection hp with h1 h2
                rw [← h2]
                exact dfull_descend hfull hd hlt hN hptr hsst hlivehs b3
          | VISITED =>
            rw [if_neg (fun hc => absurd (hsst.symm.trans hc) (by decide)),
                if_neg (fun hc => absurd (hsst.symm.trans hc) (by decide))] at hp
            injection hp with h1 h2
            rw [← h2]
            refine dfull_resume hfull hd hlt
              (fun hc => absurd (hN.symm.trans hc) (by decide)) ?_ b
            intro hs2 hty2 hptr2
            rw [hptr] at hptr2
            have hseq : hs = hs2 := by injection hptr2
            rw [← hseq]
            exact hsst

/-! The DFS loop: invariants, restoration, and monotonicity. -/

theorem process_input_nand_topo (h : Nat) (st : EvalState) :
    (process_input_nand h st).2.topo = st.topo := by
  unfold process_input_nand
  by_cases h1 : (st.net.gateD h).status = topo_sort_status.CURRENTLY_PROCESSING
  · rw [if_pos h1]
  · rw [if_neg h1]
    by_cases h2 : (st.net.gateD h).status = topo_sort_status.NOT_VISITED
    · rw [if_pos h2]
      cases st.budget with
      | zero => rfl
      | succ b => cases b with
        | zero => rfl
        | succ b2 => rfl
    · rw [if_neg h2]

theorem process_input_topo (input : in_info) (st : EvalState) :
    (process_input input st).2.topo = st.topo := by
  unfold process_input
  by_cases h1 : input.type = input_type.EMPTY_INPUT
  · rw [if_pos h1]
  · rw [if_neg h1]
    by_cases h2 : input.type = input_type.NAND_GATE_INPUT
    · rw [if_pos h2]
      cases input.ptr with
      | null => rfl
      | sig sid => rfl
      | gate hg => exact process_input_nand_topo hg st
    · rw [if_neg h2]

theorem process_node_topo (st : EvalState) :
    ∀ x, x ∈ st.topo → x ∈ (process_node st).2.topo := by
  intro x hx
  unfold process_node
  cases hd : st.dstack with
  | nil => exact hx
  | cons di rest =>
    dsimp only
    by_cases hk : di.ind = (st.net.gateD di.gate).input_count
    · rw [if_pos hk]
      cases hb : st.budget with
      | zero => exact hx
      | succ b => exact List.mem_cons_of_mem _ hx
    · rw [if_neg hk]
      cases hb : st.budget with
      | zero => exact hx
      | succ b =>
        rw [process_input_topo]
        exact hx

theorem dfsLoop_netMono : ∀ (fuel : Nat) (st : EvalState) (e : Option Err)
    (st' : EvalState), dfsLoop fuel st = some (e, st') →
    netMono st.net st'.net ∧ (∀ x, x ∈ st.topo → x ∈ st'.topo)
  | 0, st, e, st', h => by
    simp only [dfsLoop] at h
    by_cases hemp : st.dstack.isEmpty
    · rw [if_pos hemp] at h
      injection h with h1
      injection h1 with he hst
      rw [← hst]
      exact ⟨netMono_refl _, fun x hx => hx⟩
    · rw [if_neg hemp] at h
      cases h
  | fuel + 1, st, e, st', h => by
    simp only [dfsLoop] at h
    by_cases hemp : st.dstack.isEmpty
    · rw [if_pos hemp] at h
      injection h with h1
      injection h1 with he hst
      rw [← hst]
      exact ⟨netMono_refl _, fun x hx => hx⟩
    · rw [if_neg hemp] at h
      cases hpn : process_node st with
      | mk e1 s1 =>
        rw [hpn] at h
        cases e1 with
        | none =>
          dsimp only at h
          have hrec := dfsLoop_netMono fuel s1 e st' h
          have hm : netMono st.net s1.net := by
            have h2 := process_node_netMono st
            rw [hpn] at h2
            exact h2
          have ht : ∀ x, x ∈ st.topo → x ∈ s1.topo := by
            intro x hx
            have h2 := process_node_topo st x hx
            rw [hpn] at h2
            exact h2
          exact ⟨netMono_trans hm hrec.1, fun x hx => hrec.2 x (ht x hx)⟩
        | some e2 =>
          dsimp only at h
          injection h with h1
          injection h1 with he hst
          rw [← hst]
          have hm := process_node_netMono st
          have ht := process_node_topo st
          rw [hpn] at hm ht
          exact ⟨hm, ht⟩

theorem clearGates_push_nv {net : Network} {h : Nat}
    (hnv : (net.gateD h).status = topo_sort_status.NOT_VISITED) (A : List Nat) :
    clearGatesLoop (h :: A) net = clearGatesLoop A net := by
  have h1 : clearGatesLoop (h :: A) net =
      clearGatesLoop A (net.modifyGate h
        (fun g => { g with status := topo_sort_status.NOT_VISITED })) := rfl
  rw [h1, modify_status_id hnv]

theorem DFull_stack_not_nv {net0 : Network} {st : EvalState} (hfull : DFull net0 st) :
    ∀ f, f ∈ st.dstack →
      (st.net.gateD f.gate).status ≠ topo_sort_status.NOT_VISITED := by
  intro f hf hc
  have h1 := (hfull.2.2.1 f.gate).mpr (List.mem_map_of_mem (fun x => x.gate) hf)
  exact absurd (hc.symm.trans h1) (by decide)

theorem dfsLoop_spec {net0 : Network} (hwf : WfP net0) :
    ∀ (fuel : Nat) (st : EvalState) (e : Option Err) (st' : EvalState),
    DFull net0 st → dfsLoop fuel st = some (e, st') →
    DInv net0 st' ∧ (e = none → DFull net0 st' ∧ st'.dstack = [])
  | 0, st, e, st', hfull, h => by
    simp only [dfsLoop] at h
    by_cases hemp : st.dstack.isEmpty
    · rw [if_pos hemp] at h
      injection h with h1
      injection h1 with he hst
      rw [← hst]
      refine ⟨hfull.1, fun _ => ⟨hfull, ?_⟩⟩
      cases hq : st.dstack with
      | nil => rfl
      | cons a b => rw [hq] at hemp; cases hemp
    · rw [if_neg hemp] at h
      cases h
  | fuel + 1, st, e, st', hfull, h => by
    simp only [dfsLoop] at h
    by_cases hemp : st.dstack.isEmpty
    · rw [if_pos hemp] at h
      injection h with h1
      injection h1 with he hst
      rw [← hst]
      refine ⟨hfull.1, fun _ => ⟨hfull, ?_⟩⟩
      cases hq : st.dstack with
      | nil => rfl
      | cons a b => rw [hq] at hemp; cases hemp
    · rw [if_neg hemp] at h
      cases hpn : process_node st with
      | mk e1 s1 =>
        rw [hpn] at h
        cases e1 with
        | none =>
          dsimp only at h
          exact dfsLoop_spec hwf fuel s1 e st' (process_node_DFull hwf hfull hpn) h
        | some e2 =>
          dsimp only at h
          injection h with h1
          injection h1 with he hst
          rw [← hst]
          have hdi := process_node_DInv (DFull_stack_not_nv hfull) hfull.1
          rw [hpn] at hdi
          refine ⟨hdi, fun hc => ?_⟩
          rw [← he] at hc
          cases hc

theorem topo_sort_dfs_spec {net0 : Network} (hwf : WfP net0) {fuel : Nat} {h : Nat}
    {st : EvalState} {e : Option Err} {st' : EvalState}
    (hfull : DFull net0 st) (hemp : st.dstack = [])
    (hnvis : (st.net.gateD h).status ≠ topo_sort_status.VISITED)
    (hlive : (st.net.getGate h).isSome = true)
    (hp : topo_sort_dfs fuel h st = some (e, st')) :
    DInv net0 st' ∧ (e = none → DFull net0 st' ∧ st'.dstack = [] ∧
      (st'.net.gateD h).status = topo_sort_status.VISITED ∧
      (∀ x, x ∈ st.topo → x ∈ st'.topo)) := by
  have hfull2 := hfull
  obtain ⟨hinv, hvis, hcp, hndf, hndt, hfr, htp, hlivef, hlivet⟩ := hfull2
  have hnv : (st.net.gateD h).status = topo_sort_status.NOT_VISITED := by
    cases hq : (st.net.gateD h).status with
    | NOT_VISITED => rfl
    | VISITED => exact absurd hq hnvis
    | CURRENTLY_PROCESSING =>
      have h1 := (hcp h).mp hq
      rw [hemp] at h1
      cases h1
  unfold topo_sort_dfs at hp
  rw [hemp] at hp
  cases hb : st.budget with
  | zero =>
    rw [hb] at hp
    dsimp only at hp
    injection hp with h1
    injection h1 with he hst
    rw [← hst]
    exact ⟨hfull.1, fun hc => by rw [← he] at hc; cases hc⟩
  | succ b =>
    rw [hb] at hp
    dsimp only at hp
    cases b with
    | zero =>
      injection hp with h1
      injection h1 with he hst
      rw [← hst]
      refine ⟨⟨?_, ?_⟩, fun hc => by rw [← he] at hc; cases hc⟩
      · show clearGatesLoop (h :: st.allGates) st.net = net0
        rw [clearGates_push_nv hnv]
        exact hinv.1
      · intro u hu
        exact List.mem_cons_of_mem _ (hinv.2 u hu)
    | succ b2 =>
      dsimp only at hp
      have hnottopo : h ∉ st.topo := fun hm => by
        have h1 := (hvis h).mpr hm
        rw [hnv] at h1
        cases h1
      have htopo2 : ∀ u, ((st.net.modifyGate h
          (fun g => { g with status := topo_sort_status.CURRENTLY_PROCESSING })).gateD u).inputs =
          (st.net.gateD u).inputs := fun u => modify_status_inputs _ _ _ u
      have hstm : DFull net0 ⟨st.net.modifyGate h
          (fun g => { g with status := topo_sort_status.CURRENTLY_PROCESSING }),
          [⟨h, 0⟩], st.topo, h :: st.allGates, b2⟩ := by
        refine ⟨DInv_push_cp hnv ⟨hinv.1, hinv.2⟩ _ rfl rfl, ?_, ?_, ?_, hndt, ?_, ?_, ?_, ?_⟩
        · intro u
          by_cases he2 : u = h
          · subst he2
            rw [modify_status_status_self _ _ hlive]
            exact ⟨fun hc => absurd hc (by decide), fun hm => absurd hm hnottopo⟩
          · rw [modify_status_status_ne _ _ he2]
            exact hvis u
        · intro u
          by_cases he2 : u = h
          · subst he2
            rw [modify_status_status_self _ _ hlive]
            exact ⟨fun _ => List.mem_cons_self _ _, fun _ => rfl⟩
          · rw [modify_status_status_ne _ _ he2]
            constructor
            · intro h1
              have h2 := (hcp u).mp h1
              rw [hemp] at h2
              cases h2
            · intro hm
              cases List.mem_cons.mp hm with
              | inl hx => exact absurd hx he2
              | inr hx => cases hx
        · exact List.nodup_cons.mpr ⟨List.not_mem_nil _, List.nodup_nil⟩
        · exact ⟨Nat.zero_le _, fun k hk => absurd (hk : k < 0) (Nat.not_lt_zero k), trivial⟩
        · exact TopoOk_congr (fun u => (htopo2 u).symm) _ htp
        · intro f hf
          rw [isSome_getGate_modifyGate]
          cases List.mem_cons.mp hf with
          | inl hx => rw [hx]; exact hlive
          | inr hx => cases hx
        · intro u hu
          rw [isSome_getGate_modifyGate]
          exact hlivet u hu
      have hspec := dfsLoop_spec hwf fuel _ e st' hstm hp
      refine ⟨hspec.1, fun he => ?_⟩
      obtain ⟨hf', hemp'⟩ := hspec.2 he
      have hmono := dfsLoop_netMono fuel _ e st' hp
      refine ⟨hf', hemp', ?_, fun x hx => hmono.2 x hx⟩
      have hnnv : (st'.net.gateD h).status ≠ topo_sort_status.NOT_VISITED :=
        hmono.1.2.1 h (by rw [modify_status_status_self _ _ hlive]; decide)
      have hncp : (st'.net.gateD h).status ≠ topo_sort_status.CURRENTLY_PROCESSING := by
        intro hc
        have h1 := (hf'.2.2.1 h).mp hc
        rw [hemp'] at h1
        cases h1
      cases hq : (st'.net.gateD h).status with
      | VISITED => rfl
      | NOT_VISITED => exact absurd hq hnnv
      | CURRENTLY_PROCESSING => exact absurd hq hncp

theorem DInv_isSome {net0 : Network} {st : EvalState} (hinv : DInv net0 st) (u : Nat) :
    (st.net.getGate u).isSome = (net0.getGate u).isSome := by
  rw [← hinv.1]
  exact (clearGatesLoop_isSome _ _ u).symm

theorem DInv_inputs {net0 : Network} {st : EvalState} (hinv : DInv net0 st) (u : Nat) :
    (st.net.gateD u).inputs = (net0.gateD u).inputs := by
  rw [← hinv.1]
  exact (clearGatesLoop_inputs _ _ u).symm

theorem topoSortLoop_spec {net0 : Network} (hwf : WfP net0) :
    ∀ (gs : List Nat) (fuel : Nat) (st : EvalState) (e : Option Err) (st' : EvalState),
    DFull net0 st → st.dstack = [] →
    (∀ g, g ∈ gs → (net0.getGate g).isSome = true) →
    topoSortLoop fuel gs st = some (e, st') →
    DInv net0 st' ∧ (e = none → DFull net0 st' ∧ st'.dstack = [] ∧
      (∀ g, g ∈ gs → (st'.net.gateD g).status = topo_sort_status.VISITED) ∧
      (∀ x, x ∈ st.topo → x ∈ st'.topo))
  | [], fuel, st, e, st', hfull, hemp, hlv, h => by
    simp only [topoSortLoop] at h
    injection h with h1
    injection h1 with he hst
    rw [← hst]
    exact ⟨hfull.1, fun _ => ⟨hfull, hemp,
      fun g hg => absurd hg (List.not_mem_nil _), fun x hx => hx⟩⟩
  | g :: gsr, fuel, st, e, st', hfull, hemp, hlv, h => by
    simp only [topoSortLoop] at h
    by_cases hv : (st.net.gateD g).status = topo_sort_status.VISITED
    · rw [if_pos hv] at h
      have hrec := topoSortLoop_spec hwf gsr fuel st e st' hfull hemp
        (fun g2 hg2 => hlv g2 (List.mem_cons_of_mem _ hg2)) h
      refine ⟨hrec.1, fun he => ?_⟩
      obtain ⟨hf', hemp', hvis', hsub'⟩ := hrec.2 he
      refine ⟨hf', hemp', fun g2 hg2 => ?_, hsub'⟩
      cases List.mem_cons.mp hg2 with
      | inl hx =>
        rw [hx]
        exact (hf'.2.1 g).mpr (hsub' g ((hfull.2.1 g).mp hv))
      | inr hx => exact hvis' g2 hx
    · rw [if_neg hv] at h
      have hglive : (st.net.getGate g).isSome = true := by
        rw [DInv_isSome hfull.1 g]
        exact hlv g (List.mem_cons_self _ _)
      cases hdfs : topo_sort_dfs fuel g st with
      | none => rw [hdfs] at h; cases h
      | some pr =>
        obtain ⟨e1, st1⟩ := pr
        rw [hdfs] at h
        cases e1 with
        | none =>
          dsimp only at h
          have hs1 := topo_sort_dfs_spec hwf hfull hemp hv hglive hdfs
          obtain ⟨hdi1, hrest⟩ := hs1
          obtain ⟨hf1, hemp1, hvg, hsub1⟩ := hrest rfl
          have hrec := topoSortLoop_spec hwf gsr fuel st1 e st' hf1 hemp1
            (fun g2 hg2 => hlv g2 (List.mem_cons_of_mem _ hg2)) h
          refine ⟨hrec.1, fun he => ?_⟩
          obtain ⟨hf', hemp', hvis', hsub'⟩ := hrec.2 he
          refine ⟨hf', hemp', ?_, fun x hx => hsub' x (hsub1 x hx)⟩
          intro g2 hg2
          cases List.mem_cons.mp hg2 with
          | inl hx =>
            rw [hx]
            exact (hf'.2.1 g).mpr (hsub' g ((hf1.2.1 g).mp hvg))
          | inr hx => exact hvis' g2 hx
        | some e2 =>
          dsimp only at h
          injection h with h1
          injection h1 with he hst
          rw [← hst]
          exact ⟨(topo_sort_dfs_spec hwf hfull hemp hv hglive hdfs).1,
            fun hc => by rw [← he] at hc; cases hc⟩

theorem atRest_status {net : Network} (hat : AtRestP net) (u : Nat) :
    (net.gateD u).status = topo_sort_status.NOT_VISITED := by
  cases hg : net.getGate u with
  | none => rw [Network.gateD, hg]; rfl
  | some g =>
    rw [Network.gateD_eq_of_getGate hg]
    exact hat u g hg

theorem DFull_init {net : Network} (hat : AtRestP net) (b : Nat) :
    DFull net ⟨net, [], [], [], b⟩ := by
  refine ⟨⟨rfl, ?_⟩, ?_, ?_, List.nodup_nil, List.nodup_nil, trivial, trivial, ?_, ?_⟩
  · intro u hu
    exact absurd (atRest_status hat u) hu
  · intro u
    constructor
    · intro hc
      rw [atRest_status hat u] at hc
      cases hc
    · intro hm
      cases hm
  · intro u
    constructor
    · intro hc
      rw [atRest_status hat u] at hc
      cases hc
    · intro hm
      cases hm
  · intro f hf
    cases hf
  · intro u hu
    cases hu

theorem topo_sort_spec {net : Network} (hwf : WfP net) (hat : AtRestP net)
    (fuel budget : Nat) (gs : List Nat)
    (hlv : ∀ g, g ∈ gs → (net.getGate g).isSome = true)
    {e : Option Err} {order : List Nat} {net' : Network}
    (h : topo_sort fuel net gs budget = some (e, order, net')) :
    net' = net ∧ (e = none →
      order.Nodup ∧ TopoOk net order.reverse ∧ (∀ g, g ∈ gs → g ∈ order) ∧
      (∀ u, u ∈ order → (net.getGate u).isSome = true)) := by
  unfold topo_sort at h
  cases hb : budget with
  | zero =>
    rw [hb] at h
    dsimp only at h
    injection h with h1
    injection h1 with he h2
    injection h2 with ho hn
    exact ⟨hn.symm, fun hc => by rw [← he] at hc; cases hc⟩
  | succ b =>
    rw [hb] at h
    dsimp only at h
    cases b with
    | zero =>
      injection h with h1
      injection h1 with he h2
      injection h2 with ho hn
      exact ⟨hn.symm, fun hc => by rw [← he] at hc; cases hc⟩
    | succ b2 =>
      dsimp only at h
      cases hts : topoSortLoop fuel gs ⟨net, [], [], [], b2⟩ with
      | none => rw [hts] at h; cases h
      | some pr =>
        obtain ⟨e1, st1⟩ := pr
        rw [hts] at h
        dsimp only at h
        injection h with h1
        injection h1 with he h2
        injection h2 with ho hn
        have hspec := topoSortLoop_spec hwf gs fuel _ e1 st1 (DFull_init hat b2) rfl hlv hts
        have hnet : net' = net := by rw [← hn, hspec.1.1]
        refine ⟨hnet, fun hee => ?_⟩
        have he1 : e1 = none := by rw [he]; exact hee
        obtain ⟨hf1, hemp1, hvis1, _⟩ := hspec.2 he1
        have hinputs : ∀ u, (st1.net.gateD u).inputs = (net.gateD u).inputs :=
          DInv_inputs hf1.1
        have hsome : ∀ u, (st1.net.getGate u).isSome = (net.getGate u).isSome :=
          DInv_isSome hf1.1
        refine ⟨?_, ?_, ?_, ?_⟩
        · rw [← ho]
          exact List.nodup_reverse.mpr hf1.2.2.2.2.1
        · rw [← ho, List.reverse_reverse]
          exact TopoOk_congr hinputs _ hf1.2.2.2.2.2.2.1
        · intro g hg
          rw [← ho, List.mem_reverse]
          exact (hf1.2.1 g).mp (hvis1 g hg)
        · intro u hu
          rw [← ho, List.mem_reverse] at hu
          rw [← hsome u]
          exact hf1.2.2.2.2.2.2.2.2 u hu

/-! The forward evaluation pass. -/

theorem if_lt_max (c x : Int) : (if c < x then x else c) = max c x := by
  by_cases h : c < x
  · rw [if_pos h, max_eq_right h.le]
  · rw [if_neg h, max_eq_left (not_lt.mp h)]

theorem gateD_modify_ne {net : Network} {h u : Nat} (f : nand_t → nand_t)
    (hne : ¬u = h) : (net.modifyGate h f).gateD u = net.gateD u := by
  rw [Network.gateD, Network.gateD, Network.getGate_modifyGate_ne f hne]

theorem slotVal_modify_ne {net : Network} (sigs : Nat → Bool) {h : Nat}
    (f : nand_t → nand_t) {inf : in_info}
    (hne : ∀ hs, inf.type = input_type.NAND_GATE_INPUT →
      inf.ptr = ptr_t.gate hs → ¬hs = h) :
    slotVal (net.modifyGate h f) sigs inf = slotVal net sigs inf := by
  unfold slotVal
  cases hty : inf.type with
  | NAND_GATE_INPUT =>
    cases hptr : inf.ptr with
    | gate hs =>
      have hd : (net.modifyGate h f).gateD hs = net.gateD hs :=
        gateD_modify_ne f (hne hs hty hptr)
      show ((net.modifyGate h f).gateD hs).signal = (net.gateD hs).signal
      rw [hd]
    | null => rfl
    | sig sid => rfl
  | EMPTY_INPUT => cases hptr : inf.ptr <;> rfl
  | BOOLEAN_SIGNAL_INPUT => cases hptr : inf.ptr <;> rfl

theorem critStep_modify_ne {net : Network} {h : Nat} (f : nand_t → nand_t)
    {inf : in_info}
    (hne : ∀ hs, inf.type = input_type.NAND_GATE_INPUT →
      inf.ptr = ptr_t.gate hs → ¬hs = h) (c : Int) :
    critStep (net.modifyGate h f) inf c = critStep net inf c := by
  unfold critStep
  cases hty : inf.type with
  | NAND_GATE_INPUT =>
    cases hptr : inf.ptr with
    | gate hs =>
      have hd : (net.modifyGate h f).gateD hs = net.gateD hs :=
        gateD_modify_ne f (hne hs hty hptr)
      show max c (((net.modifyGate h f).gateD hs).crit_path_len + 1) =
        max c ((net.gateD hs).crit_path_len + 1)
      rw [hd]
    | null => rfl
    | sig sid => rfl
  | EMPTY_INPUT => cases hptr : inf.ptr <;> rfl
  | BOOLEAN_SIGNAL_INPUT => cases hptr : inf.ptr <;> rfl

theorem foldl_congr_mem {α β : Type} : ∀ (l : List α) (f1 f2 : β → α → β) (b : β),
    (∀ x, x ∈ l → ∀ acc, f1 acc x = f2 acc x) → l.foldl f1 b = l.foldl f2 b
  | [], _, _, _, _ => rfl
  | x :: rest, f1, f2, b, hp => by
    rw [List.foldl_cons, List.foldl_cons, hp x (List.mem_cons_self _ _) b]
    exact foldl_congr_mem rest f1 f2 _ (fun y hy acc => hp y (List.mem_cons_of_mem _ hy) acc)

theorem evalUpd_fields (g : nand_t) (x : Int) (v : Bool) :
    ((fun g3 : nand_t =>
      let g4 := if g3.crit_path_len < x then { g3 with crit_path_len := x } else g3
      { g4 with signal := g4.signal && v }) g).inputs = g.inputs ∧
    ((fun g3 : nand_t =>
      let g4 := if g3.crit_path_len < x then { g3 with crit_path_len := x } else g3
      { g4 with signal := g4.signal && v }) g).outputs = g.outputs ∧
    ((fun g3 : nand_t =>
      let g4 := if g3.crit_path_len < x then { g3 with crit_path_len := x } else g3
      { g4 with signal := g4.signal && v }) g).status = g.status ∧
    ((fun g3 : nand_t =>
      let g4 := if g3.crit_path_len < x then { g3 with crit_path_len := x } else g3
      { g4 with signal := g4.signal && v }) g).signal = (g.signal && v) ∧
    ((fun g3 : nand_t =>
      let g4 := if g3.crit_path_len < x then { g3 with crit_path_len := x } else g3
      { g4 with signal := g4.signal && v }) g).crit_path_len = max g.crit_path_len x := by
  dsimp only
  by_cases h : g.crit_path_len < x
  · rw [if_pos h]
    exact ⟨rfl, rfl, rfl, rfl, (max_eq_right h.le).symm⟩
  · rw [if_neg h]
    exact ⟨rfl, rfl, rfl, rfl, (max_eq_left (not_lt.mp h)).symm⟩

theorem evalStep_eq_fold (sigs : Nat → Bool) (net : Network) (h : Nat) :
    evalStep sigs net h =
      ((List.range ((net.modifyGate h
          (fun g => { g with signal := true, crit_path_len := 0 })).gateD h).input_count).foldl
        (evalSlotFold sigs h)
        (net.modifyGate h
          (fun g => { g with signal := true, crit_path_len := 0 }))).modifyGate h
        (fun g => { g with signal := !g.signal }) := rfl

theorem evalFoldStep_cases (sigs : Nat → Bool) (h : Nat) (acc : Network)
    (g : nand_t) (i : Nat) (hg : acc.getGate h = some g) :
    (evalSlotFold sigs h acc i = acc ∧
      slotVal acc sigs (g.getInput i) = true ∧
      (∀ c, critStep acc (g.getInput i) c = c)) ∨
    (∃ x v, evalSlotFold sigs h acc i =
        acc.modifyGate h (fun g3 =>
          let g4 := if g3.crit_path_len < x then { g3 with crit_path_len := x } else g3
          { g4 with signal := g4.signal && v }) ∧
      slotVal acc sigs (g.getInput i) = v ∧
      (∀ c, critStep acc (g.getInput i) c = max c x)) := by
  have hgd : acc.gateD h = g := Network.gateD_eq_of_getGate hg
  cases hty : (g.getInput i).type with
  | BOOLEAN_SIGNAL_INPUT =>
    cases hptr : (g.getInput i).ptr with
    | sig sid =>
      refine Or.inr ⟨1, sigs sid, ?_, ?_, ?_⟩
      · unfold evalSlotFold
        dsimp only
        rw [hgd, hty, hptr]
      · unfold slotVal
        rw [hty, hptr]
      · intro c
        unfold critStep
        rw [hty, hptr]
    | null =>
      refine Or.inl ⟨?_, ?_, ?_⟩
      · unfold evalSlotFold
        dsimp only
        rw [hgd, hty, hptr]
      · unfold slotVal
        rw [hty, hptr]
      · intro c
        unfold critStep
        rw [hty, hptr]
    | gate hs =>
      refine Or.inl ⟨?_, ?_, ?_⟩
      · unfold evalSlotFold
        dsimp only
        rw [hgd, hty, hptr]
      · unfold slotVal
        rw [hty, hptr]
      · intro c
        unfold critStep
        rw [hty, hptr]
  | NAND_GATE_INPUT =>
    cases hptr : (g.getInput i).ptr with
    | gate hs =>
      refine Or.inr ⟨(acc.gateD hs).crit_path_len + 1, (acc.gateD hs).signal, ?_, ?_, ?_⟩
      · unfold evalSlotFold
        dsimp only
        rw [hgd, hty, hptr]
      · unfold slotVal
        rw [hty, hptr]
      · intro c
        unfold critStep
        rw [hty, hptr]
    | null =>
      refine Or.inl ⟨?_, ?_, ?_⟩
      · unfold evalSlotFold
        dsimp only
        rw [hgd, hty, hptr]
      · unfold slotVal
        rw [hty, hptr]
      · intro c
        unfold critStep
        rw [hty, hptr]
    | sig sid =>
      refine Or.inl ⟨?_, ?_, ?_⟩
      · unfold evalSlotFold
        dsimp only
        rw [hgd, hty, hptr]
      · unfold slotVal
        rw [hty, hptr]
      · intro c
        unfold critStep
        rw [hty, hptr]
  | EMPTY_INPUT =>
    cases hptr : (g.getInput i).ptr with
    | null =>
      refine Or.inl ⟨?_, ?_, ?_⟩
      · unfold evalSlotFold
        dsimp only
        rw [hgd, hty, hptr]
      · unfold slotVal
        rw [hty, hptr]
      · intro c
        unfold critStep
        rw [hty, hptr]
    | sig sid =>
      refine Or.inl ⟨?_, ?_, ?_⟩
      · unfold evalSlotFold
        dsimp only
        rw [hgd, hty, hptr]
      · unfold slotVal
        rw [hty, hptr]
      · intro c
        unfold critStep
        rw [hty, hptr]
    | gate hs =>
      refine Or.inl ⟨?_, ?_, ?_⟩
      · unfold evalSlotFold
        dsimp only
        rw [hgd, hty, hptr]
      · unfold slotVal
        rw [hty, hptr]
      · intro c
        unfold critStep
        rw [hty, hptr]

theorem getInput_congr {g1 g2 : nand_t} (h : g1.inputs = g2.inputs) (k : Nat) :
    g1.getInput k = g2.getInput k := by
  rw [nand_t.getInput, nand_t.getInput, h]

set_option maxHeartbeats 1000000 in
theorem evalFold_spec (sigs : Nat → Bool) (h : Nat) :
    ∀ (l : List Nat) (acc : Network) (g : nand_t),
    acc.getGate h = some g →
    (∀ i hs, i ∈ l → (g.getInput i).type = input_type.NAND_GATE_INPUT →
      (g.getInput i).ptr = ptr_t.gate hs → ¬hs = h) →
    ∃ g2, (List.foldl (evalSlotFold sigs h) acc l).getGate h = some g2 ∧
      g2.inputs = g.inputs ∧ g2.outputs = g.outputs ∧ g2.status = g.status ∧
      g2.signal = List.foldl (fun b i => b && slotVal acc sigs (g.getInput i)) g.signal l ∧
      g2.crit_path_len =
        List.foldl (fun c i => critStep acc (g.getInput i) c) g.crit_path_len l ∧
      (∀ u, ¬u = h →
        (List.foldl (evalSlotFold sigs h) acc l).getGate u = acc.getGate u)
  | [], acc, g, hg, hne => ⟨g, hg, rfl, rfl, rfl, rfl, rfl, fun u _ => rfl⟩
  | i :: rest, acc, g, hg, hne => by
    cases evalFoldStep_cases sigs h acc g i hg with
    | inl hcase =>
      obtain ⟨hstep, hv, hcrit⟩ := hcase
      obtain ⟨g2, hget2, hin2, hout2, hst2, hsig2, hcrit2, hoth2⟩ :=
        evalFold_spec sigs h rest acc g hg
          (fun j hs hj => hne j hs (List.mem_cons_of_mem _ hj))
      refine ⟨g2, ?_, hin2, hout2, hst2, ?_, ?_, ?_⟩
      · rw [List.foldl_cons, hstep]
        exact hget2
      · rw [List.foldl_cons]
        show g2.signal =
          List.foldl _ (g.signal && slotVal acc sigs (g.getInput i)) rest
        rw [hv, Bool.and_true]
        exact hsig2
      · rw [List.foldl_cons]
        show g2.crit_path_len =
          List.foldl _ (critStep acc (g.getInput i) g.crit_path_len) rest
        rw [hcrit]
        exact hcrit2
      · intro u hu
        rw [List.foldl_cons, hstep]
        exact hoth2 u hu
    | inr hcase =>
      obtain ⟨x, v, hstep, hv, hcrit⟩ := hcase
      obtain ⟨hfin, hfout, hfst, hfsig, hfcrit⟩ := evalUpd_fields g x v
      obtain ⟨g2, hget2, hin2, hout2, hst2, hsig2, hcrit2, hoth2⟩ :=
        evalFold_spec sigs h rest
          (acc.modifyGate h (fun g3 =>
            let g4 := if g3.crit_path_len < x then { g3 with crit_path_len := x } else g3
            { g4 with signal := g4.signal && v }))
          ((fun g3 : nand_t =>
            let g4 := if g3.crit_path_len < x then { g3 with crit_path_len := x } else g3
            { g4 with signal := g4.signal && v }) g)
          (Network.getGate_modifyGate_self _ hg)
          (fun j hs hj hty hptr => by
            rw [getInput_congr hfin j] at hty hptr
            exact hne j hs (List.mem_cons_of_mem _ hj) hty hptr)
      refine ⟨g2, ?_, hin2.trans hfin, hout2.trans hfout, hst2.trans hfst, ?_, ?_, ?_⟩
      · rw [List.foldl_cons, hstep]
        exact hget2
      · rw [List.foldl_cons]
        show g2.signal =
          List.foldl (fun b j => b && slotVal acc sigs (g.getInput j))
            (g.signal && slotVal acc sigs (g.getInput i)) rest
        rw [hv, hsig2, hfsig]
        exact foldl_congr_mem rest _ _ _ (fun j hj b => by
          rw [getInput_congr hfin j,
              slotVal_modify_ne sigs _
                (fun hs hty hptr => hne j hs (List.mem_cons_of_mem _ hj) hty hptr)])
      · rw [List.foldl_cons]
        show g2.crit_path_len =
          List.foldl (fun c j => critStep acc (g.getInput j) c)
            (critStep acc (g.getInput i) g.crit_path_len) rest
        rw [hcrit, hcrit2, hfcrit]
        exact foldl_congr_mem rest _ _ _ (fun j hj c => by
          rw [getInput_congr hfin j,
              critStep_modify_ne _
                (fun hs hty hptr => hne j hs (List.mem_cons_of_mem _ hj) hty hptr)])
      · intro u hu
        rw [List.foldl_cons, hstep, hoth2 u hu]
        exact Network.getGate_modifyGate_ne _ hu

set_option maxHeartbeats 1000000 in
theorem evalStep_spec (sigs : Nat → Bool) {net : Network} {h : Nat} {g : nand_t}
    (hg : net.getGate h = some g)
    (hne : ∀ i hs, (g.getInput i).type = input_type.NAND_GATE_INPUT →
      (g.getInput i).ptr = ptr_t.gate hs → ¬hs = h) :
    ∃ g2, (evalStep sigs net h).getGate h = some g2 ∧
      g2.inputs = g.inputs ∧ g2.outputs = g.outputs ∧ g2.status = g.status ∧
      g2.signal = !((List.range g.inputs.length).foldl
        (fun b i => b && slotVal net sigs (g.getInput i)) true) ∧
      g2.crit_path_len = (List.range g.inputs.length).foldl
        (fun c i => critStep net (g.getInput i) c) 0 ∧
      (∀ u, ¬u = h → (evalStep sigs net h).getGate u = net.getGate u) := by
  rw [evalStep_eq_fold]
  have hg0 : (net.modifyGate h
      (fun g => { g with signal := true, crit_path_len := 0 })).getGate h =
      some { g with signal := true, crit_path_len := 0 } :=
    Network.getGate_modifyGate_self _ hg
  have hcount : ((net.modifyGate h
      (fun g => { g with signal := true, crit_path_len := 0 })).gateD h).input_count =
      g.inputs.length := by
    rw [Network.gateD_eq_of_getGate hg0]
    rfl
  rw [hcount]
  obtain ⟨g2, hget2, hin2, hout2, hst2, hsig2, hcrit2, hoth2⟩ :=
    evalFold_spec sigs h (List.range g.inputs.length)
      (net.modifyGate h (fun g => { g with signal := true, crit_path_len := 0 }))
      { g with signal := true, crit_path_len := 0 } hg0
      (fun i hs _ hty hptr => hne i hs hty hptr)
  refine ⟨{ g2 with signal := !g2.signal },
    Network.getGate_modifyGate_self _ hget2, hin2, hout2, hst2, ?_, ?_, ?_⟩
  · dsimp only
    rw [hsig2]
    have hcongr : (List.range g.inputs.length).foldl
        (fun b i => b && slotVal (net.modifyGate h
          (fun g => { g with signal := true, crit_path_len := 0 })) sigs
          (nand_t.getInput { g with signal := true, crit_path_len := 0 } i)) true =
        (List.range g.inputs.length).foldl
          (fun b i => b && slotVal net sigs (g.getInput i)) true :=
      foldl_congr_mem _ _ _ _ (fun i _ b => by
        have hgi : nand_t.getInput
            { g with signal := true, crit_path_len := 0 } i = g.getInput i := rfl
        rw [hgi, slotVal_modify_ne sigs _ (fun hs hty hptr => hne i hs hty hptr)])
    rw [hcongr]
  · dsimp only
    rw [hcrit2]
    exact foldl_congr_mem _ _ _ _ (fun i _ c => by
      have hgi : nand_t.getInput
          { g with signal := true, crit_path_len := 0 } i = g.getInput i := rfl
      rw [hgi, critStep_modify_ne _ (fun hs hty hptr => hne i hs hty hptr)])
  · intro u hu
    rw [Network.getGate_modifyGate_ne _ hu, hoth2 u hu,
        Network.getGate_modifyGate_ne _ hu]

/-! Shape preservation by the forward pass. -/

theorem modify_shape {net : Network} {h : Nat} {f : nand_t → nand_t}
    (hf : ∀ g, (f g).inputs = g.inputs ∧ (f g).outputs = g.outputs ∧
      (f g).status = g.status) (u : Nat) :
    ((net.modifyGate h f).getGate u).isSome = (net.getGate u).isSome ∧
    ((net.modifyGate h f).gateD u).inputs = (net.gateD u).inputs ∧
    ((net.modifyGate h f).gateD u).outputs = (net.gateD u).outputs ∧
    ((net.modifyGate h f).gateD u).status = (net.gateD u).status := by
  refine ⟨isSome_getGate_modifyGate _ _ _ _, ?_, ?_, ?_⟩
  · rw [Network.gateD, Network.gateD, Network.getGate_modifyGate_pointwise]
    cases hg : net.getGate u with
    | none => rfl
    | some g =>
      by_cases he : u = h
      · simp [he, (hf g).1]
      · simp [he]
  · rw [Network.gateD, Network.gateD, Network.getGate_modifyGate_pointwise]
    cases hg : net.getGate u with
    | none => rfl
    | some g =>
      by_cases he : u = h
      · simp [he, (hf g).2.1]
      · simp [he]
  · rw [Network.gateD, Network.gateD, Network.getGate_modifyGate_pointwise]
    cases hg : net.getGate u with
    | none => rfl
    | some g =>
      by_cases he : u = h
      · simp [he, (hf g).2.2]
      · simp [he]

theorem evalUpd_shape (x : Int) (v : Bool) :
    ∀ g : nand_t,
      ((fun g3 : nand_t =>
        let g4 := if g3.crit_path_len < x then { g3 with crit_path_len := x } else g3
        { g4 with signal := g4.signal && v }) g).inputs = g.inputs ∧
      ((fun g3 : nand_t =>
        let g4 := if g3.crit_path_len < x then { g3 with crit_path_len := x } else g3
        { g4 with signal := g4.signal && v }) g).outputs = g.outputs ∧
      ((fun g3 : nand_t =>
        let g4 := if g3.crit_path_len < x then { g3 with crit_path_len := x } else g3
        { g4 with signal := g4.signal && v }) g).status = g.status := by
  intro g
  obtain ⟨h1, h2, h3, _, _⟩ := evalUpd_fields g x v
  exact ⟨h1, h2, h3⟩

theorem gateD_not_live {net : Network} {h : Nat} (hg : net.getGate h = none) :
    net.gateD h = defaultGate := by
  rw [Network.gateD, hg]
  rfl

theorem getInput_default (i : Nat) : defaultGate.getInput i = emptyInput := by
  rw [nand_t.getInput]
  show List.getD [] i emptyInput = emptyInput
  simp [List.getD]

theorem evalSlotFold_shape (sigs : Nat → Bool) (h : Nat) (acc : Network) (i : Nat)
    (u : Nat) :
    ((evalSlotFold sigs h acc i).getGate u).isSome = (acc.getGate u).isSome ∧
    ((evalSlotFold sigs h acc i).gateD u).inputs = (acc.gateD u).inputs ∧
    ((evalSlotFold sigs h acc i).gateD u).outputs = (acc.gateD u).outputs ∧
    ((evalSlotFold sigs h acc i).gateD u).status = (acc.gateD u).status := by
  cases hac : acc.getGate h with
  | none =>
    have hinp : (acc.gateD h).getInput i = emptyInput := by
      rw [gateD_not_live hac]
      exact getInput_default i
    unfold evalSlotFold
    dsimp only
    rw [hinp]
    exact ⟨rfl, rfl, rfl, rfl⟩
  | some g =>
    cases evalFoldStep_cases sigs h acc g i hac with
    | inl hc =>
      rw [hc.1]
      exact ⟨rfl, rfl, rfl, rfl⟩
    | inr hc =>
      obtain ⟨x, v, hstep, _, _⟩ := hc
      rw [hstep]
      exact modify_shape (evalUpd_shape x v) u

theorem foldl_slotFold_shape (sigs : Nat → Bool) (h : Nat) :
    ∀ (l : List Nat) (acc : Network) (u : Nat),
    ((List.foldl (evalSlotFold sigs h) acc l).getGate u).isSome = (acc.getGate u).isSome ∧
    ((List.foldl (evalSlotFold sigs h) acc l).gateD u).inputs = (acc.gateD u).inputs ∧
    ((List.foldl (evalSlotFold sigs h) acc l).gateD u).outputs = (acc.gateD u).outputs ∧
    ((List.foldl (evalSlotFold sigs h) acc l).gateD u).status = (acc.gateD u).status
  | [], acc, u => ⟨rfl, rfl, rfl, rfl⟩
  | i :: rest, acc, u => by
    obtain ⟨a1, a2, a3, a4⟩ := evalSlotFold_shape sigs h acc i u
    obtain ⟨b1, b2, b3, b4⟩ := foldl_slotFold_shape sigs h rest (evalSlotFold sigs h acc i) u
    exact ⟨b1.trans a1, b2.trans a2, b3.trans a3, b4.trans a4⟩

theorem evalStep_shape (sigs : Nat → Bool) (net : Network) (h : Nat) (u : Nat) :
    ((evalStep sigs net h).getGate u).isSome = (net.getGate u).isSome ∧
    ((evalStep sigs net h).gateD u).inputs = (net.gateD u).inputs ∧
    ((evalStep sigs net h).gateD u).outputs = (net.gateD u).outputs ∧
    ((evalStep sigs net h).gateD u).status = (net.gateD u).status := by
  rw [evalStep_eq_fold]
  obtain ⟨a1, a2, a3, a4⟩ := @modify_shape net h
    (fun g => { g with signal := true, crit_path_len := 0 }) (fun g => ⟨rfl, rfl, rfl⟩) u
  obtain ⟨b1, b2, b3, b4⟩ := foldl_slotFold_shape sigs h
    (List.range ((net.modifyGate h
      (fun g => { g with signal := true, crit_path_len := 0 })).gateD h).input_count)
    (net.modifyGate h (fun g => { g with signal := true, crit_path_len := 0 })) u
  obtain ⟨c1, c2, c3, c4⟩ := @modify_shape
    ((List.range ((net.modifyGate h
      (fun g => { g with signal := true, crit_path_len := 0 })).gateD h).input_count).foldl
      (evalSlotFold sigs h)
      (net.modifyGate h (fun g => { g with signal := true, crit_path_len := 0 }))) h
    (fun g => { g with signal := !g.signal }) (fun g => ⟨rfl, rfl, rfl⟩) u
  exact ⟨(c1.trans b1).trans a1, (c2.trans b2).trans a2,
    (c3.trans b3).trans a3, (c4.trans b4).trans a4⟩

theorem evaluate_sorted_shape (sigs : Nat → Bool) :
    ∀ (order : List Nat) (net : Network) (u : Nat),
    ((evaluate_sorted net sigs order).getGate u).isSome = (net.getGate u).isSome ∧
    ((evaluate_sorted net sigs order).gateD u).inputs = (net.gateD u).inputs ∧
    ((evaluate_sorted net sigs order).gateD u).outputs = (net.gateD u).outputs ∧
    ((evaluate_sorted net sigs order).gateD u).status = (net.gateD u).status
  | [], net, u => ⟨rfl, rfl, rfl, rfl⟩
  | i :: rest, net, u => by
    obtain ⟨a1, a2, a3, a4⟩ := evalStep_shape sigs net i u
    obtain ⟨b1, b2, b3, b4⟩ := evaluate_sorted_shape sigs rest (evalStep sigs net i) u
    exact ⟨b1.trans a1, b2.trans a2, b3.trans a3, b4.trans a4⟩

theorem evalSlotFold_getGate_ne (sigs : Nat → Bool) {h : Nat} (acc : Network) (i : Nat)
    {u : Nat} (hu : ¬u = h) :
    (evalSlotFold sigs h acc i).getGate u = acc.getGate u := by
  cases hac : acc.getGate h with
  | none =>
    have hinp : (acc.gateD h).getInput i = emptyInput := by
      rw [gateD_not_live hac]
      exact getInput_default i
    unfold evalSlotFold
    dsimp only
    rw [hinp]
    rfl
  | some g =>
    cases evalFoldStep_cases sigs h acc g i hac with
    | inl hc => rw [hc.1]
    | inr hc =>
      obtain ⟨x, v, hstep, _, _⟩ := hc
      rw [hstep]
      exact Network.getGate_modifyGate_ne _ hu

theorem foldl_slotFold_getGate_ne (sigs : Nat → Bool) {h : Nat} :
    ∀ (l : List Nat) (acc : Network) {u : Nat}, ¬u = h →
    (List.foldl (evalSlotFold sigs h) acc l).getGate u = acc.getGate u
  | [], acc, u, _ => rfl
  | i :: rest, acc, u, hu => by
    rw [List.foldl_cons, foldl_slotFold_getGate_ne sigs rest _ hu,
        evalSlotFold_getGate_ne sigs acc i hu]

theorem evalStep_getGate_ne (sigs : Nat → Bool) (net : Network) {h u : Nat}
    (hu : ¬u = h) : (evalStep sigs net h).getGate u = net.getGate u := by
  rw [evalStep_eq_fold, Network.getGate_modifyGate_ne _ hu,
      foldl_slotFold_getGate_ne sigs _ _ hu, Network.getGate_modifyGate_ne _ hu]

theorem evaluate_sorted_not_mem (sigs : Nat → Bool) :
    ∀ (order : List Nat) (net : Network) {u : Nat}, u ∉ order →
    (evaluate_sorted net sigs order).getGate u = net.getGate u
  | [], net, u, _ => rfl
  | i :: rest, net, u, hu => by
    have hui : ¬u = i := fun hc => hu (by rw [hc]; exact List.mem_cons_self _ _)
    have hur : u ∉ rest := fun hc => hu (List.mem_cons_of_mem _ hc)
    show (evaluate_sorted (evalStep sigs net i) sigs rest).getGate u = net.getGate u
    rw [evaluate_sorted_not_mem sigs rest _ hur, evalStep_getGate_ne sigs net hui]

/-! Extracting per-gate facts from a topological order and converting the
index folds of the forward pass to folds over the slot list. -/

theorem TopoOk_extract {net : Network} :
    ∀ (A : List Nat) (h : Nat) (B : List Nat),
    TopoOk net (A ++ h :: B) →
    ∀ k, k < (net.gateD h).input_count →
      ((net.gateD h).getInput k).type ≠ input_type.EMPTY_INPUT ∧
      (∀ hs, ((net.gateD h).getInput k).type = input_type.NAND_GATE_INPUT →
        ((net.gateD h).getInput k).ptr = ptr_t.gate hs → hs ∈ B)
  | [], h, B, ht, k, hk => ht.1 k hk
  | a :: A2, h, B, ht, k, hk => TopoOk_extract A2 h B ht.2 k hk

theorem all_congr_mem {α : Type} : ∀ (l : List α) (p q : α → Bool),
    (∀ x, x ∈ l → p x = q x) → l.all p = l.all q
  | [], _, _, _ => rfl
  | x :: rest, p, q, hp => by
    rw [List.all_cons, List.all_cons, hp x (List.mem_cons_self _ _),
        all_congr_mem rest p q (fun y hy => hp y (List.mem_cons_of_mem _ hy))]

theorem foldl_range_slotVal (net : Network) (sigs : Nat → Bool) :
    ∀ (xs : List in_info) (b : Bool),
    (List.range xs.length).foldl
      (fun acc i => acc && slotVal net sigs (xs.getD i emptyInput)) b =
      (b && xs.all (slotVal net sigs))
  | [], b => by
    rw [List.length_nil, List.range_zero, List.foldl_nil, List.all_nil, Bool.and_true]
  | x :: rest, b => by
    rw [List.length_cons, List.range_succ_eq_map, List.foldl_cons, List.foldl_map]
    have hcv : (List.range rest.length).foldl
        (fun acc i => acc && slotVal net sigs ((x :: rest).getD (i + 1) emptyInput))
        (b && slotVal net sigs ((x :: rest).getD 0 emptyInput)) =
        (List.range rest.length).foldl
          (fun acc i => acc && slotVal net sigs (rest.getD i emptyInput))
          (b && slotVal net sigs x) :=
      foldl_congr_mem _ _ _ _ (fun i _ acc => by rw [List.getD_cons_succ])
    rw [hcv, foldl_range_slotVal net sigs rest _, List.all_cons, ← Bool.and_assoc]

theorem foldl_range_critStep (net : Network) :
    ∀ (xs : List in_info) (c : Int),
    (List.range xs.length).foldl
      (fun acc i => critStep net (xs.getD i emptyInput) acc) c =
      xs.foldl (fun m inf => critStep net inf m) c
  | [], c => by
    rw [List.length_nil, List.range_zero, List.foldl_nil, List.foldl_nil]
  | x :: rest, c => by
    rw [List.length_cons, List.range_succ_eq_map, List.foldl_cons, List.foldl_map,
        List.foldl_cons]
    have hcv : (List.range rest.length).foldl
        (fun acc i => critStep net ((x :: rest).getD (i + 1) emptyInput) acc)
        (critStep net ((x :: rest).getD 0 emptyInput) c) =
        (List.range rest.length).foldl
          (fun acc i => critStep net (rest.getD i emptyInput) acc)
          (critStep net x c) :=
      foldl_congr_mem _ _ _ _ (fun i _ acc => by rw [List.getD_cons_succ])
    rw [hcv, foldl_range_critStep net rest _]

theorem slotVal_congr_net {x y : Network} (sigs : Nat → Bool) {inf : in_info}
    (hsig : ∀ hs, inf.type = input_type.NAND_GATE_INPUT →
      inf.ptr = ptr_t.gate hs → (x.gateD hs).signal = (y.gateD hs).signal) :
    slotVal x sigs inf = slotVal y sigs inf := by
  unfold slotVal
  cases hty : inf.type with
  | NAND_GATE_INPUT =>
    cases hptr : inf.ptr with
    | gate hs =>
      show (x.gateD hs).signal = (y.gateD hs).signal
      exact hsig hs hty hptr
    | null => rfl
    | sig sid => rfl
  | EMPTY_INPUT => cases hptr : inf.ptr <;> rfl
  | BOOLEAN_SIGNAL_INPUT => cases hptr : inf.ptr <;> rfl

theorem critStep_congr_net {x y : Network} {inf : in_info}
    (hcrit : ∀ hs, inf.type = input_type.NAND_GATE_INPUT →
      inf.ptr = ptr_t.gate hs →
      (x.gateD hs).crit_path_len = (y.gateD hs).crit_path_len) (c : Int) :
    critStep x inf c = critStep y inf c := by
  unfold critStep
  cases hty : inf.type with
  | NAND_GATE_INPUT =>
    cases hptr : inf.ptr with
    | gate hs =>
      show max c ((x.gateD hs).crit_path_len + 1) = max c ((y.gateD hs).crit_path_len + 1)
      rw [hcrit hs hty hptr]
    | null => rfl
    | sig sid => rfl
  | EMPTY_INPUT => cases hptr : inf.ptr <;> rfl
  | BOOLEAN_SIGNAL_INPUT => cases hptr : inf.ptr <;> rfl

theorem critStep_spec_step {net : Network} {inf : in_info}
    (hcoh : inf.type = input_type.BOOLEAN_SIGNAL_INPUT → ∃ sid, inf.ptr = ptr_t.sig sid)
    (c : Int) :
    critStep net inf c =
      (match inf.type, inf.ptr with
       | input_type.BOOLEAN_SIGNAL_INPUT, _ => max c 1
       | input_type.NAND_GATE_INPUT, ptr_t.gate hs =>
         max c ((net.gateD hs).crit_path_len + 1)
       | _, _ => c) := by
  unfold critStep
  cases hty : inf.type with
  | BOOLEAN_SIGNAL_INPUT =>
    obtain ⟨sid, hptr⟩ := hcoh hty
    rw [hptr]
  | NAND_GATE_INPUT => cases hptr : inf.ptr <;> rfl
  | EMPTY_INPUT => cases hptr : inf.ptr <;> rfl

set_option maxHeartbeats 1600000 in
theorem evaluate_sorted_eqn (sigs : Nat → Bool) {net : Network} {order : List Nat}
    (hwf : WfP net) (hnd : order.Nodup) (htopo : TopoOk net order.reverse)
    {h : Nat} (hmem : h ∈ order) (hlive : (net.getGate h).isSome = true) :
    ((evaluate_sorted net sigs order).gateD h).signal =
      specSignal (evaluate_sorted net sigs order) sigs
        ((evaluate_sorted net sigs order).gateD h) ∧
    ((evaluate_sorted net sigs order).gateD h).crit_path_len =
      specCrit (evaluate_sorted net sigs order)
        ((evaluate_sorted net sigs order).gateD h) := by
  obtain ⟨l1, l2, horder⟩ := List.append_of_mem hmem
  subst horder
  rw [List.nodup_append] at hnd
  obtain ⟨hnd1, hnd2, hdisj⟩ := hnd
  have hnotl1 : h ∉ l1 := fun hc => hdisj hc (List.mem_cons_self _ _)
  have hnotl2 : h ∉ l2 := (List.nodup_cons.mp hnd2).1
  obtain ⟨g, hg⟩ : ∃ g, net.getGate h = some g := by
    cases hq : net.getGate h with
    | none => rw [hq] at hlive; cases hlive
    | some g => exact ⟨g, rfl⟩
  have hgd : net.gateD h = g := Network.gateD_eq_of_getGate hg
  have hrev : (l1 ++ h :: l2).reverse = l2.reverse ++ h :: l1.reverse := by
    rw [List.reverse_append, List.reverse_cons, List.append_assoc]
    rfl
  have hext := TopoOk_extract l2.reverse h l1.reverse (by rw [← hrev]; exact htopo)
  have hsrc_l1 : ∀ k hs, k < g.inputs.length →
      (g.getInput k).type = input_type.NAND_GATE_INPUT →
      (g.getInput k).ptr = ptr_t.gate hs → hs ∈ l1 := by
    intro k hs hk hty hptr
    have h2 := (hext k (by rw [hgd]; exact hk)).2 hs
      (by rw [hgd]; exact hty) (by rw [hgd]; exact hptr)
    exact List.mem_reverse.mp h2
  have hne : ∀ i hs, (g.getInput i).type = input_type.NAND_GATE_INPUT →
      (g.getInput i).ptr = ptr_t.gate hs → ¬hs = h := by
    intro i hs hty hptr hc
    by_cases hi : i < g.inputs.length
    · exact hnotl1 (hc ▸ hsrc_l1 i hs hi hty hptr)
    · rw [nand_t.getInput, List.getD_eq_default _ _ (by omega)] at hty
      cases hty
  have hgA : (evaluate_sorted net sigs l1).getGate h = some g := by
    rw [evaluate_sorted_not_mem sigs l1 net hnotl1]
    exact hg
  obtain ⟨g2, hgB, hin2, hout2, hst2, hsig2, hcrit2, hoth2⟩ := evalStep_spec sigs hgA hne
  have hfold : evaluate_sorted net sigs (l1 ++ h :: l2) =
      evaluate_sorted (evalStep sigs (evaluate_sorted net sigs l1) h) sigs l2 := by
    unfold evaluate_sorted
    rw [List.foldl_append, List.foldl_cons]
  have hnet2h : (evaluate_sorted net sigs (l1 ++ h :: l2)).getGate h = some g2 := by
    rw [hfold, evaluate_sorted_not_mem sigs l2 _ hnotl2]
    exact hgB
  have hgd2 : (evaluate_sorted net sigs (l1 ++ h :: l2)).gateD h = g2 :=
    Network.gateD_eq_of_getGate hnet2h
  have hsrcpre : ∀ hs, hs ∈ l1 →
      (evaluate_sorted net sigs (l1 ++ h :: l2)).gateD hs =
        (evaluate_sorted net sigs l1).gateD hs := by
    intro hs hsl1
    have hs_ne : ¬hs = h := fun hc => hnotl1 (hc ▸ hsl1)
    have hs_not_l2 : hs ∉ l2 := fun hc => hdisj hsl1 (List.mem_cons_of_mem _ hc)
    rw [Network.gateD, Network.gateD, hfold,
        evaluate_sorted_not_mem sigs l2 _ hs_not_l2, evalStep_getGate_ne sigs _ hs_ne]
  have hidx : ∀ inf, inf ∈ g.inputs → ∃ k, k < g.inputs.length ∧ g.getInput k = inf := by
    intro inf hinf
    obtain ⟨k, hk, hkeq⟩ := List.mem_iff_getElem.mp hinf
    refine ⟨k, hk, ?_⟩
    rw [nand_t.getInput, List.getD_eq_getD_get?, List.get?_eq_getElem?,
        List.getElem?_eq_getElem hk, hkeq]
    rfl
  constructor
  · rw [hgd2, hsig2]
    unfold specSignal
    rw [hin2]
    have hbridge : (fun (b : Bool) (i : Nat) =>
        b && slotVal (evaluate_sorted net sigs l1) sigs (g.getInput i)) =
        (fun b i => b && slotVal (evaluate_sorted net sigs l1) sigs
          (g.inputs.getD i emptyInput)) := rfl
    rw [hbridge, foldl_range_slotVal _ sigs g.inputs true, Bool.true_and]
    have hall : g.inputs.all (slotVal (evaluate_sorted net sigs l1) sigs) =
        g.inputs.all (slotVal (evaluate_sorted net sigs (l1 ++ h :: l2)) sigs) := by
      refine all_congr_mem _ _ _ (fun inf hinf => ?_)
      obtain ⟨k, hk, hkeq⟩ := hidx inf hinf
      refine slotVal_congr_net sigs (fun hs hty hptr => ?_)
      have hsl1 : hs ∈ l1 :=
        hsrc_l1 k hs hk (by rw [hkeq]; exact hty) (by rw [hkeq]; exact hptr)
      rw [hsrcpre hs hsl1]
    rw [hall]
  · rw [hgd2, hcrit2]
    unfold specCrit
    rw [hin2]
    have hbridge : (fun (c : Int) (i : Nat) =>
        critStep (evaluate_sorted net sigs l1) (g.getInput i) c) =
        (fun c i => critStep (evaluate_sorted net sigs l1)
          (g.inputs.getD i emptyInput) c) := rfl
    rw [hbridge, foldl_range_critStep _ g.inputs 0]
    refine foldl_congr_mem _ _ _ _ (fun inf hinf m => ?_)
    obtain ⟨k, hk, hkeq⟩ := hidx inf hinf
    have hcrit_pre : ∀ hs, inf.type = input_type.NAND_GATE_INPUT →
        inf.ptr = ptr_t.gate hs →
        ((evaluate_sorted net sigs l1).gateD hs).crit_path_len =
          ((evaluate_sorted net sigs (l1 ++ h :: l2)).gateD hs).crit_path_len := by
      intro hs hty hptr
      have hsl1 : hs ∈ l1 :=
        hsrc_l1 k hs hk (by rw [hkeq]; exact hty) (by rw [hkeq]; exact hptr)
      rw [hsrcpre hs hsl1]
    have hcoh : inf.type = input_type.BOOLEAN_SIGNAL_INPUT →
        ∃ sid, inf.ptr = ptr_t.sig sid := by
      intro hty
      have hmemk : g.inputs[k]? = some inf := by
        rw [← hkeq]
        exact nand_t.getElem_of_getInput hk
      exact ((hwf.1 h g k inf hg hmemk).2.1) hty
    rw [critStep_congr_net hcrit_pre m]
    unfold critStep
    cases hty : inf.type with
    | BOOLEAN_SIGNAL_INPUT =>
      obtain ⟨sid, hptr⟩ := hcoh hty
      rw [hptr]
    | NAND_GATE_INPUT => cases hptr : inf.ptr <;> rfl
    | EMPTY_INPUT => cases hptr : inf.ptr <;> rfl

/-! Specification of a successful `nand_evaluate_all` call. -/

theorem AtRest_iff (net : Network) : AtRest net = true ↔ AtRestP net := by
  unfold AtRest AtRestP
  rw [List.all_eq_true]
  constructor
  · intro ha h g hg
    have h2 := ha h (by rw [List.mem_range]; exact Network.lt_of_getGate_some hg)
    rw [hg] at h2
    exact eq_of_beq h2
  · intro ha t _
    cases hgt : net.getGate t with
    | none => rfl
    | some g =>
      show (g.status == topo_sort_status.NOT_VISITED) = true
      rw [ha t g hgt]
      rfl

theorem nand_evaluate_all_spec {net : Network} (hwf : WfP net) (hat : AtRestP net)
    (sigs : Nat → Bool) (gs : List Nat) (fuel budget : Nat)
    (hlv : ∀ g, g ∈ gs → (net.getGate g).isSome = true)
    {l : Int} {s : List Bool} {net2 : Network}
    (hp : nand_evaluate_all net sigs gs fuel budget = some (Except.ok (l, s), net2)) :
    ∃ order : List Nat, order.Nodup ∧ TopoOk net order.reverse ∧
      (∀ g, g ∈ gs → g ∈ order) ∧
      (∀ u, u ∈ order → (net.getGate u).isSome = true) ∧
      net2 = evaluate_sorted net sigs order ∧
      s = gs.map (fun h => (net2.gateD h).signal) ∧
      l = gs.foldl (fun acc h =>
        if acc < (net2.gateD h).crit_path_len then (net2.gateD h).crit_path_len
        else acc) 0 := by
  unfold nand_evaluate_all at hp
  cases hb : budget with
  | zero =>
    rw [hb] at hp
    dsimp only at hp
    injection hp with h1
    injection h1 with he hn
    cases he
  | succ b =>
    rw [hb] at hp
    dsimp only at hp
    cases hts : topo_sort fuel net gs b with
    | none =>
      rw [hts] at hp
      cases hp
    | some tr =>
      obtain ⟨e, order, net1⟩ := tr
      rw [hts] at hp
      cases e with
      | some err =>
        dsimp only at hp
        injection hp with h1
        injection h1 with he hn
        cases he
      | none =>
        dsimp only at hp
        injection hp with h1
        injection h1 with he hn
        injection he with hl
        injection hl with hl1 hs1
        obtain ⟨hnet1, hrest⟩ := topo_sort_spec hwf hat fuel b gs hlv hts
        obtain ⟨hndo, htopo, hgsub, holive⟩ := hrest rfl
        subst hnet1
        refine ⟨order, hndo, htopo, hgsub, holive, hn.symm, ?_, ?_⟩
        · rw [← hs1, ← hn]
        · rw [← hl1, ← hn]

/-- Claim C2: in a successful evaluate call the computed output signal of
every requested gate equals NOT of the AND over its input slots, where an
external-signal slot contributes the referenced boolean and a gate-source
slot contributes the already-computed signal of the source gate, and the
returned signal array follows the caller's order; in particular a 2-input
gate wired to external signals (a, b) evaluates to !(a && b): false for
(true, true) and true otherwise. -/
theorem claim_C2_signal_formula_and_truth_table :
    (∀ (net : Network) (sigs : Nat → Bool) (gs : List Nat) (fuel budget : Nat)
       (l : Int) (s : List Bool) (net2 : Network),
      Wf net = true → AtRest net = true →
      gs.all (fun h => (net.getGate h).isSome) = true →
      nand_evaluate_all net sigs gs fuel budget = some (Except.ok (l, s), net2) →
      (∀ h, h ∈ gs → (net2.gateD h).signal = specSignal net2 sigs (net2.gateD h)) ∧
      s = gs.map (fun h => (net2.gateD h).signal)) ∧
    (∀ a b : Bool, ∃ net2, nand_evaluate exNet
        (fun i => if i = 0 then a else b) (some [some 0]) false 9 9 =
      some (Except.ok ((1 : Int), [!(a && b)]), net2)) := by
  constructor
  · intro net sigs gs fuel budget l s net2 hwf hat hlv hp
    rw [List.all_eq_true] at hlv
    obtain ⟨order, hnd, htopo, hgsub, holive, hnet2, hs, _⟩ :=
      nand_evaluate_all_spec ((Wf_iff net).mp hwf) ((AtRest_iff net).mp hat)
        sigs gs fuel budget hlv hp
    refine ⟨?_, hs⟩
    intro h hg
    rw [hnet2]
    exact (evaluate_sorted_eqn sigs ((Wf_iff net).mp hwf) hnd htopo
      (hgsub h hg) (holive h (hgsub h hg))).1
  · intro a b
    cases a <;> cases b <;> exact ⟨_, rfl⟩

theorem claim_C2_witness :
    nand_evaluate_all exNet (fun _ => true) [0] 9 9 =
      some (Except.ok ((1 : Int), [false]), exEvalNet) ∧
    (exEvalNet.gateD 0).signal = specSignal exEvalNet (fun _ => true) (exEvalNet.gateD 0) ∧
    [false] = [0].map (fun h => (exEvalNet.gateD h).signal) :=
  ⟨rfl,
   (claim_C2_signal_formula_and_truth_table.1 exNet (fun _ => true) [0] 9 9 1 [false]
      exEvalNet (by decide) (by decide) (by decide) rfl).1 0 (by decide),
   (claim_C2_signal_formula_and_truth_table.1 exNet (fun _ => true) [0] 9 9 1 [false]
      exEvalNet (by decide) (by decide) (by decide) rfl).2⟩

/-! Exact simulation of the DFS on a chain network. -/

theorem chainNetSt_getGate (k : Nat) (f : Nat → topo_sort_status) (u : Nat) :
    (chainNetSt k f).getGate u =
      if u < k then some { chainGate k u with status := f u } else none := by
  rw [Network.getGate_eq]
  unfold chainNetSt
  dsimp only
  by_cases hu : u < k
  · rw [if_pos hu, List.getElem?_map, List.getElem?_range hu]
    rfl
  · rw [if_neg hu, List.getElem?_eq_none (by rw [List.length_map, List.length_range]; omega)]
    rfl

theorem chainNetSt_gateD {k u : Nat} (f : Nat → topo_sort_status) (hu : u < k) :
    (chainNetSt k f).gateD u = { chainGate k u with status := f u } := by
  rw [Network.gateD, chainNetSt_getGate, if_pos hu]
  rfl

theorem chainNetSt_congr {k : Nat} {f f2 : Nat → topo_sort_status}
    (h : ∀ x, x < k → f x = f2 x) : chainNetSt k f = chainNetSt k f2 := by
  unfold chainNetSt
  congr 1
  refine List.map_congr_left (fun j hj => ?_)
  rw [List.mem_range] at hj
  rw [h j hj]

theorem chainNetSt_modify {k j : Nat} (f : Nat → topo_sort_status) (hj : j < k)
    (s : topo_sort_status) :
    (chainNetSt k f).modifyGate j (fun g => { g with status := s }) =
      chainNetSt k (fun x => if x = j then s else f x) := by
  unfold Network.modifyGate
  rw [chainNetSt_getGate, if_pos hj]
  show Network.mk _ = _
  unfold chainNetSt
  congr 1
  apply List.ext_getElem?
  intro u
  by_cases hu : u = j
  · subst hu
    rw [List.getElem?_set_eq_of_lt _ (by rw [List.length_map, List.length_range]; omega),
        List.getElem?_map, List.getElem?_range hj]
    simp
  · rw [List.getElem?_set_ne (fun hc => hu hc.symm), List.getElem?_map, List.getElem?_map]
    by_cases hk : u < k
    · rw [List.getElem?_range hk]
      simp [hu]
    · rw [List.getElem?_eq_none (by rw [List.length_range]; omega)]
      rfl

theorem chainGate_inputs_len (k j : Nat) : (chainGate k j).inputs.length = 2 := by
  unfold chainGate
  dsimp only
  split <;> rfl

theorem chainGate_getInput0_pos {k j : Nat} (hj : j ≠ 0) :
    (chainGate k j).getInput 0 =
      ⟨ptr_t.gate (j - 1), input_type.NAND_GATE_INPUT, 0⟩ := by
  unfold chainGate nand_t.getInput
  dsimp only
  rw [if_neg hj]
  rfl

theorem chainGate_getInput0_zero (k : Nat) :
    (chainGate k 0).getInput 0 = ⟨ptr_t.sig 0, input_type.BOOLEAN_SIGNAL_INPUT, 0⟩ := by
  unfold chainGate nand_t.getInput
  dsimp only
  rw [if_pos rfl]
  rfl

theorem chainGate_getInput1 (k j : Nat) :
    (chainGate k j).getInput 1 = ⟨ptr_t.sig 0, input_type.BOOLEAN_SIGNAL_INPUT, 0⟩ := by
  unfold chainGate nand_t.getInput
  dsimp only
  split <;> rfl

theorem status_override_getInput (g : nand_t) (s : topo_sort_status) (i : Nat) :
    ({ g with status := s } : nand_t).getInput i = g.getInput i := rfl

theorem status_override_count (g : nand_t) (s : topo_sort_status) :
    ({ g with status := s } : nand_t).input_count = g.input_count := rfl

theorem dfsLoop_step {st st' : EvalState} (hp : process_node st = (none, st'))
    (hne : st.dstack.isEmpty = false) (fuel : Nat) :
    dfsLoop (fuel + 1) st = dfsLoop fuel st' := by
  simp only [dfsLoop]
  rw [if_neg (fun hc => by rw [hne] at hc; cases hc), hp]

theorem dfsLoop_empty {st : EvalState} (hemp : st.dstack = []) :
    ∀ fuel, dfsLoop fuel st = some (none, st)
  | 0 => by
    simp only [dfsLoop]
    rw [if_pos (by rw [hemp]; rfl)]
  | fuel + 1 => by
    simp only [dfsLoop]
    rw [if_pos (by rw [hemp]; rfl)]

theorem chain_step_signal {k j i : Nat} (hjk : j < k) (hi2 : i < 2)
    (hsig : ((chainGate k j).getInput i).type = input_type.BOOLEAN_SIGNAL_INPUT)
    (f : Nat → topo_sort_status) (S : List dfs_info) (T A : List Nat) (b : Nat) :
    process_node ⟨chainNetSt k f, (⟨j, i⟩ : dfs_info) :: S, T, A, b + 1⟩ =
      (none, ⟨chainNetSt k f, (⟨j, i + 1⟩ : dfs_info) :: S, T, A, b⟩) := by
  unfold process_node
  dsimp only
  rw [chainNetSt_gateD f hjk]
  have hcnt : ({ chainGate k j with status := f j } : nand_t).input_count = 2 :=
    chainGate_inputs_len k j
  rw [hcnt, if_neg (by omega : ¬i = 2)]
  unfold process_input
  rw [status_override_getInput]
  rw [if_neg (fun hc => by rw [hsig] at hc; cases hc),
      if_neg (fun hc => by rw [hsig] at hc; cases hc)]

theorem chain_step_pop {k j : Nat} (hjk : j < k) (f : Nat → topo_sort_status)
    (S : List dfs_info) (T A : List Nat) (b : Nat) :
    process_node ⟨chainNetSt k f, (⟨j, 2⟩ : dfs_info) :: S, T, A, b + 1⟩ =
      (none, ⟨chainNetSt k (fun x => if x = j then topo_sort_status.VISITED else f x),
        S, j :: T, A, b⟩) := by
  unfold process_node
  dsimp only
  rw [chainNetSt_gateD f hjk]
  have hcnt : ({ chainGate k j with status := f j } : nand_t).input_count = 2 :=
    chainGate_inputs_len k j
  rw [hcnt, if_pos rfl, chainNetSt_modify f hjk]

theorem chain_step_descend {k j : Nat} (hj1 : 1 ≤ j) (hjk : j < k)
    (f : Nat → topo_sort_status)
    (hprev : f (j - 1) = topo_sort_status.NOT_VISITED)
    (S : List dfs_info) (T A : List Nat) (b : Nat) :
    process_node ⟨chainNetSt k f, (⟨j, 0⟩ : dfs_info) :: S, T, A, b + 3⟩ =
      (none, ⟨chainNetSt k
          (fun x => if x = j - 1 then topo_sort_status.CURRENTLY_PROCESSING else f x),
        (⟨j - 1, 0⟩ : dfs_info) :: (⟨j, 1⟩ : dfs_info) :: S, T, (j - 1) :: A, b⟩) := by
  unfold process_node
  dsimp only
  rw [chainNetSt_gateD f hjk]
  have hcnt : ({ chainGate k j with status := f j } : nand_t).input_count = 2 :=
    chainGate_inputs_len k j
  rw [hcnt, if_neg (by omega : ¬0 = 2)]
  unfold process_input
  rw [status_override_getInput, chainGate_getInput0_pos (by omega : j ≠ 0)]
  rw [if_neg (fun hc => by cases hc), if_pos rfl]
  dsimp only
  unfold process_input_nand
  dsimp only
  rw [chainNetSt_gateD f (by omega : j - 1 < k)]
  show (if f (j - 1) = topo_sort_status.CURRENTLY_PROCESSING then _ else _) = _
  rw [if_neg (fun hc => by rw [hprev] at hc; cases hc), if_pos hprev]
  rw [chainNetSt_modify f (by omega : j - 1 < k)]

set_option maxHeartbeats 1000000 in
theorem chain_descend {k : Nat} : ∀ (j : Nat), j < k → ∀ (fuel b : Nat)
    (T A : List Nat),
    dfsLoop (j + fuel)
      ⟨chainNetSt k (fun x => if j ≤ x then topo_sort_status.CURRENTLY_PROCESSING
          else topo_sort_status.NOT_VISITED),
       (⟨j, 0⟩ : dfs_info) :: chainFrames (j + 1) (k - 1 - j), T, A, 3 * j + b⟩ =
    dfsLoop fuel
      ⟨chainNetSt k (fun x => if 0 ≤ x then topo_sort_status.CURRENTLY_PROCESSING
          else topo_sort_status.NOT_VISITED),
       (⟨0, 0⟩ : dfs_info) :: chainFrames 1 (k - 1), T, List.range j ++ A, b⟩
  | 0, hk, fuel, b, T, A => by
    rw [Nat.zero_add, (by omega : 3 * 0 + b = b)]
    rfl
  | j + 1, hk, fuel, b, T, A => by
    have hstep := chain_step_descend (by omega : 1 ≤ j + 1) hk
      (fun x => if j + 1 ≤ x then topo_sort_status.CURRENTLY_PROCESSING
        else topo_sort_status.NOT_VISITED)
      (by show (if j + 1 ≤ j + 1 - 1 then topo_sort_status.CURRENTLY_PROCESSING
            else topo_sort_status.NOT_VISITED) = topo_sort_status.NOT_VISITED
          rw [if_neg (by omega : ¬j + 1 ≤ j + 1 - 1)])
      (chainFrames (j + 2) (k - 1 - (j + 1))) T A (3 * j + b)
    simp only [Nat.add_sub_cancel] at hstep
    rw [(by omega : (j + 1) + fuel = (j + fuel) + 1),
        (by omega : 3 * (j + 1) + b = (3 * j + b) + 3)]
    rw [dfsLoop_step hstep rfl]
    have hnetc : chainNetSt k
        (fun x => if x = j then topo_sort_status.CURRENTLY_PROCESSING
          else if j + 1 ≤ x then topo_sort_status.CURRENTLY_PROCESSING
          else topo_sort_status.NOT_VISITED) =
        chainNetSt k (fun x => if j ≤ x then topo_sort_status.CURRENTLY_PROCESSING
          else topo_sort_status.NOT_VISITED) := by
      refine chainNetSt_congr (fun x _ => ?_)
      by_cases hxj : x = j
      · rw [if_pos hxj, if_pos (by omega : j ≤ x)]
      · rw [if_neg hxj]
        by_cases h2 : j ≤ x
        · rw [if_pos (by omega : j + 1 ≤ x), if_pos h2]
        · rw [if_neg (by omega : ¬j + 1 ≤ x), if_neg h2]
    rw [hnetc]
    have hfr : (⟨j + 1, 1⟩ : dfs_info) :: chainFrames (j + 2) (k - 1 - (j + 1)) =
        chainFrames (j + 1) (k - 1 - j) := by
      unfold chainFrames
      rw [(by omega : k - 1 - j = (k - 1 - (j + 1)) + 1), List.range'_succ]
      rfl
    rw [hfr]
    rw [chain_descend j (by omega) fuel b T (j :: A)]
    rw [(by rw [List.range_succ, List.append_assoc]; rfl :
      List.range j ++ (j :: A) = List.range (j + 1) ++ A)]

set_option maxHeartbeats 1000000 in
theorem chain_unwind {k : Nat} : ∀ (d m : Nat), m + d = k → ∀ (fuel b : Nat)
    (T A : List Nat),
    dfsLoop (2 * d + fuel)
      ⟨chainNetSt k (fun x => if x < m then topo_sort_status.VISITED
          else topo_sort_status.CURRENTLY_PROCESSING),
       chainFrames m d, T, A, 2 * d + b⟩ =
    dfsLoop fuel
      ⟨chainNetSt k (fun x => if x < k then topo_sort_status.VISITED
          else topo_sort_status.CURRENTLY_PROCESSING),
       [], (List.range' m d).reverse ++ T, A, b⟩
  | 0, m, hm, fuel, b, T, A => by
    rw [(by omega : 2 * 0 + fuel = fuel), (by omega : 2 * 0 + b = b)]
    have hnetc : chainNetSt k (fun x => if x < m then topo_sort_status.VISITED
        else topo_sort_status.CURRENTLY_PROCESSING) =
        chainNetSt k (fun x => if x < k then topo_sort_status.VISITED
          else topo_sort_status.CURRENTLY_PROCESSING) := by
      refine chainNetSt_congr (fun x hx => ?_)
      rw [if_pos (by omega : x < m), if_pos hx]
    rw [hnetc]
    rfl
  | d + 1, m, hm, fuel, b, T, A => by
    have hmk : m < k := by omega
    have hfr : chainFrames m (d + 1) = (⟨m, 1⟩ : dfs_info) :: chainFrames (m + 1) d := by
      unfold chainFrames
      rw [List.range'_succ]
      rfl
    rw [hfr, (by omega : 2 * (d + 1) + fuel = ((2 * d + fuel) + 1) + 1),
        (by omega : 2 * (d + 1) + b = ((2 * d + b) + 1) + 1)]
    rw [dfsLoop_step (chain_step_signal hmk (by omega)
      (by rw [chainGate_getInput1])
      (fun x => if x < m then topo_sort_status.VISITED
        else topo_sort_status.CURRENTLY_PROCESSING)
      (chainFrames (m + 1) d) T A ((2 * d + b) + 1)) rfl]
    rw [dfsLoop_step (chain_step_pop hmk
      (fun x => if x < m then topo_sort_status.VISITED
        else topo_sort_status.CURRENTLY_PROCESSING)
      (chainFrames (m + 1) d) T A (2 * d + b)) rfl]
    have hnetc : chainNetSt k (fun x => if x = m then topo_sort_status.VISITED
        else if x < m then topo_sort_status.VISITED
        else topo_sort_status.CURRENTLY_PROCESSING) =
        chainNetSt k (fun x => if x < m + 1 then topo_sort_status.VISITED
          else topo_sort_status.CURRENTLY_PROCESSING) := by
      refine chainNetSt_congr (fun x _ => ?_)
      by_cases hxm : x = m
      · rw [if_pos hxm, if_pos (by omega : x < m + 1)]
      · rw [if_neg hxm]
        by_cases h2 : x < m
        · rw [if_pos h2, if_pos (by omega : x < m + 1)]
        · rw [if_neg h2, if_neg (by omega : ¬x < m + 1)]
    rw [hnetc]
    rw [chain_unwind d (m + 1) (by omega) fuel b (m :: T) A]
    rw [(by rw [List.range'_succ, List.reverse_cons, List.append_assoc]; rfl :
      (List.range' (m + 1) d).reverse ++ (m :: T) = (List.range' m (d + 1)).reverse ++ T)]

theorem clearGatesLoop_length : ∀ (A : List Nat) (net : Network),
    (clearGatesLoop A net).gates.length = net.gates.length
  | [], _ => rfl
  | h :: rest, net => by
    rw [clearGatesLoop, clearGatesLoop_length rest, Network.length_modifyGate]

theorem network_ext {x y : Network} (hlen : x.gates.length = y.gates.length)
    (hg : ∀ u, x.getGate u = y.getGate u) : x = y := by
  cases x with
  | mk l1 =>
    cases y with
    | mk l2 =>
      congr 1
      apply List.ext_getElem?
      intro u
      by_cases hu : u < l1.length
      · have hlen2 : l1.length = l2.length := hlen
        have hu2 : u < l2.length := by omega
        rw [List.getElem?_eq_getElem hu, List.getElem?_eq_getElem hu2]
        have h2 := hg u
        rw [Network.getGate_eq, Network.getGate_eq] at h2
        show some l1[u] = some l2[u]
        rw [List.getElem?_eq_getElem hu, List.getElem?_eq_getElem hu2] at h2
        cases hq1 : l1[u] with
        | none =>
          cases hq2 : l2[u] with
          | none => rfl
          | some g2 =>
            rw [hq1, hq2] at h2
            cases h2
        | some g1 =>
          cases hq2 : l2[u] with
          | none =>
            rw [hq1, hq2] at h2
            cases h2
          | some g2 =>
            rw [hq1, hq2] at h2
            have h3 : some g1 = some g2 := h2
            injection h3 with h4
            rw [h4]
      · have hlen2 : l1.length = l2.length := hlen
        rw [List.getElem?_eq_none (by omega),
            List.getElem?_eq_none (by omega)]

theorem clearGatesLoop_getGate_mem {A : List Nat} {net : Network} {u : Nat}
    (hmem : u ∈ A) :
    (clearGatesLoop A net).getGate u =
      (net.getGate u).map (fun g => { g with status := topo_sort_status.NOT_VISITED }) := by
  rw [clearGatesLoop_getGate]
  cases hg : net.getGate u with
  | none => rfl
  | some g =>
    show some (if u ∈ A then { g with status := topo_sort_status.NOT_VISITED } else g) =
      some { g with status := topo_sort_status.NOT_VISITED }
    rw [if_pos hmem]

set_option maxHeartbeats 1600000 in
theorem chain_topo_sort {k : Nat} (hk : 1 ≤ k) :
    topo_sort (3 * k) (chainNet k) [k - 1] (5 * k + 2) =
      some (none, List.range k, chainNet k) := by
  have hcn : chainNet k = chainNetSt k (fun _ => topo_sort_status.NOT_VISITED) := rfl
  unfold topo_sort
  dsimp only
  rw [hcn]
  rw [(by omega : 5 * k = (5 * k - 2) + 1 + 1)]
  simp only [topoSortLoop]
  rw [chainNetSt_gateD _ (by omega : k - 1 < k)]
  rw [if_neg (fun hc : topo_sort_status.NOT_VISITED = topo_sort_status.VISITED =>
    by cases hc)]
  unfold topo_sort_dfs
  dsimp only
  rw [chainNetSt_modify _ (by omega : k - 1 < k)]
  have hnetc : chainNetSt k
      (fun x => if x = k - 1 then topo_sort_status.CURRENTLY_PROCESSING
        else topo_sort_status.NOT_VISITED) =
      chainNetSt k (fun x => if k - 1 ≤ x then topo_sort_status.CURRENTLY_PROCESSING
        else topo_sort_status.NOT_VISITED) := by
    refine chainNetSt_congr (fun x hx => ?_)
    by_cases hxk : x = k - 1
    · rw [if_pos hxk, if_pos (by omega : k - 1 ≤ x)]
    · rw [if_neg hxk, if_neg (by omega : ¬k - 1 ≤ x)]
  rw [hnetc]
  have hfr0 : ((⟨k - 1, 0⟩ : dfs_info) :: ([] : List dfs_info)) =
      (⟨k - 1, 0⟩ : dfs_info) :: chainFrames (k - 1 + 1) (k - 1 - (k - 1)) := by
    unfold chainFrames
    rw [(by omega : k - 1 - (k - 1) = 0)]
    rfl
  rw [hfr0]
  rw [(by omega : 3 * k = (k - 1) + (2 * k + 1)),
      (by omega : 5 * k - 2 = 3 * (k - 1) + (2 * k + 1))]
  rw [chain_descend (k - 1) (by omega) (2 * k + 1) (2 * k + 1) [] [k - 1]]
  rw [dfsLoop_step (chain_step_signal (by omega : 0 < k) (by omega)
    (by rw [chainGate_getInput0_zero])
    (fun x => if 0 ≤ x then topo_sort_status.CURRENTLY_PROCESSING
      else topo_sort_status.NOT_VISITED)
    (chainFrames 1 (k - 1)) [] (List.range (k - 1) ++ [k - 1]) (2 * k)) rfl]
  have hfr1 : ((⟨0, 1⟩ : dfs_info) :: chainFrames 1 (k - 1)) = chainFrames 0 k := by
    unfold chainFrames
    rw [(by omega : k = (k - 1) + 1), List.range'_succ]
    rfl
  rw [hfr1]
  have hnetc2 : chainNetSt k
      (fun x => if 0 ≤ x then topo_sort_status.CURRENTLY_PROCESSING
        else topo_sort_status.NOT_VISITED) =
      chainNetSt k (fun x => if x < 0 then topo_sort_status.VISITED
        else topo_sort_status.CURRENTLY_PROCESSING) := by
    refine chainNetSt_congr (fun x _ => ?_)
    rw [if_pos (by omega : 0 ≤ x), if_neg (by omega : ¬x < 0)]
  rw [hnetc2]
  rw [(by omega : 2 * k = 2 * k + 0)]
  rw [chain_unwind k 0 (by omega) 0 0 [] (List.range (k - 1) ++ [k - 1])]
  rw [dfsLoop_empty rfl]
  simp only [topoSortLoop]
  have htp : (((List.range' 0 k).reverse ++ ([] : List Nat))).reverse = List.range k := by
    rw [List.append_nil, List.reverse_reverse, ← List.range_eq_range']
  have hA : ∀ u, u < k → u ∈ List.range (k - 1) ++ [k - 1] := by
    intro u hu
    rw [List.mem_append, List.mem_range]
    by_cases hu2 : u < k - 1
    · exact Or.inl hu2
    · refine Or.inr ?_
      have he : u = k - 1 := by omega
      rw [he]
      exact List.mem_cons_self _ _
  have hclr : clearGatesLoop (List.range (k - 1) ++ [k - 1])
      (chainNetSt k (fun x => if x < k then topo_sort_status.VISITED
        else topo_sort_status.CURRENTLY_PROCESSING)) =
      chainNetSt k (fun _ => topo_sort_status.NOT_VISITED) := by
    refine network_ext ?_ ?_
    · rw [clearGatesLoop_length]
      show ((List.range k).map _).length = ((List.range k).map _).length
      rw [List.length_map, List.length_map]
    · intro u
      by_cases hu : u < k
      · rw [clearGatesLoop_getGate_mem (hA u hu), chainNetSt_getGate, if_pos hu,
            if_pos hu, chainNetSt_getGate, if_pos hu]
        rfl
      · rw [clearGatesLoop_getGate, chainNetSt_getGate, chainNetSt_getGate,
            if_neg hu, if_neg hu]
        rfl
  rw [htp, hclr]

/-! The spec's critical-path formula on concrete slot shapes, and the static
facts about the chain network needed for the critical-path claim. -/

theorem specCrit_eq_fold (net : Network) (g : nand_t) :
    specCrit net g = g.inputs.foldl (specCritStep net) 0 := rfl

theorem specCritStep_gate (net : Network) (m : Int) (hs ind : Nat) :
    specCritStep net m ⟨ptr_t.gate hs, input_type.NAND_GATE_INPUT, ind⟩ =
      max m ((net.gateD hs).crit_path_len + 1) := rfl

theorem specCritStep_sig (net : Network) (m : Int) (sid ind : Nat) :
    specCritStep net m ⟨ptr_t.sig sid, input_type.BOOLEAN_SIGNAL_INPUT, ind⟩ =
      max m 1 := rfl

theorem specCritStep_bool {inf : in_info}
    (hty : inf.type = input_type.BOOLEAN_SIGNAL_INPUT) (net : Network) (m : Int) :
    specCritStep net m inf = max m 1 := by
  unfold specCritStep
  rw [hty]

theorem specCrit_fold_bool (net : Network) :
    ∀ (l : List in_info) (m : Int),
      (∀ inf ∈ l, inf.type = input_type.BOOLEAN_SIGNAL_INPUT) → 1 ≤ m →
      l.foldl (specCritStep net) m = m
  | [], _, _, _ => rfl
  | a :: rest, m, hb, hm => by
    rw [List.foldl_cons, specCritStep_bool (hb a (List.mem_cons_self _ _)) net m,
        max_eq_left hm]
    exact specCrit_fold_bool net rest m
      (fun inf hi => hb inf (List.mem_cons_of_mem _ hi)) hm

theorem specCrit_nil (net : Network) (g : nand_t) (h : g.inputs = []) :
    specCrit net g = 0 := by
  rw [specCrit_eq_fold, h]
  rfl

theorem specCrit_all_bool (net : Network) (g : nand_t) (hne : g.inputs ≠ [])
    (hb : ∀ inf ∈ g.inputs, inf.type = input_type.BOOLEAN_SIGNAL_INPUT) :
    specCrit net g = 1 := by
  rw [specCrit_eq_fold]
  cases hl : g.inputs with
  | nil => exact absurd hl hne
  | cons a rest =>
    rw [hl] at hb
    rw [List.foldl_cons, specCritStep_bool (hb a (List.mem_cons_self _ _)) net 0,
        (by decide : max (0 : Int) 1 = 1)]
    exact specCrit_fold_bool net rest 1
      (fun inf hi => hb inf (List.mem_cons_of_mem _ hi)) le_rfl

theorem chainGate_inputs_zero (k : Nat) :
    (chainGate k 0).inputs =
      [⟨ptr_t.sig 0, input_type.BOOLEAN_SIGNAL_INPUT, 0⟩,
       ⟨ptr_t.sig 0, input_type.BOOLEAN_SIGNAL_INPUT, 0⟩] := by
  unfold chainGate
  dsimp only
  rw [if_pos rfl]

theorem chainGate_inputs_pos {j : Nat} (hj : j ≠ 0) (k : Nat) :
    (chainGate k j).inputs =
      [⟨ptr_t.gate (j - 1), input_type.NAND_GATE_INPUT, 0⟩,
       ⟨ptr_t.sig 0, input_type.BOOLEAN_SIGNAL_INPUT, 0⟩] := by
  unfold chainGate
  dsimp only
  rw [if_neg hj]

theorem chainGate_outputs_last {k j : Nat} (hj : j + 1 = k) :
    (chainGate k j).outputs = [] := by
  unfold chainGate
  dsimp only
  rw [if_pos hj]

theorem chainGate_outputs_mid {k j : Nat} (hj : ¬(j + 1 = k)) :
    (chainGate k j).outputs = [⟨j + 1, 0⟩] := by
  unfold chainGate
  dsimp only
  rw [if_neg hj]

theorem chainNet_getGate (k u : Nat) :
    (chainNet k).getGate u = if u < k then some (chainGate k u) else none := by
  rw [Network.getGate_eq]
  unfold chainNet
  dsimp only
  by_cases hu : u < k
  · rw [if_pos hu, List.getElem?_map, List.getElem?_range hu]
    rfl
  · rw [if_neg hu,
        List.getElem?_eq_none (by rw [List.length_map, List.length_range]; omega)]
    rfl

theorem chainNet_gateD {k u : Nat} (hu : u < k) :
    (chainNet k).gateD u = chainGate k u := by
  rw [Network.gateD, chainNet_getGate, if_pos hu]
  rfl

theorem chainNet_atRest (k : Nat) : AtRestP (chainNet k) := by
  intro h g hg
  rw [chainNet_getGate] at hg
  by_cases hh : h < k
  · rw [if_pos hh] at hg
    injection hg with hg
    rw [← hg]
    rfl
  · rw [if_neg hh] at hg
    cases hg

theorem chainNet_wf (k : Nat) : WfP (chainNet k) := by
  constructor
  · intro t gt k2 inf hgt hinf
    rw [chainNet_getGate] at hgt
    by_cases ht : t < k
    · rw [if_pos ht] at hgt
      injection hgt with hgt
      subst hgt
      by_cases ht0 : t = 0
      · subst ht0
        rw [chainGate_inputs_zero] at hinf
        cases k2 with
        | zero =>
          rw [List.getElem?_cons_zero] at hinf
          injection hinf with hinf
          subst hinf
          refine ⟨?_, ?_, ?_⟩
          · intro hc
            cases hc
          · intro _
            exact ⟨0, rfl⟩
          · intro hc
            cases hc
        | succ k3 =>
          cases k3 with
          | zero =>
            rw [List.getElem?_cons_succ, List.getElem?_cons_zero] at hinf
            injection hinf with hinf
            subst hinf
            refine ⟨?_, ?_, ?_⟩
            · intro hc
              cases hc
            · intro _
              exact ⟨0, rfl⟩
            · intro hc
              cases hc
          | succ k4 =>
            rw [List.getElem?_cons_succ, List.getElem?_cons_succ,
                List.getElem?_nil] at hinf
            cases hinf
      · rw [chainGate_inputs_pos ht0 k] at hinf
        cases k2 with
        | zero =>
          rw [List.getElem?_cons_zero] at hinf
          injection hinf with hinf
          subst hinf
          refine ⟨?_, ?_, ?_⟩
          · intro hc
            cases hc
          · intro hc
            cases hc
          · intro _
            refine ⟨t - 1, chainGate k (t - 1), rfl, ?_, ?_⟩
            · rw [chainNet_getGate, if_pos (by omega : t - 1 < k)]
            · show (chainGate k (t - 1)).outputs[(0 : Nat)]? = some ⟨t, 0⟩
              rw [chainGate_outputs_mid (by omega : ¬(t - 1 + 1 = k)),
                  (by omega : t - 1 + 1 = t)]
              rfl
        | succ k3 =>
          cases k3 with
          | zero =>
            rw [List.getElem?_cons_succ, List.getElem?_cons_zero] at hinf
            injection hinf with hinf
            subst hinf
            refine ⟨?_, ?_, ?_⟩
            · intro hc
              cases hc
            · intro _
              exact ⟨0, rfl⟩
            · intro hc
              cases hc
          | succ k4 =>
            rw [List.getElem?_cons_succ, List.getElem?_cons_succ,
                List.getElem?_nil] at hinf
            cases hinf
    · rw [if_neg ht] at hgt
      cases hgt
  · intro s gs i oi hgs houts
    rw [chainNet_getGate] at hgs
    by_cases hs : s < k
    · rw [if_pos hs] at hgs
      injection hgs with hgs
      subst hgs
      by_cases hsk : s + 1 = k
      · rw [chainGate_outputs_last hsk, List.getElem?_nil] at houts
        cases houts
      · rw [chainGate_outputs_mid hsk] at houts
        cases i with
        | zero =>
          rw [List.getElem?_cons_zero] at houts
          injection houts with houts
          subst houts
          refine ⟨chainGate k (s + 1),
            ⟨ptr_t.gate s, input_type.NAND_GATE_INPUT, 0⟩, ?_, ?_, rfl, rfl, rfl⟩
          · show (chainNet k).getGate (s + 1) = some (chainGate k (s + 1))
            rw [chainNet_getGate, if_pos (by omega : s + 1 < k)]
          · show (chainGate k (s + 1)).inputs[(0 : Nat)]? =
              some ⟨ptr_t.gate s, input_type.NAND_GATE_INPUT, 0⟩
            rw [chainGate_inputs_pos (by omega : ¬(s + 1 = 0)) k,
                (by omega : s + 1 - 1 = s)]
            rfl
        | succ i2 =>
          rw [List.getElem?_cons_succ, List.getElem?_nil] at houts
          cases houts
    · rw [if_neg hs] at hgs
      cases hgs

theorem chain_crit {k : Nat} (sigs : Nat → Bool)
    (htopo : TopoOk (chainNet k) (List.range k).reverse) :
    ∀ j, j < k →
      ((evaluate_sorted (chainNet k) sigs (List.range k)).gateD j).crit_path_len =
        (j : Int) + 1 := by
  intro j
  induction j with
  | zero =>
    intro hj
    have heqn := (evaluate_sorted_eqn sigs (chainNet_wf k) (List.nodup_range k) htopo
      (List.mem_range.mpr hj) (by rw [chainNet_getGate, if_pos hj]; rfl)).2
    rw [heqn]
    have hinp : ((evaluate_sorted (chainNet k) sigs (List.range k)).gateD 0).inputs =
        (chainGate k 0).inputs := by
      rw [(evaluate_sorted_shape sigs (List.range k) (chainNet k) 0).2.1,
          chainNet_gateD hj]
    refine (specCrit_all_bool _ _ ?_ ?_).trans (by norm_num)
    · rw [hinp, chainGate_inputs_zero]
      intro hc
      cases hc
    · rw [hinp, chainGate_inputs_zero]
      intro inf hi
      cases hi with
      | head => rfl
      | tail _ hi2 =>
        cases hi2 with
        | head => rfl
        | tail _ hi3 => cases hi3
  | succ j2 ih =>
    intro hj
    have hcrit2 := ih (by omega)
    have heqn := (evaluate_sorted_eqn sigs (chainNet_wf k) (List.nodup_range k) htopo
      (List.mem_range.mpr hj) (by rw [chainNet_getGate, if_pos hj]; rfl)).2
    rw [heqn]
    have hinp :
        ((evaluate_sorted (chainNet k) sigs (List.range k)).gateD (j2 + 1)).inputs =
        (chainGate k (j2 + 1)).inputs := by
      rw [(evaluate_sorted_shape sigs (List.range k) (chainNet k) (j2 + 1)).2.1,
          chainNet_gateD hj]
    rw [specCrit_eq_fold, hinp, chainGate_inputs_pos (by omega : ¬(j2 + 1 = 0)) k,
        (by omega : j2 + 1 - 1 = j2), List.foldl_cons, specCritStep_gate,
        hcrit2, List.foldl_cons, specCritStep_sig, List.foldl_nil,
        max_eq_right (by omega : (0 : Int) ≤ (j2 : Int) + 1 + 1),
        max_eq_left (by omega : (1 : Int) ≤ (j2 : Int) + 1 + 1)]
    push_cast
    ring

theorem chain_eval {k : Nat} (hk : 1 ≤ k) (sigs : Nat → Bool) :
    nand_evaluate_all (chainNet k) sigs [k - 1] (3 * k) (5 * k + 3) =
      some (Except.ok ((k : Int),
        [((evaluate_sorted (chainNet k) sigs (List.range k)).gateD (k - 1)).signal]),
        evaluate_sorted (chainNet k) sigs (List.range k)) ∧
    ((evaluate_sorted (chainNet k) sigs (List.range k)).gateD (k - 1)).crit_path_len =
      (k : Int) := by
  have hts := chain_topo_sort hk
  have hlv : ∀ g, g ∈ [k - 1] → ((chainNet k).getGate g).isSome = true := by
    intro g hg
    rw [List.mem_singleton] at hg
    subst hg
    rw [chainNet_getGate, if_pos (by omega : k - 1 < k)]
    rfl
  obtain ⟨-, hrest⟩ := topo_sort_spec (chainNet_wf k) (chainNet_atRest k)
    (3 * k) (5 * k + 2) [k - 1] hlv hts
  obtain ⟨hnd, htopo, -, -⟩ := hrest rfl
  have hcritk :
      ((evaluate_sorted (chainNet k) sigs (List.range k)).gateD (k - 1)).crit_path_len =
      (k : Int) := by
    rw [chain_crit sigs htopo (k - 1) (by omega)]
    omega
  refine ⟨?_, hcritk⟩
  unfold nand_evaluate_all
  dsimp only
  rw [hts]
  dsimp only
  rw [List.foldl_cons, List.foldl_nil, hcritk,
      if_pos (by omega : (0 : Int) < (k : Int)), List.map_cons, List.map_nil]

/-- Claim C3: in every successful evaluate call each requested gate's
critical-path length equals the spec's formula (the maximum over its slots
of 1 for an external-signal slot and source critical path + 1 for a
gate-source slot, starting from 0); in particular it is 0 when the gate has
no slots and exactly 1 when the gate has at least one slot, all of them
external signals; and for a chain of k gates, each feeding slot 0 of the
next with the other slot tied to an external signal, the final gate's
critical-path length is exactly k. -/
theorem claim_C3_critical_path_formula_and_chain :
    (∀ (net : Network) (sigs : Nat → Bool) (gs : List Nat) (fuel budget : Nat)
       (l : Int) (s : List Bool) (net2 : Network),
      Wf net = true → AtRest net = true →
      gs.all (fun h => (net.getGate h).isSome) = true →
      nand_evaluate_all net sigs gs fuel budget = some (Except.ok (l, s), net2) →
      ∀ h, h ∈ gs →
        (net2.gateD h).crit_path_len = specCrit net2 (net2.gateD h) ∧
        ((net2.gateD h).inputs = [] → (net2.gateD h).crit_path_len = 0) ∧
        ((net2.gateD h).inputs ≠ [] →
          (∀ inf ∈ (net2.gateD h).inputs,
            inf.type = input_type.BOOLEAN_SIGNAL_INPUT) →
          (net2.gateD h).crit_path_len = 1)) ∧
    (∀ (k : Nat), 1 ≤ k → ∀ sigs : Nat → Bool,
      ∃ (s : List Bool) (net2 : Network),
      nand_evaluate_all (chainNet k) sigs [k - 1] (3 * k) (5 * k + 3) =
        some (Except.ok ((k : Int), s), net2) ∧
      (net2.gateD (k - 1)).crit_path_len = (k : Int)) := by
  constructor
  · intro net sigs gs fuel budget l s net2 hwf hat hlv hp h hg
    rw [List.all_eq_true] at hlv
    obtain ⟨order, hnd, htopo, hgsub, holive, hnet2, -, -⟩ :=
      nand_evaluate_all_spec ((Wf_iff net).mp hwf) ((AtRest_iff net).mp hat)
        sigs gs fuel budget hlv hp
    have hc : (net2.gateD h).crit_path_len = specCrit net2 (net2.gateD h) := by
      rw [hnet2]
      exact (evaluate_sorted_eqn sigs ((Wf_iff net).mp hwf) hnd htopo
        (hgsub h hg) (holive h (hgsub h hg))).2
    refine ⟨hc, ?_, ?_⟩
    · intro hnil
      rw [hc]
      exact specCrit_nil _ _ hnil
    · intro hne hb
      rw [hc]
      exact specCrit_all_bool _ _ hne hb
  · intro k hk sigs
    exact ⟨_, _, (chain_eval hk sigs).1, (chain_eval hk sigs).2⟩

theorem claim_C3_witness :
    (Wf exNet = true ∧ AtRest exNet = true ∧ (1 : Nat) ≤ 2) ∧
    ((exEvalNet.gateD 0).crit_path_len = specCrit exEvalNet (exEvalNet.gateD 0)) ∧
    (∃ (s : List Bool) (net2 : Network),
      nand_evaluate_all (chainNet 2) (fun _ => true) [2 - 1] (3 * 2) (5 * 2 + 3) =
        some (Except.ok (((2 : Nat) : Int), s), net2) ∧
      (net2.gateD (2 - 1)).crit_path_len = ((2 : Nat) : Int)) :=
  ⟨⟨by decide, by decide, by decide⟩,
   ((claim_C3_critical_path_formula_and_chain.1 exNet (fun _ => true) [0] 9 9 1 [false]
      exEvalNet (by decide) (by decide) (by decide) rfl) 0 (by decide)).1,
   claim_C3_critical_path_formula_and_chain.2 2 (by decide) (fun _ => true)⟩

/-- Claim C4, amended: evaluating a gate wired to its own output fails, and
evaluating a gate with an Empty input slot fails, but the code reports both
causes through the same error value `ECANCELED` (nand.c lines 209 and 261),
so the two failure causes are explicitly reported yet NOT distinguishable by
the caller, contrary to the claim's distinctness part. -/
theorem claim_C4_cycle_and_empty_slot_errors :
    (∃ net2, nand_evaluate_all selfLoopNet (fun _ => true) [0] 9 9 =
       some (Except.error Err.ECANCELED, net2)) ∧
    (∃ net2, nand_evaluate_all emptySlotNet (fun _ => true) [0] 9 9 =
       some (Except.error Err.ECANCELED, net2)) :=
  ⟨⟨_, rfl⟩, ⟨_, rfl⟩⟩

/-- Counterexample to the distinctness part of claim C4: a direct self-loop
and an empty input slot make `nand_evaluate_all` fail with literally equal
error values, so the caller cannot tell the two causes apart. -/
theorem claim_C4_counterexample_conflated :
    ∃ (e1 e2 : Err) (net2a net2b : Network),
      nand_evaluate_all selfLoopNet (fun _ => true) [0] 9 9 =
        some (Except.error e1, net2a) ∧
      nand_evaluate_all emptySlotNet (fun _ => true) [0] 9 9 =
        some (Except.error e2, net2b) ∧
      e1 = e2 :=
  ⟨Err.ECANCELED, Err.ECANCELED, _, _, rfl, rfl, rfl⟩

/-! Restoration and idempotence of `evaluate`. -/

theorem specCritStep_congr_net {x y : Network} {inf : in_info}
    (hcrit : ∀ hs, inf.type = input_type.NAND_GATE_INPUT →
      inf.ptr = ptr_t.gate hs →
      (x.gateD hs).crit_path_len = (y.gateD hs).crit_path_len) (m : Int) :
    specCritStep x m inf = specCritStep y m inf := by
  unfold specCritStep
  cases hty : inf.type with
  | NAND_GATE_INPUT =>
    cases hptr : inf.ptr with
    | gate hs =>
      show max m ((x.gateD hs).crit_path_len + 1) = max m ((y.gateD hs).crit_path_len + 1)
      rw [hcrit hs hty hptr]
    | null => rfl
    | sig sid => rfl
  | EMPTY_INPUT => cases hptr : inf.ptr <;> rfl
  | BOOLEAN_SIGNAL_INPUT => cases hptr : inf.ptr <;> rfl

theorem AtRestP_evaluate_sorted (sigs : Nat → Bool) (order : List Nat) {net : Network}
    (hat : AtRestP net) : AtRestP (evaluate_sorted net sigs order) := by
  intro h g hg
  have hsh := evaluate_sorted_shape sigs order net h
  have hgd : (evaluate_sorted net sigs order).gateD h = g :=
    Network.gateD_eq_of_getGate hg
  rw [← hgd, hsh.2.2.2]
  have hlv : (net.getGate h).isSome = true := by
    rw [← hsh.1, hg]
    rfl
  cases hq : net.getGate h with
  | none =>
    rw [hq] at hlv
    cases hlv
  | some g0 =>
    rw [Network.gateD_eq_of_getGate hq]
    exact hat h g0 hq

theorem WfP_of_shape {x y : Network}
    (hsome : ∀ u, (y.getGate u).isSome = (x.getGate u).isSome)
    (hinp : ∀ u, (y.gateD u).inputs = (x.gateD u).inputs)
    (hout : ∀ u, (y.gateD u).outputs = (x.gateD u).outputs)
    (hwf : WfP x) : WfP y := by
  have hlift : ∀ t (gt : nand_t), y.getGate t = some gt →
      ∃ gx, x.getGate t = some gx ∧ gt.inputs = gx.inputs ∧ gt.outputs = gx.outputs := by
    intro t gt hgt
    have h1 : (x.getGate t).isSome = true := by
      rw [← hsome, hgt]
      rfl
    cases hq : x.getGate t with
    | none =>
      rw [hq] at h1
      cases h1
    | some gx =>
      refine ⟨gx, rfl, ?_, ?_⟩
      · have h2 := hinp t
        rw [Network.gateD_eq_of_getGate hgt, Network.gateD_eq_of_getGate hq] at h2
        exact h2
      · have h2 := hout t
        rw [Network.gateD_eq_of_getGate hgt, Network.gateD_eq_of_getGate hq] at h2
        exact h2
  have hliftx : ∀ t (gx : nand_t), x.getGate t = some gx →
      ∃ gy, y.getGate t = some gy ∧ gy.inputs = gx.inputs ∧ gy.outputs = gx.outputs := by
    intro t gx hgx
    have h1 : (y.getGate t).isSome = true := by
      rw [hsome, hgx]
      rfl
    cases hq : y.getGate t with
    | none =>
      rw [hq] at h1
      cases h1
    | some gy =>
      obtain ⟨gx2, hgx2, hi, ho⟩ := hlift t gy hq
      rw [hgx] at hgx2
      injection hgx2 with hgx2
      subst hgx2
      exact ⟨gy, rfl, hi, ho⟩
  constructor
  · intro t gt k inf hgt hinf
    obtain ⟨gx, hgx, hie, _⟩ := hlift t gt hgt
    obtain ⟨c1, c2, c3⟩ := hwf.1 t gx k inf hgx (by rw [← hie]; exact hinf)
    refine ⟨c1, c2, ?_⟩
    intro hty
    obtain ⟨s, gs0, hptr, hgs0, hrec⟩ := c3 hty
    obtain ⟨gy, hgy, _, hoe⟩ := hliftx s gs0 hgs0
    exact ⟨s, gy, hptr, hgy, by rw [hoe]; exact hrec⟩
  · intro s gs0 i oi hgs0 houts
    obtain ⟨gx, hgx, _, hoe⟩ := hlift s gs0 hgs0
    obtain ⟨gt, inf, hgt, hinf, hty, hptr, hind⟩ :=
      hwf.2 s gx i oi hgx (by rw [← hoe]; exact houts)
    obtain ⟨gy, hgy, hie, _⟩ := hliftx oi.gate gt hgt
    exact ⟨gy, inf, hgy, by rw [hie]; exact hinf, hty, hptr, hind⟩

theorem nand_evaluate_all_err {net : Network} (hwf : WfP net) (hat : AtRestP net)
    (sigs : Nat → Bool) (gs : List Nat) (fuel budget : Nat)
    (hlv : ∀ g, g ∈ gs → (net.getGate g).isSome = true)
    {e : Err} {net2 : Network}
    (hp : nand_evaluate_all net sigs gs fuel budget = some (Except.error e, net2)) :
    net2 = net := by
  unfold nand_evaluate_all at hp
  cases hb : budget with
  | zero =>
    rw [hb] at hp
    dsimp only at hp
    injection hp with h1
    injection h1 with _ hn
    exact hn.symm
  | succ b =>
    rw [hb] at hp
    dsimp only at hp
    cases hts : topo_sort fuel net gs b with
    | none =>
      rw [hts] at hp
      cases hp
    | some tr =>
      obtain ⟨e2, order, net1⟩ := tr
      rw [hts] at hp
      cases e2 with
      | some err =>
        dsimp only at hp
        injection hp with h1
        injection h1 with _ hn
        rw [← hn]
        exact (topo_sort_spec hwf hat fuel b gs hlv hts).1
      | none =>
        dsimp only at hp
        injection hp with h1
        injection h1 with he _
        cases he

theorem values_agree (sigs : Nat → Bool) {net2 net3 : Network}
    (hinp : ∀ u, (net3.gateD u).inputs = (net2.gateD u).inputs)
    (o2 : List Nat) (ht2 : TopoOk net2 o2.reverse)
    (E3 : ∀ h, h ∈ o2 →
      (net3.gateD h).signal = specSignal net3 sigs (net3.gateD h) ∧
      (net3.gateD h).crit_path_len = specCrit net3 (net3.gateD h)) :
    ∀ (suff pre : List Nat),
      TopoOk net2 ((pre ++ suff).reverse) →
      (∀ h, h ∈ pre ++ suff →
        (net2.gateD h).signal = specSignal net2 sigs (net2.gateD h) ∧
        (net2.gateD h).crit_path_len = specCrit net2 (net2.gateD h)) →
      (∀ h, h ∈ pre → h ∈ o2 →
        (net3.gateD h).signal = (net2.gateD h).signal ∧
        (net3.gateD h).crit_path_len = (net2.gateD h).crit_path_len) →
      ∀ h, h ∈ suff → h ∈ o2 →
        (net3.gateD h).signal = (net2.gateD h).signal ∧
        (net3.gateD h).crit_path_len = (net2.gateD h).crit_path_len
  | [], _, _, _, _, h, hmem, _ => absurd hmem (List.not_mem_nil h)
  | hh :: rest, pre, ht1, E2, Hpre, h, hmem, hino2 => by
    have hagree : hh ∈ o2 →
        (net3.gateD hh).signal = (net2.gateD hh).signal ∧
        (net3.gateD hh).crit_path_len = (net2.gateD hh).crit_path_len := by
      intro hh2
      have hrev1 : (pre ++ hh :: rest).reverse = rest.reverse ++ hh :: pre.reverse := by
        rw [List.reverse_append, List.reverse_cons, List.append_assoc]
        rfl
      have hext1 := TopoOk_extract rest.reverse hh pre.reverse (hrev1 ▸ ht1)
      obtain ⟨a, b, ho2eq⟩ := List.append_of_mem hh2
      have hrev2 : o2.reverse = b.reverse ++ hh :: a.reverse := by
        rw [ho2eq, List.reverse_append, List.reverse_cons, List.append_assoc]
        rfl
      have hext2 := TopoOk_extract b.reverse hh a.reverse (hrev2 ▸ ht2)
      have hsl : ∀ inf, inf ∈ (net2.gateD hh).inputs →
          ∀ hs, inf.type = input_type.NAND_GATE_INPUT → inf.ptr = ptr_t.gate hs →
          hs ∈ pre ∧ hs ∈ o2 := by
        intro inf hinm hs hty hptr
        obtain ⟨k, hk, hke⟩ := List.getElem_of_mem hinm
        have hki : (net2.gateD hh).getInput k = inf :=
          nand_t.getInput_eq_of_getElem (by rw [List.getElem?_eq_getElem hk, hke])
        have h1 := (hext1 k hk).2 hs (by rw [hki]; exact hty) (by rw [hki]; exact hptr)
        have h2 := (hext2 k hk).2 hs (by rw [hki]; exact hty) (by rw [hki]; exact hptr)
        refine ⟨List.mem_reverse.mp h1, ?_⟩
        rw [ho2eq]
        exact List.mem_append_left _ (List.mem_reverse.mp h2)
      have hsig : specSignal net3 sigs (net3.gateD hh) =
          specSignal net2 sigs (net2.gateD hh) := by
        unfold specSignal
        rw [hinp hh]
        refine congrArg (fun z => !z) (all_congr_mem _ _ _ ?_)
        intro inf hinm
        refine slotVal_congr_net sigs ?_
        intro hs hty hptr
        obtain ⟨hp1, hp2⟩ := hsl inf hinm hs hty hptr
        exact (Hpre hs hp1 hp2).1
      have hcrit : specCrit net3 (net3.gateD hh) = specCrit net2 (net2.gateD hh) := by
        rw [specCrit_eq_fold, specCrit_eq_fold, hinp hh]
        refine foldl_congr_mem _ _ _ _ ?_
        intro inf hinm acc
        refine specCritStep_congr_net ?_ acc
        intro hs hty hptr
        obtain ⟨hp1, hp2⟩ := hsl inf hinm hs hty hptr
        exact (Hpre hs hp1 hp2).2
      have hE2 := E2 hh (List.mem_append_right pre (List.mem_cons_self _ _))
      have hE3 := E3 hh hh2
      exact ⟨hE3.1.trans (hsig.trans hE2.1.symm),
             hE3.2.trans (hcrit.trans hE2.2.symm)⟩
    cases hmem with
    | head =>
      exact hagree hino2
    | tail _ hmem2 =>
      have hassoc : pre ++ hh :: rest = (pre ++ [hh]) ++ rest := by
        rw [List.append_assoc]
        rfl
      refine values_agree sigs hinp o2 ht2 E3 rest (pre ++ [hh])
        (by rw [← hassoc]; exact ht1) (by rw [← hassoc]; exact E2) ?_ h hmem2 hino2
      intro u hu huo2
      rcases List.mem_append.mp hu with h1 | h1
      · exact Hpre u h1 huo2
      · rw [List.mem_singleton] at h1
        subst h1
        exact hagree huo2

/-- Claim C5: on success and on every failure of an evaluate call starting
from a resting well-formed network, the returned arena is at rest again
(every traversal status is NOT_VISITED); on failure the arena is returned
exactly as it was; and two consecutive evaluate calls on the unchanged
network return identical signal sequences and identical critical-path
results. -/
theorem claim_C5_status_restoration_and_idempotence :
    (∀ (net : Network) (sigs : Nat → Bool) (gs : List Nat) (fuel budget : Nat)
       (r : Except Err (Int × List Bool)) (net2 : Network),
      Wf net = true → AtRest net = true →
      gs.all (fun h => (net.getGate h).isSome) = true →
      nand_evaluate_all net sigs gs fuel budget = some (r, net2) →
      AtRest net2 = true ∧ (∀ e, r = Except.error e → net2 = net)) ∧
    (∀ (net : Network) (sigs : Nat → Bool) (gs : List Nat)
       (fuel budget fuel2 budget2 : Nat) (l1 : Int) (s1 : List Bool) (net2 : Network)
       (l2 : Int) (s2 : List Bool) (net3 : Network),
      Wf net = true → AtRest net = true →
      gs.all (fun h => (net.getGate h).isSome) = true →
      nand_evaluate_all net sigs gs fuel budget = some (Except.ok (l1, s1), net2) →
      nand_evaluate_all net2 sigs gs fuel2 budget2 = some (Except.ok (l2, s2), net3) →
      s2 = s1 ∧ l2 = l1) := by
  constructor
  · intro net sigs gs fuel budget r net2 hwf hat hlv hp
    rw [List.all_eq_true] at hlv
    have hwfp := (Wf_iff net).mp hwf
    have hatp := (AtRest_iff net).mp hat
    cases r with
    | error e =>
      have hn := nand_evaluate_all_err hwfp hatp sigs gs fuel budget hlv hp
      subst hn
      exact ⟨hat, fun _ _ => rfl⟩
    | ok p =>
      obtain ⟨lv, sv⟩ := p
      obtain ⟨order, hnd, htopo, hgsub, holive, hnet2, -, -⟩ :=
        nand_evaluate_all_spec hwfp hatp sigs gs fuel budget hlv hp
      refine ⟨?_, ?_⟩
      · rw [hnet2]
        exact (AtRest_iff _).mpr (AtRestP_evaluate_sorted sigs order hatp)
      · intro e he
        cases he
  · intro net sigs gs fuel budget fuel2 budget2 l1 s1 net2 l2 s2 net3 hwf hat hlv hp1 hp2
    rw [List.all_eq_true] at hlv
    have hwfp := (Wf_iff net).mp hwf
    have hatp := (AtRest_iff net).mp hat
    obtain ⟨o1, hnd1, htopo1, hgsub1, holive1, hnet2, hs1, hl1⟩ :=
      nand_evaluate_all_spec hwfp hatp sigs gs fuel budget hlv hp1
    have hsh : ∀ u, (net2.getGate u).isSome = (net.getGate u).isSome ∧
        (net2.gateD u).inputs = (net.gateD u).inputs ∧
        (net2.gateD u).outputs = (net.gateD u).outputs ∧
        (net2.gateD u).status = (net.gateD u).status := by
      intro u
      rw [hnet2]
      exact evaluate_sorted_shape sigs o1 net u
    have hwfp2 : WfP net2 := WfP_of_shape (fun u => (hsh u).1)
      (fun u => (hsh u).2.1) (fun u => (hsh u).2.2.1) hwfp
    have hatp2 : AtRestP net2 := by
      rw [hnet2]
      exact AtRestP_evaluate_sorted sigs o1 hatp
    have hlv2 : ∀ g, g ∈ gs → (net2.getGate g).isSome = true := by
      intro g hg
      rw [(hsh g).1]
      exact hlv g hg
    obtain ⟨o2, hnd2, htopo2, hgsub2, holive2, hnet3, hs2, hl2⟩ :=
      nand_evaluate_all_spec hwfp2 hatp2 sigs gs fuel2 budget2 hlv2 hp2
    have E2 : ∀ h, h ∈ o1 →
        (net2.gateD h).signal = specSignal net2 sigs (net2.gateD h) ∧
        (net2.gateD h).crit_path_len = specCrit net2 (net2.gateD h) := by
      intro h hg
      rw [hnet2]
      exact evaluate_sorted_eqn sigs hwfp hnd1 htopo1 hg (holive1 h hg)
    have E3 : ∀ h, h ∈ o2 →
        (net3.gateD h).signal = specSignal net3 sigs (net3.gateD h) ∧
        (net3.gateD h).crit_path_len = specCrit net3 (net3.gateD h) := by
      intro h hg
      rw [hnet3]
      exact evaluate_sorted_eqn sigs hwfp2 hnd2 htopo2 hg (holive2 h hg)
    have hinp3 : ∀ u, (net3.gateD u).inputs = (net2.gateD u).inputs := by
      intro u
      rw [hnet3]
      exact (evaluate_sorted_shape sigs o2 net2 u).2.1
    have htopo1n : TopoOk net2 o1.reverse :=
      TopoOk_congr (fun u => ((hsh u).2.1).symm) o1.reverse htopo1
    have hAgree := values_agree sigs hinp3 o2 htopo2 E3 o1 [] htopo1n E2
      (fun u hu _ => absurd hu (List.not_mem_nil u))
    constructor
    · rw [hs2, hs1]
      refine List.map_congr_left ?_
      intro h hg
      exact (hAgree h (hgsub1 h hg) (hgsub2 h hg)).1
    · rw [hl2, hl1]
      refine foldl_congr_mem gs _ _ 0 ?_
      intro h hg acc
      rw [(hAgree h (hgsub1 h hg) (hgsub2 h hg)).2]

theorem claim_C5_witness :
    (AtRest exEvalNet = true ∧
      ∀ e, (Except.ok ((1 : Int), [false]) : Except Err (Int × List Bool)) =
        Except.error e → exEvalNet = exNet) ∧
    ([false] = [false] ∧ (1 : Int) = 1) :=
  ⟨claim_C5_status_restoration_and_idempotence.1 exNet (fun _ => true) [0] 9 9
      (Except.ok (1, [false])) exEvalNet (by decide) (by decide) (by decide) rfl,
   claim_C5_status_restoration_and_idempotence.2 exNet (fun _ => true) [0] 9 9 9 9
      1 [false] exEvalNet 1 [false] exEvalNet
      (by decide) (by decide) (by decide) rfl rfl⟩

/-! Caller order irrelevance of `evaluate`. -/

theorem foldl_max_perm (c : Nat → Int) {l1 l2 : List Nat} (hp : l1.Perm l2) :
    ∀ b : Int,
      l1.foldl (fun acc h => if acc < c h then c h else acc) b =
      l2.foldl (fun acc h => if acc < c h then c h else acc) b := by
  induction hp with
  | nil =>
    intro b
    rfl
  | cons x _ ih =>
    intro b
    simp only [List.foldl_cons]
    exact ih _
  | swap x y l =>
    intro b
    simp only [List.foldl_cons]
    have he : (if (if b < c y then c y else b) < c x then c x
        else (if b < c y then c y else b)) =
        (if (if b < c x then c x else b) < c y then c y
        else (if b < c x then c x else b)) := by
      rw [if_lt_max, if_lt_max, if_lt_max, if_lt_max, max_assoc,
          max_comm (c y) (c x), ← max_assoc]
    rw [he]
  | trans _ _ ih1 ih2 =>
    intro b
    exact (ih1 b).trans (ih2 b)

/-- Claim C8: two successful evaluate calls on the same network whose
requested handle sequences are permutations of each other compute the same
signal and the same critical path for each individual gate and return the
same overall maximal critical path; each returned signal sequence follows
its caller's requested order. -/
theorem claim_C8_caller_order_irrelevant :
    ∀ (net : Network) (sigs : Nat → Bool) (gs1 gs2 : List Nat)
      (fuel1 budget1 fuel2 budget2 : Nat) (l1 : Int) (s1 : List Bool) (net2 : Network)
      (l2 : Int) (s2 : List Bool) (net3 : Network),
      Wf net = true → AtRest net = true →
      gs1.all (fun h => (net.getGate h).isSome) = true →
      gs1.Perm gs2 →
      nand_evaluate_all net sigs gs1 fuel1 budget1 = some (Except.ok (l1, s1), net2) →
      nand_evaluate_all net sigs gs2 fuel2 budget2 = some (Except.ok (l2, s2), net3) →
      (∀ h, h ∈ gs1 →
        (net3.gateD h).signal = (net2.gateD h).signal ∧
        (net3.gateD h).crit_path_len = (net2.gateD h).crit_path_len) ∧
      l2 = l1 ∧
      s1 = gs1.map (fun h => (net2.gateD h).signal) ∧
      s2 = gs2.map (fun h => (net3.gateD h).signal) := by
  intro net sigs gs1 gs2 fuel1 budget1 fuel2 budget2 l1 s1 net2 l2 s2 net3
    hwf hat hlv hperm hp1 hp2
  rw [List.all_eq_true] at hlv
  have hwfp := (Wf_iff net).mp hwf
  have hatp := (AtRest_iff net).mp hat
  have hlv2 : ∀ g, g ∈ gs2 → (net.getGate g).isSome = true := by
    intro g hg
    exact hlv g (hperm.mem_iff.mpr hg)
  obtain ⟨o1, hnd1, htopo1, hgsub1, holive1, hnet2, hs1, hl1⟩ :=
    nand_evaluate_all_spec hwfp hatp sigs gs1 fuel1 budget1 hlv hp1
  obtain ⟨o2, hnd2, htopo2, hgsub2, holive2, hnet3, hs2, hl2⟩ :=
    nand_evaluate_all_spec hwfp hatp sigs gs2 fuel2 budget2 hlv2 hp2
  have hsh2 : ∀ u, (net2.gateD u).inputs = (net.gateD u).inputs := by
    intro u
    rw [hnet2]
    exact (evaluate_sorted_shape sigs o1 net u).2.1
  have hsh3 : ∀ u, (net3.gateD u).inputs = (net.gateD u).inputs := by
    intro u
    rw [hnet3]
    exact (evaluate_sorted_shape sigs o2 net u).2.1
  have hinp3 : ∀ u, (net3.gateD u).inputs = (net2.gateD u).inputs := by
    intro u
    rw [hsh3 u, hsh2 u]
  have E2 : ∀ h, h ∈ o1 →
      (net2.gateD h).signal = specSignal net2 sigs (net2.gateD h) ∧
      (net2.gateD h).crit_path_len = specCrit net2 (net2.gateD h) := by
    intro h hg
    rw [hnet2]
    exact evaluate_sorted_eqn sigs hwfp hnd1 htopo1 hg (holive1 h hg)
  have E3 : ∀ h, h ∈ o2 →
      (net3.gateD h).signal = specSignal net3 sigs (net3.gateD h) ∧
      (net3.gateD h).crit_path_len = specCrit net3 (net3.gateD h) := by
    intro h hg
    rw [hnet3]
    exact evaluate_sorted_eqn sigs hwfp hnd2 htopo2 hg (holive2 h hg)
  have htopo1n : TopoOk net2 o1.reverse :=
    TopoOk_congr (fun u => (hsh2 u).symm) o1.reverse htopo1
  have htopo2n : TopoOk net2 o2.reverse :=
    TopoOk_congr (fun u => (hsh2 u).symm) o2.reverse htopo2
  have hAgree := values_agree sigs hinp3 o2 htopo2n E3 o1 [] htopo1n E2
    (fun u hu _ => absurd hu (List.not_mem_nil u))
  have hAg : ∀ h, h ∈ gs1 →
      (net3.gateD h).signal = (net2.gateD h).signal ∧
      (net3.gateD h).crit_path_len = (net2.gateD h).crit_path_len := by
    intro h hg
    exact hAgree h (hgsub1 h hg) (hgsub2 h (hperm.mem_iff.mp hg))
  refine ⟨hAg, ?_, hs1, hs2⟩
  rw [hl2, hl1]
  have hstep : gs2.foldl
      (fun acc h => if acc < (net3.gateD h).crit_path_len
        then (net3.gateD h).crit_path_len else acc) 0 =
      gs2.foldl
      (fun acc h => if acc < (net2.gateD h).crit_path_len
        then (net2.gateD h).crit_path_len else acc) 0 := by
    refine foldl_congr_mem gs2 _ _ 0 ?_
    intro h hg acc
    rw [(hAg h (hperm.mem_iff.mpr hg)).2]
  rw [hstep]
  exact foldl_max_perm (fun h => (net2.gateD h).crit_path_len) hperm.symm 0

theorem claim_C8_witness :
    ∃ net2 net3,
      nand_evaluate_all exNet (fun _ => true) [0, 1] 20 20 =
        some (Except.ok ((2 : Int), [false, true]), net2) ∧
      nand_evaluate_all exNet (fun _ => true) [1, 0] 20 20 =
        some (Except.ok ((2 : Int), [true, false]), net3) ∧
      (∀ h, h ∈ [0, 1] →
        (net3.gateD h).signal = (net2.gateD h).signal ∧
        (net3.gateD h).crit_path_len = (net2.gateD h).crit_path_len) ∧
      ((2 : Int) = 2 ∧
        [false, true] = [0, 1].map (fun h => (net2.gateD h).signal) ∧
        [true, false] = [1, 0].map (fun h => (net3.gateD h).signal)) := by
  refine ⟨_, _, rfl, rfl, ?_⟩
  have h := claim_C8_caller_order_irrelevant exNet (fun _ => true) [0, 1] [1, 0]
    20 20 20 20 2 [false, true] _ 2 [true, false] _
    (by decide) (by decide) (by decide) (List.Perm.swap 1 0 []) rfl rfl
  exact ⟨h.1, h.2⟩

/-! A zero-arity gate: creation and evaluation. -/

theorem list_set_concat {α : Type} : ∀ (l : List α) (a b : α),
    (l ++ [a]).set l.length b = l ++ [b]
  | [], _, _ => rfl
  | x :: rest, a, b => by
    show x :: ((rest ++ [a]).set rest.length b) = x :: (rest ++ [b])
    rw [list_set_concat rest a b]

theorem list_getElem?_concat {α : Type} : ∀ (l : List α) (a : α),
    (l ++ [a])[l.length]? = some a
  | [], _ => rfl
  | x :: rest, a => by
    show (x :: (rest ++ [a]))[rest.length + 1]? = some a
    rw [List.getElem?_cons_succ]
    exact list_getElem?_concat rest a

theorem concatNet_getGate (L : List (Option nand_t)) (g : nand_t) :
    (⟨L ++ [some g]⟩ : Network).getGate L.length = some g := by
  rw [Network.getGate_eq]
  show ((L ++ [some g])[L.length]?).getD none = some g
  rw [list_getElem?_concat]
  rfl

theorem concatNet_gateD (L : List (Option nand_t)) (g : nand_t) :
    (⟨L ++ [some g]⟩ : Network).gateD L.length = g :=
  Network.gateD_eq_of_getGate (concatNet_getGate L g)

theorem concatNet_modify (L : List (Option nand_t)) (g : nand_t) (f : nand_t → nand_t) :
    (⟨L ++ [some g]⟩ : Network).modifyGate L.length f = ⟨L ++ [some (f g)]⟩ := by
  unfold Network.modifyGate
  rw [concatNet_getGate]
  show Network.mk ((L ++ [some g]).set L.length (some (f g))) = _
  rw [list_set_concat]

theorem zeroGate_topo_sort (L : List (Option nand_t)) (f e : Nat) :
    topo_sort (f + 1) ⟨L ++ [some ⟨0, [], [], topo_sort_status.NOT_VISITED, false⟩]⟩
      [L.length] (e + 5) =
      some (none, [L.length],
        ⟨L ++ [some ⟨0, [], [], topo_sort_status.NOT_VISITED, false⟩]⟩) := by
  unfold topo_sort
  dsimp only
  simp only [topoSortLoop]
  rw [concatNet_gateD]
  rw [if_neg (fun hc : topo_sort_status.NOT_VISITED = topo_sort_status.VISITED =>
    by cases hc)]
  unfold topo_sort_dfs
  dsimp only
  rw [concatNet_modify]
  dsimp only
  have hpn : process_node
      ⟨⟨L ++ [some ⟨0, [], [], topo_sort_status.CURRENTLY_PROCESSING, false⟩]⟩,
        [⟨L.length, 0⟩], [], [L.length], e + 1⟩ =
      (none,
       ⟨⟨L ++ [some ⟨0, [], [], topo_sort_status.VISITED, false⟩]⟩,
        [], [L.length], [L.length], e⟩) := by
    unfold process_node
    dsimp only
    rw [concatNet_gateD,
        if_pos (show (0 : Nat) = nand_t.input_count
          ⟨0, [], [], topo_sort_status.CURRENTLY_PROCESSING, false⟩ from rfl)]
    rw [concatNet_modify]
  rw [dfsLoop_step hpn rfl f, dfsLoop_empty rfl f]
  simp only [topoSortLoop]
  have hclr : clearGatesLoop [L.length]
      ⟨L ++ [some ⟨0, [], [], topo_sort_status.VISITED, false⟩]⟩ =
      ⟨L ++ [some ⟨0, [], [], topo_sort_status.NOT_VISITED, false⟩]⟩ := by
    simp only [clearGatesLoop]
    rw [concatNet_modify]
  rw [hclr]
  rfl

theorem zeroGate_evaluate_sorted (L : List (Option nand_t)) (sigs : Nat → Bool) :
    evaluate_sorted ⟨L ++ [some ⟨0, [], [], topo_sort_status.NOT_VISITED, false⟩]⟩
      sigs [L.length] =
      ⟨L ++ [some ⟨0, [], [], topo_sort_status.NOT_VISITED, false⟩]⟩ := by
  show evalStep sigs
    ⟨L ++ [some ⟨0, [], [], topo_sort_status.NOT_VISITED, false⟩]⟩ L.length = _
  unfold evalStep
  dsimp only
  rw [concatNet_modify]
  dsimp only
  rw [concatNet_gateD]
  simp only [nand_t.input_count, List.length_nil, List.range_zero, List.foldl_nil]
  rw [concatNet_modify]
  rfl

/-- Claim C10: creating a gate with arity 0 succeeds (absent allocation
failure) and is not rejected as an invalid argument, and evaluating the new
gate succeeds for any signal assignment — it has no input slots, so no
empty-slot failure can arise — returning signal false (NOT of the empty
AND) and critical-path length 0, with the arena left exactly as creation
made it. -/
theorem claim_C10_zero_arity_create_and_evaluate :
    ∀ (net : Network) (sigs : Nat → Bool) (f e : Nat),
      nand_new net 0 true =
        (some net.gates.length,
          ⟨net.gates ++ [some ⟨0, [], [], topo_sort_status.NOT_VISITED, false⟩]⟩) ∧
      nand_evaluate_all
          ⟨net.gates ++ [some ⟨0, [], [], topo_sort_status.NOT_VISITED, false⟩]⟩
          sigs [net.gates.length] (f + 1) (e + 6) =
        some (Except.ok ((0 : Int), [false]),
          ⟨net.gates ++ [some ⟨0, [], [], topo_sort_status.NOT_VISITED, false⟩]⟩) := by
  intro net sigs f e
  refine ⟨rfl, ?_⟩
  unfold nand_evaluate_all
  dsimp only
  rw [zeroGate_topo_sort net.gates f e]
  dsimp only
  rw [zeroGate_evaluate_sorted net.gates sigs]
  rw [List.foldl_cons, List.foldl_nil, List.map_cons, List.map_nil, concatNet_gateD]
  rfl
